import Mathlib

/-!
# Gravis UltraSound (GF1) voice model

A shallow embedding of the voice control-track logic of `src/hardware/gus.cpp`
(`Voice::IncrementCtrlPos`, `Voice::PopWavePos`, `Voice::PopVolPos`,
`Voice::GetVolScalar`, `Voice::Read8BitSample`, `Voice::Read16BitSample`,
`Voice::WriteVolRate`, `Voice::UpdateCtrlState` and the volume cases of
`Gus::WriteToRegister`).

Conventions
* `int32_t` values are `Int`; every `int32_t` addition or subtraction of the
  source is wrapped with `wrapI32` (two's complement).
* `uint8_t`, `uint16_t`, `uint32_t` values are `Nat`; the bit operations of the
  source are the `Nat` bit operations.
* The `irq_state` reference held by a `VoiceCtrl` is passed explicitly: the
  volume track's reference is `VoiceIrq.vol_state`, the wave track's reference
  is `VoiceIrq.wave_state`.
* A failing `assert` is the result `none`, and so is the dereference of a null
  pointer or an access outside an array.
* Theorems about a step of `IncrementCtrlPos` assume `VoiceCtrl.InRange`: the
  four 32-bit members lie in `[-2^29, 2^29)`, which holds for every value the
  registers can write (wave addresses are 29-bit, volume positions at most
  `4095 * 512`) and excludes `int32_t` overflow inside one step.
-/

namespace Gus

/-! ## Constants -/

def RAM_SIZE : Nat := 1048576
def MAX_VOICES : Nat := 32
def MIN_VOICES : Nat := 14
def VOICE_DEFAULT_STATE : Nat := 3
def PAN_DEFAULT_POSITION : Nat := 7
def PAN_POSITIONS : Nat := 16
def VOLUME_INC_SCALAR : Int := 512
def VOLUME_LEVELS : Nat := 4096
def WAVE_WIDTH : Int := 512

/-! Control states (`enum CTRL`). -/

def RESET : Nat := 0x01
def STOPPED : Nat := 0x02
def DISABLED : Nat := RESET ||| STOPPED
def BIT16 : Nat := 0x04
def LOOP : Nat := 0x08
def BIDIRECTIONAL : Nat := 0x10
def RAISEIRQ : Nat := 0x20
def DECREASING : Nat := 0x40

/-! ## Machine integers -/

/-- Two's-complement reduction of an integer to the `int32_t` range. -/
def wrapI32 (x : Int) : Int := (x + 2147483648) % 4294967296 - 2147483648

/-- Conversion `static_cast<uint32_t>` of an `int32_t`. -/
def toU32 (x : Int) : Nat := (x % 4294967296).toNat

/-- Conversion `static_cast<size_t>` of an `int32_t` (a 64-bit `size_t`). -/
def toSizeT (x : Int) : Nat := (x % 18446744073709551616).toNat

/-- Conversion `static_cast<int8_t>` of a byte. -/
def toI8 (b : Nat) : Int := if b % 256 < 128 then (b % 256 : Nat) else (b % 256 : Nat) - 256

/-- Conversion `static_cast<int16_t>` of a 16-bit word. -/
def toI16 (w : Nat) : Int := if w % 65536 < 32768 then (w % 65536 : Nat) else (w % 65536 : Nat) - 65536

/-- Modelled from the spec: `ceil_sdivide` (declared outside `gus.cpp`) is the
signed integer division that rounds up, "divided back down by 512 (rounding
up)" and "Increment = ceil(magnitude * 512 / bank_decimator)"; it is only ever
called with a positive divisor. -/
def ceil_sdivide (x y : Int) : Int := -((-x) / y)

/-- Modelled from the spec: `host_readw` (declared outside `gus.cpp`) is the
"little-endian 16-bit load" of two consecutive RAM bytes. -/
def host_readw (ram : Nat → Nat) (i : Nat) : Nat := ram i % 256 + 256 * (ram (i + 1) % 256)

/-! ## Data model -/

/-- The shared voice IRQ state (`struct VoiceIrq`). -/
structure VoiceIrq where
  vol_state : Nat
  wave_state : Nat
  status : Nat
deriving DecidableEq, Repr

/-- A control track (`struct VoiceCtrl`), without its `irq_state` reference. -/
structure VoiceCtrl where
  start : Int
  end_ : Int
  pos : Int
  inc : Int
  rate : Nat
  state : Nat
deriving DecidableEq, Repr

/-- The data members of `class Voice`. -/
structure Voice where
  vol_ctrl : VoiceCtrl
  wave_ctrl : VoiceCtrl
  generated_8bit_ms : Nat
  generated_16bit_ms : Nat
  irq_mask : Nat
  pan_position : Nat
deriving DecidableEq, Repr

/-- A freshly constructed control track: all members zero, state 3. -/
def VoiceCtrl.init : VoiceCtrl :=
  { start := 0, end_ := 0, pos := 0, inc := 0, rate := 0, state := VOICE_DEFAULT_STATE }

/-- The constructor `Voice::Voice(num, irq)`: `irq_mask(1 << num)`. -/
def Voice.init (num : Nat) : Voice :=
  { vol_ctrl := VoiceCtrl.init, wave_ctrl := VoiceCtrl.init,
    generated_8bit_ms := 0, generated_16bit_ms := 0,
    irq_mask := (1 <<< num) % 4294967296, pan_position := PAN_DEFAULT_POSITION }

/-! ## Control-track advance -/

/-- The method `Voice::CheckWaveRolloverCondition`. -/
def CheckWaveRolloverCondition (v : Voice) : Bool :=
  (v.vol_ctrl.state &&& BIT16 != 0) && !(v.wave_ctrl.state &&& LOOP != 0)

/-- The method `Voice::IncrementCtrlPos`, on the track `ctrl`, the bitmask
`irq_state` the track refers to and the voice's `irq_mask`. -/
def IncrementCtrlPos (ctrl : VoiceCtrl) (irq_state irq_mask : Nat)
    (dont_loop_or_restart : Bool) : VoiceCtrl × Nat :=
  if ctrl.state &&& DISABLED ≠ 0 then (ctrl, irq_state)
  else
    let pos1 : Int :=
      if ctrl.state &&& DECREASING ≠ 0 then wrapI32 (ctrl.pos - ctrl.inc)
      else wrapI32 (ctrl.pos + ctrl.inc)
    let remaining : Int :=
      if ctrl.state &&& DECREASING ≠ 0 then wrapI32 (ctrl.start - pos1)
      else wrapI32 (pos1 - ctrl.end_)
    -- Not yet reaching a boundary
    if remaining < 0 then ({ ctrl with pos := pos1 }, irq_state)
    else
      -- Generate an IRQ if requested
      let irq1 : Nat :=
        if ctrl.state &&& RAISEIRQ ≠ 0 then irq_state ||| irq_mask else irq_state
      -- Allow the current position to move beyond its limit
      if dont_loop_or_restart then ({ ctrl with pos := pos1 }, irq1)
      else if ctrl.state &&& LOOP ≠ 0 then
        let state2 : Nat :=
          if ctrl.state &&& BIDIRECTIONAL ≠ 0 then ctrl.state ^^^ DECREASING
          else ctrl.state
        let pos2 : Int :=
          if state2 &&& DECREASING ≠ 0 then wrapI32 (ctrl.end_ - remaining)
          else wrapI32 (ctrl.start + remaining)
        ({ ctrl with pos := pos2, state := state2 }, irq1)
      else
        let state2 : Nat := ctrl.state ||| 1
        let pos2 : Int := if state2 &&& DECREASING ≠ 0 then ctrl.start else ctrl.end_
        ({ ctrl with pos := pos2, state := state2 }, irq1)

/-- The method `Voice::PopWavePos`: the position before the advance, and the
voice and shared IRQ state after it. -/
def PopWavePos (v : Voice) (irq : VoiceIrq) : Int × Voice × VoiceIrq :=
  let pos := v.wave_ctrl.pos
  let r := IncrementCtrlPos v.wave_ctrl irq.wave_state v.irq_mask (CheckWaveRolloverCondition v)
  (pos, { v with wave_ctrl := r.1 }, { irq with wave_state := r.2 })

/-- The method `Voice::PopVolPos`. -/
def PopVolPos (v : Voice) (irq : VoiceIrq) : Int × Voice × VoiceIrq :=
  let pos := v.vol_ctrl.pos
  let r := IncrementCtrlPos v.vol_ctrl irq.vol_state v.irq_mask false
  (pos, { v with vol_ctrl := r.1 }, { irq with vol_state := r.2 })

/-! ## Sample fetch -/

/-- The RAM offset `i` computed by `Voice::Read8BitSample`. -/
def Read8BitSample_i (addr : Int) : Nat := toU32 addr &&& 0xFFFFF

/-- The RAM offset `i` computed by `Voice::Read16BitSample`. -/
def Read16BitSample_i (addr : Int) : Nat :=
  let lower := toU32 addr &&& 0xC0000
  let upper := toU32 addr &&& 0x1FFFF
  lower ||| ((upper <<< 1) % 4294967296)

/-- The method `Voice::Read8BitSample`; the float result is the exact integer
`int8 * 256`. -/
def Read8BitSample (ram : Nat → Nat) (addr : Int) : Option Int :=
  let i := Read8BitSample_i addr
  if i < RAM_SIZE then some (toI8 (ram i) * 256) else none

/-- The method `Voice::Read16BitSample`. -/
def Read16BitSample (ram : Nat → Nat) (addr : Int) : Option Int :=
  let i := Read16BitSample_i addr
  if i < RAM_SIZE then some (toI16 (host_readw ram i)) else none

/-- The method `Voice::Is8Bit`. -/
def Is8Bit (v : Voice) : Bool := !(v.wave_ctrl.state &&& BIT16 != 0)

/-! ## Volume -/

/-- The table index `i` computed by `Voice::GetVolScalar` and by the register
`0x89` read, before the conversion to an unsigned type. -/
def volIndex (pos : Int) : Int := ceil_sdivide pos VOLUME_INC_SCALAR

/-- The method `Voice::GetVolScalar`, returning the table index it looks up
(`vol_scalars[i]`); `none` when `assert(i < VOLUME_LEVELS)` fails. -/
def GetVolScalar (v : Voice) (irq : VoiceIrq) : Option (Nat × Voice × VoiceIrq) :=
  let r := PopVolPos v irq
  let i := toSizeT (volIndex r.1)
  if i < VOLUME_LEVELS then some (i, r.2.1, r.2.2) else none

/-- The method `Voice::WriteVolRate`; `none` when the assertion on the
increment fails. -/
def WriteVolRate (v : Voice) (val : Nat) : Option Voice :=
  let bank_lengths : Nat := 63
  let pos_in_bank : Int := ((val &&& bank_lengths : Nat) : Int)
  let decimator : Int := ((1 <<< (3 * (val >>> 6)) : Nat) : Int)
  let inc := ceil_sdivide (pos_in_bank * VOLUME_INC_SCALAR) decimator
  if 0 ≤ inc ∧ inc ≤ (bank_lengths : Int) * VOLUME_INC_SCALAR then
    some { v with vol_ctrl := { v.vol_ctrl with rate := val, inc := inc } }
  else none

/-- The method `Voice::UpdateCtrlState`: the new track, the new bitmask and
whether the bitmask changed. -/
def UpdateCtrlState (ctrl : VoiceCtrl) (irq_state irq_mask state : Nat) :
    VoiceCtrl × Nat × Bool :=
  let irq1 : Nat :=
    if state &&& 0xa0 = 0xa0 then irq_state ||| irq_mask
    else irq_state &&& (0xFFFFFFFF ^^^ irq_mask)
  ({ ctrl with state := state &&& 0x7f }, irq1, decide (irq_state ≠ irq1))

/-- The method `Voice::UpdateVolState`. -/
def UpdateVolState (v : Voice) (irq : VoiceIrq) (state : Nat) : Voice × VoiceIrq × Bool :=
  let r := UpdateCtrlState v.vol_ctrl irq.vol_state v.irq_mask state
  ({ v with vol_ctrl := r.1 }, { irq with vol_state := r.2.1 }, r.2.2)

/-- The method `Voice::UpdateWaveState`. -/
def UpdateWaveState (v : Voice) (irq : VoiceIrq) (state : Nat) : Voice × VoiceIrq × Bool :=
  let r := UpdateCtrlState v.wave_ctrl irq.wave_state v.irq_mask state
  ({ v with wave_ctrl := r.1 }, { irq with wave_state := r.2.1 }, r.2.2)


/-! ## Sample generation and the volume registers -/

/-- One iteration of the loop body of `Voice::GenerateSamples`, as far as the
voice and the shared IRQ state go: the `PopWavePos` of `GetSample`, then
`GetVolScalar`; `none` when the assertion of `GetVolScalar` fails. The sample
values and the stream are not part of this model. -/
def GenerateFrame (v : Voice) (irq : VoiceIrq) : Option (Voice × VoiceIrq) :=
  let w := PopWavePos v irq
  (GetVolScalar w.2.1 w.2.2).map fun r => r.2

/-- The loop of `Voice::GenerateSamples`: `frames` iterations of the body. -/
def GenerateFrames : Nat → Voice → VoiceIrq → Option (Voice × VoiceIrq)
  | 0, v, irq => some (v, irq)
  | n + 1, v, irq => (GenerateFrame v irq).bind fun s => GenerateFrames n s.1 s.2

/-- The method `Voice::GenerateSamples`, as far as the voice and the shared
IRQ state go. -/
def GenerateSamples (v : Voice) (irq : VoiceIrq) (requested_frames : Nat) :
    Option (Voice × VoiceIrq) :=
  if v.vol_ctrl.state &&& v.wave_ctrl.state &&& DISABLED ≠ 0 then some (v, irq)
  else
    (GenerateFrames requested_frames v irq).map fun s =>
      (if Is8Bit s.1
       then { s.1 with generated_8bit_ms := (s.1.generated_8bit_ms + 1) % 4294967296 }
       else { s.1 with generated_16bit_ms := (s.1.generated_16bit_ms + 1) % 4294967296 },
       s.2)

/-- Case `0x6` of `Gus::WriteToRegister` on the selected voice (volume rate). -/
def WriteToRegister_0x6 (register_data : Nat) (v : Voice) : Option Voice :=
  WriteVolRate v (register_data >>> 8)

/-- Case `0x7` of `Gus::WriteToRegister` on the selected voice (volume start). -/
def WriteToRegister_0x7 (register_data : Nat) (v : Voice) : Voice :=
  let data : Nat := (register_data >>> 8) % 256
  { v with vol_ctrl := { v.vol_ctrl with start := ((data <<< 4 : Nat) : Int) * VOLUME_INC_SCALAR } }

/-- Case `0x8` of `Gus::WriteToRegister` on the selected voice (volume end). -/
def WriteToRegister_0x8 (register_data : Nat) (v : Voice) : Voice :=
  let data : Nat := (register_data >>> 8) % 256
  { v with vol_ctrl := { v.vol_ctrl with end_ := ((data <<< 4 : Nat) : Int) * VOLUME_INC_SCALAR } }

/-- Case `0x9` of `Gus::WriteToRegister` on the selected voice (current volume). -/
def WriteToRegister_0x9 (register_data : Nat) (v : Voice) : Voice :=
  { v with vol_ctrl := { v.vol_ctrl with
      pos := ((register_data >>> 4 : Nat) : Int) * VOLUME_INC_SCALAR } }

/-- Case `0xD` of `Gus::WriteToRegister` on the selected voice (volume
control); the Boolean says whether `CheckVoiceIrq` is called afterwards. -/
def WriteToRegister_0xD (register_data : Nat) (v : Voice) (irq : VoiceIrq) :
    Voice × VoiceIrq × Bool :=
  UpdateVolState v irq ((register_data >>> 8) % 256)

/-- Case `0x89` of `Gus::ReadFromRegister` on the selected voice: the `int`
index `i` that `assert(i < VOLUME_LEVELS)` checks. -/
def ReadFromRegister_0x89_i (v : Voice) : Int := volIndex v.vol_ctrl.pos

/-- Voice 0 after the register writes `0x07 := 0xFE00` (volume start),
`0x08 := 0xFF00` (volume end), `0x09 := 0xFF00` (current volume),
`0x06 := 0x3F00` (volume rate) and `0x0D := 0x0800` (volume control: LOOP). -/
def overrunVoice : Option (Voice × VoiceIrq) :=
  (WriteToRegister_0x6 0x3F00
    (WriteToRegister_0x9 0xFF00
      (WriteToRegister_0x8 0xFF00 (WriteToRegister_0x7 0xFE00 (Voice.init 0))))).map
    fun v => ((WriteToRegister_0xD 0x0800 v ⟨0, 0, 0⟩).1, (WriteToRegister_0xD 0x0800 v ⟨0, 0, 0⟩).2.1)

/-! ## Ranges and sample inputs -/

/-- All four 32-bit members of the track lie in the 30-bit signed range, in
which no `int32_t` operation of `IncrementCtrlPos` overflows. -/
def VoiceCtrl.InRange (c : VoiceCtrl) : Prop :=
  (-536870912 ≤ c.start ∧ c.start < 536870912) ∧ (-536870912 ≤ c.end_ ∧ c.end_ < 536870912) ∧
  (-536870912 ≤ c.pos ∧ c.pos < 536870912) ∧ (-536870912 ≤ c.inc ∧ c.inc < 536870912)

instance (c : VoiceCtrl) : Decidable c.InRange := by
  unfold VoiceCtrl.InRange; infer_instance

/-- A voice in the rollover configuration: volume state BIT16, wave state
RAISEIRQ only, wave track `[0, 10]` at position `pos` with increment 2. -/
def rolloverVoice (pos : Int) : Voice :=
  { Voice.init 3 with
    vol_ctrl := { VoiceCtrl.init with state := BIT16 },
    wave_ctrl := { start := 0, end_ := 10, pos := pos, inc := 2, rate := 4, state := RAISEIRQ } }

/-- A track over `[0, 10]` at position 9 with increment 4 and the given state. -/
def sampleTrack (state : Nat) : VoiceCtrl :=
  { start := 0, end_ := 10, pos := 9, inc := 4, rate := 0, state := state }

/-- A looping track over `[0, 10]` at position 5 whose increment 100 exceeds
the loop length. -/
def longStepTrack : VoiceCtrl :=
  { start := 0, end_ := 10, pos := 5, inc := 100, rate := 0, state := LOOP }

/-! ## Sample values and the stream

The `float` values of the audio path are exact rationals here. -/

/-- Modelled from the spec: `MAX_AUDIO` (declared outside `gus.cpp`) is the
top of "the 16-bit signed range", the "full scale". -/
def AUDIO_SAMPLE_MAX : ℚ := 32767

/-- Modelled from the spec: `MIN_AUDIO` (declared outside `gus.cpp`) is the
bottom of "the 16-bit signed range". -/
def AUDIO_SAMPLE_MIN : ℚ := -32768

/-- The sample read of `Voice::GetSample`: `Read8BitSample` or
`Read16BitSample` according to `Is8Bit`. -/
def ReadSample (ram : Nat → Nat) (v : Voice) (addr : Int) : Option Int :=
  if Is8Bit v then Read8BitSample ram addr else Read16BitSample ram addr

/-- The method `Voice::GetSample`: `pos / WAVE_WIDTH` truncates, and
`pos & (WAVE_WIDTH - 1)` on a two's-complement `int32_t` is `pos mod 512`;
`none` when an assertion fails. -/
def GetSample (ram : Nat → Nat) (v : Voice) (irq : VoiceIrq) : Option (ℚ × Voice × VoiceIrq) :=
  let p := PopWavePos v irq
  let pos := p.1
  let v1 := p.2.1
  let addr := Int.tdiv pos WAVE_WIDTH
  let fraction := pos % WAVE_WIDTH
  let should_interpolate : Bool := decide (v1.wave_ctrl.inc < WAVE_WIDTH) && decide (fraction ≠ 0)
  (ReadSample ram v1 addr).bind fun s0 =>
    (if should_interpolate then
      (ReadSample ram v1 (wrapI32 (addr + 1))).map fun s1 =>
        (s0 : ℚ) + ((s1 : ℚ) - (s0 : ℚ)) * (fraction : ℚ) * (1 / 512)
     else some (s0 : ℚ)).bind fun sample =>
      if AUDIO_SAMPLE_MIN ≤ sample ∧ sample ≤ AUDIO_SAMPLE_MAX then some (sample, v1, p.2.2)
      else none

/-- The loop of `Voice::GenerateSamples` with the stream: `frames` iterations
from stream index `i`, each adding the panned, volume-scaled sample to
`stream[i]` and `stream[i + 1]`. -/
def GenerateSamplesLoop (ram : Nat → Nat) (vol_scalars : Nat → ℚ) (pan_scalars : Nat → ℚ × ℚ) :
    Nat → Nat → (Nat → ℚ) → Voice → VoiceIrq → Option ((Nat → ℚ) × Voice × VoiceIrq)
  | 0, _, stream, v, irq => some (stream, v, irq)
  | n + 1, i, stream, v, irq =>
    (GetSample ram v irq).bind fun s =>
      (GetVolScalar s.2.1 s.2.2).bind fun g =>
        let sample := s.1 * vol_scalars g.1
        let v2 := g.2.1
        let stream1 := Function.update stream i
          (stream i + sample * (pan_scalars v2.pan_position).1)
        let stream2 := Function.update stream1 (i + 1)
          (stream1 (i + 1) + sample * (pan_scalars v2.pan_position).2)
        GenerateSamplesLoop ram vol_scalars pan_scalars n (i + 2) stream2 v2 g.2.2

/-- The method `Voice::GenerateSamples` with its five arguments: the stream,
the RAM, the two tables and the frame count. -/
def GenerateSamplesStream (stream : Nat → ℚ) (ram : Nat → Nat) (vol_scalars : Nat → ℚ)
    (pan_scalars : Nat → ℚ × ℚ) (requested_frames : Nat) (v : Voice) (irq : VoiceIrq) :
    Option ((Nat → ℚ) × Voice × VoiceIrq) :=
  if v.vol_ctrl.state &&& v.wave_ctrl.state &&& DISABLED ≠ 0 then some (stream, v, irq)
  else
    (GenerateSamplesLoop ram vol_scalars pan_scalars requested_frames 0 stream v irq).map fun s =>
      (s.1,
       if Is8Bit s.2.1
       then { s.2.1 with generated_8bit_ms := (s.2.1.generated_8bit_ms + 1) % 4294967296 }
       else { s.2.1 with generated_16bit_ms := (s.2.1.generated_16bit_ms + 1) % 4294967296 },
       s.2.2)

/-- A voice whose tracks are disabled by different bits: volume state RESET
only, wave state STOPPED only; the volume position is the top index. -/
def mixedDisabledVoice : Voice :=
  { Voice.init 0 with
    vol_ctrl := { VoiceCtrl.init with pos := 4095 * 512, state := RESET },
    wave_ctrl := { VoiceCtrl.init with state := STOPPED } }

/-! ## The device

The data members of `class Gus` that the register file and the IRQ logic use.
Calls into the collaborators (interrupt controller, mixer channel, DMA
controller) are recorded in `effects`, in call order. The audio buffers
(`accumulator`, `scaled`, `peak`), the lookup tables and the I/O handler
objects are not part of this structure. -/

/-- A hardware timer (`struct Gus::Timer`); the `float` delay is an exact
rational. -/
structure Timer where
  delay : ℚ
  value : Nat
  has_expired : Bool
  is_counting_down : Bool
  is_masked : Bool
  should_raise_irq : Bool
deriving DecidableEq

def TIMER_1_DEFAULT_DELAY : ℚ := 80 / 1000
def TIMER_2_DEFAULT_DELAY : ℚ := 320 / 1000
def ADLIB_CMD_DEFAULT : Nat := 85

/-- The default member initialisers of `Timer`, with the given delay. -/
def Timer.init (delay : ℚ) : Timer :=
  { delay := delay, value := 0xff, has_expired := true, is_counting_down := false,
    is_masked := false, should_raise_irq := false }

/-- A call into a collaborator of the device. -/
inductive Effect where
  | PIC_ActivateIRQ (irq : Nat)
  | PIC_AddEvent_GUS_TimerEvent (delay : ℚ) (t : Nat)
  | PIC_AddEvent_GUS_DMA_Event
  | PIC_RemoveEvents_GUS_TimerEvent
  | audio_channel_Enable (enable : Bool)
  | audio_channel_SetFreq (rate : Nat)
  | dma_channel_Register_Callback (channel : Nat) (set : Bool)
  | dma_channel_Read (words addr : Nat)
  | dma_channel_Write (words addr : Nat)
deriving DecidableEq

set_option linter.dupNamespace false

/-- The data members of `class Gus`. `voice` is the selected voice as an index
into `voices` (`none` for `nullptr`); `dma_channel` is the channel number of
the DMA channel object (`none` for `nullptr`). -/
structure Gus where
  ram : Nat → Nat
  voices : Nat → Voice
  voice_irq : VoiceIrq
  voice : Option Nat
  dma_channel : Option Nat
  timers_0 : Timer
  timers_1 : Timer
  adlib_command_reg : Nat
  port_base : Nat
  active_voice_mask : Nat
  voice_index : Nat
  active_voices : Nat
  prev_logged_voices : Nat
  dram_addr : Nat
  playback_rate : Nat
  register_data : Nat
  selected_register : Nat
  mix_ctrl : Nat
  sample_ctrl : Nat
  timer_ctrl : Nat
  dma_addr : Nat
  dma_ctrl : Nat
  dma1 : Nat
  dma2 : Nat
  irq1 : Nat
  irq2 : Nat
  irq_status : Nat
  irq_enabled : Bool
  should_change_irq_dma : Bool
  effects : List Effect

/-- The tables `dma_addresses` and `irq_addresses` of `class Gus`. -/
def dma_addresses : List Nat := [0, 1, 3, 5, 6, 15, 0, 0]
def irq_addresses : List Nat := [0, 2, 5, 3, 7, 11, 12, 15]

/-- Modelled from the spec: `clamp` (declared outside `gus.cpp`) confines a
value to a closed range, as in "`active_voices ∈ [14, 32]`". -/
def clamp (x lo hi : Nat) : Nat := if x < lo then lo else if hi < x then hi else x

/-- Modelled from the spec: `ceil_udivide` (declared outside `gus.cpp`) is the
unsigned counterpart of the division "rounding up". -/
def ceil_udivide (x y : Nat) : Nat := (x + y - 1) / y

/-- Modelled from the spec: `GetDMAChannel` (declared outside `gus.cpp`) gives
the channel object of "the host DMA channel abstraction" for the channel
numbers `MIN_DMA_ADDRESS ..= MAX_DMA_ADDRESS` (0 to 7) and no object
otherwise. -/
def GetDMAChannel (chan : Nat) : Option Nat := if chan < 8 then some chan else none

/-- The double arithmetic of the playback rate in `Gus::ActivateVoices`,
`0.5 + 1000000.0 / (1.619695497 * active_voices)`, evaluated exactly and
truncated. -/
def playbackRate (active_voices : Nat) : Nat :=
  (2 * 1000000000000000 + 1619695497 * active_voices) / (2 * 1619695497 * active_voices)

/-! ### Voice methods used by the register file -/

/-- The method `Voice::ReadCtrlState`. -/
def ReadCtrlState (ctrl : VoiceCtrl) (irq_state irq_mask : Nat) : Nat :=
  if irq_state &&& irq_mask ≠ 0 then ctrl.state ||| 0x80 else ctrl.state

/-- The method `Voice::ReadVolState`. -/
def ReadVolState (v : Voice) (irq : VoiceIrq) : Nat :=
  ReadCtrlState v.vol_ctrl irq.vol_state v.irq_mask

/-- The method `Voice::ReadWaveState`. -/
def ReadWaveState (v : Voice) (irq : VoiceIrq) : Nat :=
  ReadCtrlState v.wave_ctrl irq.wave_state v.irq_mask

/-- The method `Voice::WritePanPot`. -/
def WritePanPot (v : Voice) (pos : Nat) : Voice :=
  { v with pan_position := min pos (PAN_POSITIONS - 1) }

/-- The method `Voice::WriteWaveRate`. -/
def WriteWaveRate (v : Voice) (val : Nat) : Voice :=
  { v with wave_ctrl := { v.wave_ctrl with rate := val, inc := (ceil_udivide val 2 : Nat) } }

/-- The method `Voice::ResetCtrls`. -/
def ResetCtrls (v : Voice) (irq : VoiceIrq) : Voice × VoiceIrq :=
  let v1 : Voice := { v with vol_ctrl := { v.vol_ctrl with pos := 0 } }
  let r1 := UpdateVolState v1 irq 0x1
  let r2 := UpdateWaveState r1.1 r1.2.1 0x1
  (WritePanPot r2.1 PAN_DEFAULT_POSITION, r2.2.1)

/-- The method `Gus::UpdateWaveLsw` on the address `addr`. -/
def UpdateWaveLsw (register_data : Nat) (addr : Int) : Int :=
  wrapI32 (((toU32 addr &&& 0xFFFF0000) ||| register_data : Nat) : Int)

/-- The method `Gus::UpdateWaveMsw` on the address `addr`. -/
def UpdateWaveMsw (register_data : Nat) (addr : Int) : Int :=
  let upper := register_data &&& 0x1fff
  let lower := toU32 addr &&& 0xFFFF
  wrapI32 ((lower ||| (upper <<< 16) : Nat) : Int)

/-! ### IRQ logic -/

/-- The method `Gus::CheckIrq`. -/
def CheckIrq (g : Gus) : Gus :=
  if g.irq_status ≠ 0 ∧ g.mix_ctrl &&& 0x08 ≠ 0
  then { g with effects := g.effects ++ [Effect.PIC_ActivateIRQ g.irq1] }
  else g

/-- The `while` loop at the end of `Gus::CheckVoiceIrq` on the cursor
`status` (a `uint8_t`): `fuel` bounds the number of evaluations of the loop
condition, `none` when it is used up. -/
def CheckVoiceIrqLoop : Nat → Nat → Nat → Nat → Option Nat
  | 0, _, _, _ => none
  | fuel + 1, totalmask, active_voices, status =>
    if totalmask &&& (1 <<< status) ≠ 0 then some status
    else
      let s1 := (status + 1) % 256
      CheckVoiceIrqLoop fuel totalmask active_voices (if s1 ≥ active_voices then 0 else s1)

/-- The method `Gus::CheckVoiceIrq`. -/
def CheckVoiceIrq (fuel : Nat) (g : Gus) : Option Gus :=
  let g1 : Gus := { g with irq_status := g.irq_status &&& 0x9f }
  let totalmask := (g1.voice_irq.vol_state ||| g1.voice_irq.wave_state) &&& g1.active_voice_mask
  if totalmask = 0 then some g1
  else
    let g2 : Gus :=
      if g1.voice_irq.vol_state ≠ 0 then { g1 with irq_status := g1.irq_status ||| 0x40 } else g1
    let g3 : Gus :=
      if g2.voice_irq.wave_state ≠ 0 then { g2 with irq_status := g2.irq_status ||| 0x20 } else g2
    let g4 := CheckIrq g3
    (CheckVoiceIrqLoop fuel totalmask g4.active_voices g4.voice_irq.status).map fun s =>
      { g4 with voice_irq := { g4.voice_irq with status := s } }

/-! ### Playback control -/

/-- The method `Gus::ActivateVoices`; `none` when the assertion fails. -/
def ActivateVoices (g : Gus) (requested_voices : Nat) : Option Gus :=
  let requested := clamp requested_voices MIN_VOICES MAX_VOICES
  if requested ≠ g.active_voices then
    if requested ≤ 32 then
      some { g with
        active_voices := requested,
        active_voice_mask := 0xffffffff >>> (MAX_VOICES - requested),
        playback_rate := playbackRate requested,
        effects := g.effects ++ [Effect.audio_channel_SetFreq (playbackRate requested)] }
    else none
  else some g

/-- The method `Gus::BeginPlayback`. -/
def BeginPlayback (g : Gus) : Gus :=
  let g1 : Gus := { g with effects := g.effects ++ [Effect.audio_channel_Enable true] }
  if g1.prev_logged_voices ≠ g1.active_voices
  then { g1 with prev_logged_voices := g1.active_voices }
  else g1

/-- The loop of `Gus::PrepareForPlayback` over the first `n` voices. -/
def ResetVoices : Nat → (Nat → Voice) × VoiceIrq → (Nat → Voice) × VoiceIrq
  | 0, s => s
  | n + 1, s =>
    let s1 := ResetVoices n s
    let r := ResetCtrls (s1.1 n) s1.2
    (Function.update s1.1 n r.1, r.2)

/-- The method `Gus::PrepareForPlayback`. -/
def PrepareForPlayback (g : Gus) : Gus :=
  let s := ResetVoices MAX_VOICES (g.voices, g.voice_irq)
  { g with
    voices := s.1,
    adlib_command_reg := ADLIB_CMD_DEFAULT,
    voice_irq := { vol_state := 0, wave_state := 0, status := 0 },
    timers_0 := Timer.init TIMER_1_DEFAULT_DELAY,
    timers_1 := Timer.init TIMER_2_DEFAULT_DELAY }

/-- The method `Gus::StopPlayback`. -/
def StopPlayback (g : Gus) : Gus :=
  { g with
    irq_enabled := false,
    irq_status := 0,
    dma_ctrl := 0,
    mix_ctrl := 0xb,
    timer_ctrl := 0,
    sample_ctrl := 0,
    voice := none,
    voice_index := 0,
    active_voices := 0,
    dma_addr := 0,
    dram_addr := 0,
    register_data := 0,
    selected_register := 0,
    should_change_irq_dma := false,
    effects := g.effects ++
      [Effect.audio_channel_Enable false, Effect.PIC_RemoveEvents_GUS_TimerEvent] }

/-- The method `Gus::StartDmaTransfers`. -/
def StartDmaTransfers (g : Gus) : Gus :=
  { g with effects := g.effects ++ [Effect.PIC_AddEvent_GUS_DMA_Event] }

/-- The method `Gus::UpdateDmaAddress`; `none` when `assert(dma_channel)`
fails. -/
def UpdateDmaAddress (g : Gus) (new_address : Nat) : Option Gus :=
  if new_address = g.dma1 then some g
  else
    let unregister : List Effect :=
      match g.dma_channel with
      | some c => [Effect.dma_channel_Register_Callback c false]
      | none => []
    match GetDMAChannel new_address with
    | some c =>
      some { g with
        dma1 := new_address,
        dma_channel := some c,
        effects := g.effects ++ unregister ++ [Effect.dma_channel_Register_Callback c true] }
    | none => none

/-! ### The register file

Each `case` of the two `switch` statements is a definition of its own; the
methods are the dispatch over `selected_register`. -/

/-- Subtraction of two `size_t` values (64 bits, wrapping). -/
def subSizeT (a b : Nat) : Nat :=
  (a % 18446744073709551616 + 18446744073709551616 - b % 18446744073709551616) %
    18446744073709551616

/-- Conversion `static_cast<uint16_t>` of an `int`. -/
def toU16 (x : Int) : Nat := (x % 65536).toNat

/-- The device with voice `idx` replaced. -/
def Gus.setVoice (g : Gus) (idx : Nat) (v : Voice) : Gus :=
  { g with voices := Function.update g.voices idx v }

/-- The device with voice `idx` and the shared voice IRQ state replaced. -/
def Gus.setVoiceIrq (g : Gus) (idx : Nat) (v : Voice) (irq : VoiceIrq) : Gus :=
  { g with voices := Function.update g.voices idx v, voice_irq := irq }

/-- The wave track of a voice replaced. -/
def Voice.setWave (v : Voice) (c : VoiceCtrl) : Voice := { v with wave_ctrl := c }

/-- Case `0x0` of `Gus::WriteToRegister` (wave control) on voice `idx`. -/
def WriteVoice_0x0 (fuel : Nat) (g : Gus) (idx : Nat) : Option Gus :=
  if (UpdateWaveState (g.voices idx) g.voice_irq ((g.register_data >>> 8) % 256)).2.2
  then CheckVoiceIrq fuel
    (g.setVoiceIrq idx
      (UpdateWaveState (g.voices idx) g.voice_irq ((g.register_data >>> 8) % 256)).1
      (UpdateWaveState (g.voices idx) g.voice_irq ((g.register_data >>> 8) % 256)).2.1)
  else some
    (g.setVoiceIrq idx
      (UpdateWaveState (g.voices idx) g.voice_irq ((g.register_data >>> 8) % 256)).1
      (UpdateWaveState (g.voices idx) g.voice_irq ((g.register_data >>> 8) % 256)).2.1)

/-- Case `0xD` of `Gus::WriteToRegister` (volume control) on voice `idx`. -/
def WriteVoice_0xD (fuel : Nat) (g : Gus) (idx : Nat) : Option Gus :=
  if (WriteToRegister_0xD g.register_data (g.voices idx) g.voice_irq).2.2
  then CheckVoiceIrq fuel
    (g.setVoiceIrq idx
      (WriteToRegister_0xD g.register_data (g.voices idx) g.voice_irq).1
      (WriteToRegister_0xD g.register_data (g.voices idx) g.voice_irq).2.1)
  else some
    (g.setVoiceIrq idx
      (WriteToRegister_0xD g.register_data (g.voices idx) g.voice_irq).1
      (WriteToRegister_0xD g.register_data (g.voices idx) g.voice_irq).2.1)

/-- Cases `0x2` to `0x5`, `0xA` and `0xB` of `Gus::WriteToRegister`: the
new wave track of the voice `v` for the wave address registers. -/
def WriteWaveAddress (sr rd : Nat) (v : Voice) : Voice :=
  if sr = 0x2 then
    v.setWave { v.wave_ctrl with start := UpdateWaveMsw rd v.wave_ctrl.start }
  else if sr = 0x3 then
    v.setWave { v.wave_ctrl with start := UpdateWaveLsw rd v.wave_ctrl.start }
  else if sr = 0x4 then
    v.setWave { v.wave_ctrl with end_ := UpdateWaveMsw rd v.wave_ctrl.end_ }
  else if sr = 0x5 then
    v.setWave { v.wave_ctrl with end_ := UpdateWaveLsw rd v.wave_ctrl.end_ }
  else if sr = 0xA then
    v.setWave { v.wave_ctrl with pos := UpdateWaveMsw rd v.wave_ctrl.pos }
  else if sr = 0xB then
    v.setWave { v.wave_ctrl with pos := UpdateWaveLsw rd v.wave_ctrl.pos }
  else v

/-- The second switch of `Gus::WriteToRegister` (the registers of the current
voice, `0x0` to `0xD`), with `idx` the selected voice. -/
def WriteToVoiceRegister (fuel : Nat) (g : Gus) (idx : Nat) : Option Gus :=
  if g.selected_register = 0x0 then WriteVoice_0x0 fuel g idx
  else if g.selected_register = 0x1 then
    some (g.setVoice idx (WriteWaveRate (g.voices idx) g.register_data))
  else if g.selected_register = 0x2 ∨ g.selected_register = 0x3 ∨ g.selected_register = 0x4 ∨
      g.selected_register = 0x5 ∨ g.selected_register = 0xA ∨ g.selected_register = 0xB then
    some (g.setVoice idx (WriteWaveAddress g.selected_register g.register_data (g.voices idx)))
  else if g.selected_register = 0x6 then
    (WriteToRegister_0x6 g.register_data (g.voices idx)).map fun v1 => g.setVoice idx v1
  else if g.selected_register = 0x7 then
    some (g.setVoice idx (WriteToRegister_0x7 g.register_data (g.voices idx)))
  else if g.selected_register = 0x8 then
    some (g.setVoice idx (WriteToRegister_0x8 g.register_data (g.voices idx)))
  else if g.selected_register = 0x9 then
    some (g.setVoice idx (WriteToRegister_0x9 g.register_data (g.voices idx)))
  else if g.selected_register = 0xC then
    some (g.setVoice idx (WritePanPot (g.voices idx) ((g.register_data >>> 8) % 256)))
  else if g.selected_register = 0xD then WriteVoice_0xD fuel g idx
  else some g

/-- Case `0xE` of `Gus::WriteToRegister` (active voices). -/
def WriteGlobal_0xE (g : Gus) : Option Gus :=
  ActivateVoices { g with selected_register := (g.register_data >>> 8) % 256 }
    ((1 + ((g.register_data >>> 8) &&& 31)) % 256)

/-- Case `0x41` of `Gus::WriteToRegister` (DMA control); after its `break` no
case of the second switch matches. -/
def WriteGlobal_0x41 (g : Gus) : Gus :=
  if ((g.register_data >>> 8) % 256) &&& 1 ≠ 0
  then StartDmaTransfers { g with dma_ctrl := (g.register_data >>> 8) % 256 }
  else { g with dma_ctrl := (g.register_data >>> 8) % 256 }

/-- Case `0x43` of `Gus::WriteToRegister` (DRAM address, low word). -/
def WriteGlobal_0x43 (g : Gus) : Gus :=
  { g with dram_addr := (0xff0000 &&& g.dram_addr) ||| (g.register_data % 65536) }

/-- Case `0x44` of `Gus::WriteToRegister` (DRAM address, high byte). -/
def WriteGlobal_0x44 (g : Gus) : Gus :=
  { g with dram_addr :=
      (0xffff &&& g.dram_addr) ||| (((g.register_data % 65536) >>> 8) <<< 16) }

/-- Case `0x45` of `Gus::WriteToRegister` (timer control). -/
def WriteGlobal_0x45 (g : Gus) : Gus :=
  let tc := (g.register_data >>> 8) % 256
  let status1 := if tc &&& 0x04 > 0 then g.irq_status else g.irq_status &&& 0xfb
  let status2 := if tc &&& 0x08 > 0 then status1 else status1 &&& 0xf7
  { g with
    timer_ctrl := tc,
    timers_0 := { g.timers_0 with should_raise_irq := decide (tc &&& 0x04 > 0) },
    timers_1 := { g.timers_1 with should_raise_irq := decide (tc &&& 0x08 > 0) },
    irq_status := status2 }

/-- Case `0x46` of `Gus::WriteToRegister` (timer 1 value). -/
def WriteGlobal_0x46 (g : Gus) : Gus :=
  { g with timers_0 := { g.timers_0 with
      value := (g.register_data >>> 8) % 256,
      delay := ((0x100 - (g.register_data >>> 8) % 256 : Nat) : ℚ) * TIMER_1_DEFAULT_DELAY } }

/-- Case `0x47` of `Gus::WriteToRegister` (timer 2 value). -/
def WriteGlobal_0x47 (g : Gus) : Gus :=
  { g with timers_1 := { g.timers_1 with
      value := (g.register_data >>> 8) % 256,
      delay := ((0x100 - (g.register_data >>> 8) % 256 : Nat) : ℚ) * TIMER_2_DEFAULT_DELAY } }

/-- Case `0x49` of `Gus::WriteToRegister` (DMA sampling control). -/
def WriteGlobal_0x49 (g : Gus) : Gus :=
  if ((g.register_data >>> 8) % 256) &&& 1 ≠ 0
  then StartDmaTransfers { g with sample_ctrl := (g.register_data >>> 8) % 256 }
  else { g with sample_ctrl := (g.register_data >>> 8) % 256 }

/-- Case `0x4c` of `Gus::WriteToRegister` (runtime control). -/
def WriteGlobal_0x4c (g : Gus) : Gus :=
  CheckIrq
    (if (g.register_data >>> 8) &&& 7 = 0 then
       StopPlayback { g with irq_enabled := decide (g.register_data &&& 0x4 ≠ 0) }
     else if (g.register_data >>> 8) &&& 7 = 1 then
       PrepareForPlayback { g with irq_enabled := decide (g.register_data &&& 0x4 ≠ 0) }
     else if g.active_voices ≠ 0 then
       BeginPlayback { g with irq_enabled := decide (g.register_data &&& 0x4 ≠ 0) }
     else { g with irq_enabled := decide (g.register_data &&& 0x4 ≠ 0) })

/-- The method `Gus::WriteToRegister`; `none` when an assertion fails or the
cursor search of `CheckVoiceIrq` uses up `fuel`. -/
def WriteToRegister (fuel : Nat) (g : Gus) : Option Gus :=
  if g.selected_register = 0xE then WriteGlobal_0xE g
  else if g.selected_register = 0x10 then some g
  else if g.selected_register = 0x41 then some (WriteGlobal_0x41 g)
  else if g.selected_register = 0x42 then some { g with dma_addr := g.register_data % 65536 }
  else if g.selected_register = 0x43 then some (WriteGlobal_0x43 g)
  else if g.selected_register = 0x44 then some (WriteGlobal_0x44 g)
  else if g.selected_register = 0x45 then some (WriteGlobal_0x45 g)
  else if g.selected_register = 0x46 then some (WriteGlobal_0x46 g)
  else if g.selected_register = 0x47 then some (WriteGlobal_0x47 g)
  else if g.selected_register = 0x49 then some (WriteGlobal_0x49 g)
  else if g.selected_register = 0x4c then some (WriteGlobal_0x4c g)
  else
    match g.voice with
    | none => some g
    | some idx => WriteToVoiceRegister fuel g idx

/-- The `reg` byte of cases `0x41` and `0x49` of `Gus::ReadFromRegister`. -/
def dmaStatusReg (g : Gus) : Nat :=
  ((g.dma_ctrl &&& 0xbf) ||| ((g.irq_status &&& 0x80) >>> 1)) % 256

/-- The `reg` byte of case `0x8f` of `Gus::ReadFromRegister`. -/
def voiceIrqStatusReg (irq : VoiceIrq) : Nat :=
  if irq.wave_state &&& (1 <<< irq.status) % 4294967296 = 0
  then (if irq.vol_state &&& (1 <<< irq.status) % 4294967296 = 0
        then (irq.status ||| 0x20) % 256 ||| 0x40
        else (irq.status ||| 0x20) % 256) ||| 0x80
  else (if irq.vol_state &&& (1 <<< irq.status) % 4294967296 = 0
        then (irq.status ||| 0x20) % 256 ||| 0x40
        else (irq.status ||| 0x20) % 256)

/-- The shared voice IRQ state after case `0x8f` of `Gus::ReadFromRegister`
has cleared the two bits of the voice under the cursor. -/
def clearCursorVoice (irq : VoiceIrq) : VoiceIrq :=
  { irq with
    vol_state := irq.vol_state &&& (0xFFFFFFFF ^^^ (1 <<< irq.status) % 4294967296),
    wave_state := irq.wave_state &&& (0xFFFFFFFF ^^^ (1 <<< irq.status) % 4294967296) }

/-- Case `0x8f` of `Gus::ReadFromRegister` (voice IRQ status). -/
def ReadGlobal_0x8f (fuel : Nat) (g : Gus) : Option (Nat × Gus) :=
  (CheckVoiceIrq fuel { g with voice_irq := clearCursorVoice g.voice_irq }).map fun g2 =>
    ((voiceIrqStatusReg g.voice_irq <<< 8) % 65536, g2)

/-- The second switch of `Gus::ReadFromRegister` (the readback registers of
the current voice) and its fall-through `return register_data`, with `idx`
the selected voice; `none` when the assertion of case `0x89` fails. -/
def ReadFromVoiceRegister (g : Gus) (idx : Nat) : Option Nat :=
  if g.selected_register = 0x80 then
    some ((ReadWaveState (g.voices idx) g.voice_irq <<< 8) % 65536)
  else if g.selected_register = 0x82 then some (toU16 ((g.voices idx).wave_ctrl.start / 65536))
  else if g.selected_register = 0x83 then some (toU16 (g.voices idx).wave_ctrl.start)
  else if g.selected_register = 0x89 then
    if ReadFromRegister_0x89_i (g.voices idx) < (VOLUME_LEVELS : Int)
    then some (toU16 (ReadFromRegister_0x89_i (g.voices idx) * 16)) else none
  else if g.selected_register = 0x8a then some (toU16 ((g.voices idx).wave_ctrl.pos / 65536))
  else if g.selected_register = 0x8b then some (toU16 (g.voices idx).wave_ctrl.pos)
  else if g.selected_register = 0x8d then
    some ((ReadVolState (g.voices idx) g.voice_irq <<< 8) % 65536)
  else some g.register_data

/-- The method `Gus::ReadFromRegister`: the value read and the device
afterwards; `none` when an assertion fails or the cursor search of
`CheckVoiceIrq` uses up `fuel`. -/
def ReadFromRegister (fuel : Nat) (g : Gus) : Option (Nat × Gus) :=
  if g.selected_register = 0x41 then
    some ((dmaStatusReg g <<< 8) % 65536, CheckIrq { g with irq_status := g.irq_status &&& 0x7f })
  else if g.selected_register = 0x42 then some (g.dma_addr, g)
  else if g.selected_register = 0x45 then some ((g.timer_ctrl <<< 8) % 65536, g)
  else if g.selected_register = 0x49 then some ((dmaStatusReg g <<< 8) % 65536, g)
  else if g.selected_register = 0x8f then ReadGlobal_0x8f fuel g
  else
    match g.voice with
    | none => some (if g.selected_register = 0x80 ∨ g.selected_register = 0x8d then 0x0300 else 0, g)
    | some idx => (ReadFromVoiceRegister g idx).map fun x => (x, g)

/-! ### The ports -/

/-- One timer of case `0x209` of `Gus::WriteToPort`: started when `start` is
set and it is not counting down, stopped when `start` is clear. -/
def startTimer (start : Bool) (t : Timer) : Timer :=
  if start then (if !t.is_counting_down then { t with is_counting_down := true } else t)
  else { t with is_counting_down := false }

/-- The `PIC_AddEvent` call of one timer of case `0x209`. -/
def startTimerEffects (start : Bool) (t : Timer) (n : Nat) : List Effect :=
  if start && !t.is_counting_down then [Effect.PIC_AddEvent_GUS_TimerEvent t.delay n] else []

/-- Case `0x209` of `Gus::WriteToPort` (timer control). -/
def WritePort_0x209 (g : Gus) (val : Nat) : Gus :=
  if val &&& 0x80 ≠ 0 then
    { g with timers_0 := { g.timers_0 with has_expired := false },
             timers_1 := { g.timers_1 with has_expired := false } }
  else
    { g with
      timers_0 := startTimer (decide (val &&& 0x1 ≠ 0))
        { g.timers_0 with is_masked := decide (val &&& 0x40 > 0) },
      timers_1 := startTimer (decide (val &&& 0x2 ≠ 0))
        { g.timers_1 with is_masked := decide (val &&& 0x20 > 0) },
      effects := g.effects ++ startTimerEffects (decide (val &&& 0x1 ≠ 0)) g.timers_0 0 ++
        startTimerEffects (decide (val &&& 0x2 ≠ 0)) g.timers_1 1 }

/-- Case `0x20b` of `Gus::WriteToPort` (IRQ and DMA channel select). -/
def WritePort_0x20b (g : Gus) (val : Nat) : Option Gus :=
  if !g.should_change_irq_dma then some g
  else if g.mix_ctrl &&& 0x40 ≠ 0 then
    some (if irq_addresses.getD (val &&& 0x7) 0 ≠ 0
          then { g with should_change_irq_dma := false,
                        irq1 := irq_addresses.getD (val &&& 0x7) 0 }
          else { g with should_change_irq_dma := false })
  else if (val &&& 0x7) % 256 < dma_addresses.length ∧
      dma_addresses.getD ((val &&& 0x7) % 256) 0 ≠ 0 then
    UpdateDmaAddress { g with should_change_irq_dma := false }
      (dma_addresses.getD ((val &&& 0x7) % 256) 0)
  else some { g with should_change_irq_dma := false }

/-- The method `Gus::WriteToPort`. -/
def WriteToPort (fuel : Nat) (g : Gus) (port val iolen : Nat) : Option Gus :=
  if subSizeT port g.port_base = 0x200 then
    some { g with mix_ctrl := val % 256, should_change_irq_dma := true }
  else if subSizeT port g.port_base = 0x208 then some { g with adlib_command_reg := val % 256 }
  else if subSizeT port g.port_base = 0x209 then some (WritePort_0x209 g val)
  else if subSizeT port g.port_base = 0x20b then WritePort_0x20b g val
  else if subSizeT port g.port_base = 0x302 then
    some { g with voice_index := val &&& 31, voice := some (val &&& 31) }
  else if subSizeT port g.port_base = 0x303 then
    some { g with selected_register := val % 256, register_data := 0 }
  else if subSizeT port g.port_base = 0x304 then
    if iolen = 2 then WriteToRegister fuel { g with register_data := val % 65536 }
    else some { g with register_data := val % 65536 }
  else if subSizeT port g.port_base = 0x305 then
    WriteToRegister fuel
      { g with register_data := ((0x00ff &&& g.register_data) ||| (val <<< 8)) % 65536 }
  else if subSizeT port g.port_base = 0x307 then
    some (if g.dram_addr < RAM_SIZE
          then { g with ram := Function.update g.ram g.dram_addr (val % 256) } else g)
  else some g

/-- Case `0x208` of `Gus::ReadFromPort` (timer status). -/
def ReadPort_0x208 (g : Gus) : Nat :=
  let t1 : Nat := if g.timers_0.has_expired then 1 <<< 6 else 0
  let t2 := if g.timers_1.has_expired then t1 ||| (1 <<< 5) else t1
  let t3 := if t2 &&& 0x60 ≠ 0 then t2 ||| (1 <<< 7) else t2
  let t4 := if g.irq_status &&& 0x04 ≠ 0 then t3 ||| (1 <<< 2) else t3
  if g.irq_status &&& 0x08 ≠ 0 then t4 ||| (1 <<< 1) else t4

/-- The method `Gus::ReadFromPort`: the value read and the device afterwards. -/
def ReadFromPort (fuel : Nat) (g : Gus) (port iolen : Nat) : Option (Nat × Gus) :=
  if subSizeT port g.port_base = 0x206 then some (g.irq_status, g)
  else if subSizeT port g.port_base = 0x208 then some (ReadPort_0x208 g, g)
  else if subSizeT port g.port_base = 0x20a then some (g.adlib_command_reg, g)
  else if subSizeT port g.port_base = 0x302 then some (g.voice_index % 256, g)
  else if subSizeT port g.port_base = 0x303 then some (g.selected_register, g)
  else if subSizeT port g.port_base = 0x304 then
    (ReadFromRegister fuel g).map fun r =>
      (if iolen = 2 then r.1 &&& 0xffff else r.1 &&& 0xff, r.2)
  else if subSizeT port g.port_base = 0x305 then
    (ReadFromRegister fuel g).map fun r => (r.1 >>> 8, r.2)
  else if subSizeT port g.port_base = 0x307 then
    some (if g.dram_addr < RAM_SIZE then g.ram g.dram_addr else 0, g)
  else some (0xff, g)

/-- The data members after the member initialisers of `Gus::Gus`, before its
body runs. -/
def Gus.members (port dma irq : Nat) : Gus :=
  { ram := fun _ => 0,
    voices := fun i => Voice.init i,
    voice_irq := { vol_state := 0, wave_state := 0, status := 0 },
    voice := none,
    dma_channel := none,
    timers_0 := Timer.init TIMER_1_DEFAULT_DELAY,
    timers_1 := Timer.init TIMER_2_DEFAULT_DELAY,
    adlib_command_reg := ADLIB_CMD_DEFAULT,
    port_base := toSizeT ((port : Int) - 0x200),
    active_voice_mask := 0,
    voice_index := 0,
    active_voices := 0,
    prev_logged_voices := 0,
    dram_addr := 0,
    playback_rate := 0,
    register_data := 0,
    selected_register := 0,
    mix_ctrl := 0x0b,
    sample_ctrl := 0,
    timer_ctrl := 0,
    dma_addr := 0,
    dma_ctrl := 0,
    dma1 := 0,
    dma2 := dma,
    irq1 := irq,
    irq2 := irq,
    irq_status := 0,
    irq_enabled := false,
    should_change_irq_dma := false,
    effects := [] }

/-- The constructor `Gus::Gus(port, dma, irq, dir)`, as far as the data
members above go: the member initialisers, then `UpdateDmaAddress(dma)`. -/
def Gus.init (port dma irq : Nat) : Option Gus :=
  UpdateDmaAddress (Gus.members port dma irq) dma

/-- One port access: a write `(port, val, iolen)` or a read `(port, iolen)`
that returns, with any fuel. -/
inductive PortStep : Gus → Gus → Prop where
  | write (fuel : Nat) (g g1 : Gus) (port val iolen : Nat) :
      WriteToPort fuel g port val iolen = some g1 → PortStep g g1
  | read (fuel : Nat) (g g1 : Gus) (port iolen x : Nat) :
      ReadFromPort fuel g port iolen = some (x, g1) → PortStep g g1

/-- The states reachable from construction by port reads and writes. -/
inductive Reachable : Gus → Prop where
  | init (port dma irq : Nat) (g : Gus) : Gus.init port dma irq = some g → Reachable g
  | step (g g1 : Gus) : Reachable g → PortStep g g1 → Reachable g1

/-! ### Sample devices and access sequences -/

/-- A sequence of port writes `(port, val, iolen)`, in order. -/
def runWrites (fuel : Nat) : List (Nat × Nat × Nat) → Gus → Option Gus
  | [], g => some g
  | w :: rest, g => (WriteToPort fuel g w.1 w.2.1 w.2.2).bind (runWrites fuel rest)

/-- `n` consecutive reads of the selected register, collecting the voice
index each read reports (the low 5 bits of the high byte). -/
def repeatReadFromRegister (fuel : Nat) : Nat → Gus → Option (List Nat × Gus)
  | 0, g => some ([], g)
  | n + 1, g =>
    (ReadFromRegister fuel g).bind fun r =>
      (repeatReadFromRegister fuel n r.2).map fun t => (((r.1 >>> 8) &&& 31) :: t.1, t.2)

/-- The voices whose bit is set in the 32-bit mask `x`. -/
def voiceSet (x : Nat) : Finset Nat := (Finset.range 32).filter fun i => x.testBit i = true

/-- The pending voice IRQs of either kind, `vol_state | wave_state`. -/
def Gus.pending (g : Gus) : Nat := g.voice_irq.vol_state ||| g.voice_irq.wave_state

/-- A device with 14 active voices, register `0x8F` selected and the given
shared voice IRQ state. -/
def irqDevice (vol_state wave_state status : Nat) : Gus :=
  { Gus.members 0x240 3 5 with
    active_voices := 14, active_voice_mask := 0x3FFF, selected_register := 0x8f,
    voice_irq := { vol_state := vol_state, wave_state := wave_state, status := status } }

/-- Port writes at base `0x240`: 14 active voices (`0x0E := 13`), then a
volume IRQ set by hand on voice 20 (`0x0D := 0xA0`), which is not active,
then a wave IRQ set by hand on voice 3 (`0x00 := 0xA0`). -/
def inactiveVolumeIrqWrites : List (Nat × Nat × Nat) :=
  [(0x343, 0x0E, 1), (0x345, 13, 1), (0x342, 20, 1), (0x343, 0x0D, 1), (0x345, 0xA0, 1),
   (0x342, 3, 1), (0x343, 0x00, 1), (0x345, 0xA0, 1)]

/-- Port writes at base `0x240`: 14 active voices (`0x0E := 13`), then a
runtime-control write with state bits 0 (`0x4C := 0`, stop playback). -/
def activateThenStopWrites : List (Nat × Nat × Nat) :=
  [(0x343, 0x0E, 1), (0x345, 13, 1), (0x343, 0x4C, 1), (0x345, 0, 1)]

/-- The condition under which the reads of register `0x8F` walk through the
pending voices: register `0x8F` selected, the mask has exactly the
`active_voices` low bits, every pending bit belongs to an active voice, and
the cursor and the two status bits are as `CheckVoiceIrq` leaves them. -/
def CursorInv (g : Gus) : Prop :=
  g.selected_register = 0x8f ∧ g.active_voices ≤ 32 ∧
  g.active_voice_mask = 2 ^ g.active_voices - 1 ∧
  g.pending < 2 ^ g.active_voices ∧ g.voice_irq.status ≤ 255 ∧
  (g.pending ≠ 0 →
    g.voice_irq.status < g.active_voices ∧ g.pending.testBit g.voice_irq.status = true) ∧
  (g.pending = 0 → g.irq_status &&& 0x60 = 0)

/-- The invariant of the active voices: `active_voices` lies in `[14, 32]` and
`active_voice_mask` has exactly the `active_voices` low bits set. -/
def VoicesInvariant (g : Gus) : Prop :=
  14 ≤ g.active_voices ∧ g.active_voices ≤ 32 ∧
  g.active_voice_mask = 2 ^ g.active_voices - 1

/-- The port write `(port, val, iolen)` on `g` runs the runtime-control
register `0x4C` with state bits 0 (stop playback). -/
def IsStopWrite (g : Gus) (port val iolen : Nat) : Prop :=
  g.selected_register = 0x4c ∧
  ((subSizeT port g.port_base = 0x304 ∧ iolen = 2 ∧ ((val % 65536) >>> 8) &&& 7 = 0) ∨
   (subSizeT port g.port_base = 0x305 ∧
     ((((0x00ff &&& g.register_data) ||| (val <<< 8)) % 65536) >>> 8) &&& 7 = 0))

/-- The device right after construction at base `0x240` with DMA 3, IRQ 5. -/
def bootDevice : Gus :=
  { Gus.members 0x240 3 5 with
    dma1 := 3, dma_channel := some 3,
    effects := [Effect.dma_channel_Register_Callback 3 true] }

/-- The device after construction with register `sr` selected through port
`0x303`. -/
def selectDevice (sr : Nat) : Gus :=
  { bootDevice with selected_register := sr, register_data := 0 }

/-- The device after construction with voice 0 selected through port `0x302`
and then register `sr` selected through port `0x303`. -/
def voiceDevice (sr : Nat) : Gus :=
  { bootDevice with
    voice := some 0, voice_index := 0, selected_register := sr, register_data := 0 }

/-- Port writes at base `0x240`: voice 0 selected, its current wave address
set to 512 (`0x0B := 0x0200`, one 16-bit write), then a runtime-control write
with state bits 1 (`0x4C := 0x01`, prepare for playback). -/
def wavePositionThenPrepareWrites : List (Nat × Nat × Nat) :=
  [(0x342, 0, 1), (0x343, 0x0B, 1), (0x344, 0x0200, 2), (0x343, 0x4C, 1), (0x345, 0x01, 1)]

/-- Port writes at base `0x240`: runtime control selected, a 16-bit write of
`0x0104` (prepare, IRQ-enable bit set), then a 16-bit write of `0x0004` (stop,
IRQ-enable bit set). -/
def irqEnableThenStopWrites : List (Nat × Nat × Nat) :=
  [(0x343, 0x4C, 1), (0x344, 0x0104, 2), (0x344, 0x0004, 2)]

/-! ### DMA transfers -/

/-- Modelled from the spec: the host DMA channel (`DmaChannel`, declared
outside `gus.cpp`), a collaborator offering "DMA-channel block read/write with
byte counts and masked/terminal-count flags". `masked`, `currcnt` and `DMA16`
are the members the device reads; the next block transfer (`Read` or `Write`)
moves `samples` words of `DMA16 + 1` bytes each, and a read delivers the bytes
`source 0`, `source 1`, ... -/
structure DmaChannel where
  masked : Bool
  currcnt : Nat
  DMA16 : Nat
  samples : Nat
  source : Nat → Nat

/-- Modelled from the spec: the bytes of the sample RAM after
`dma_channel->Read(words, ram + addr)`: the delivered bytes are stored from
offset `addr` on, every other byte is as before. -/
def DmaChannel.Read (chan : DmaChannel) (ram : Nat → Nat) (addr : Nat) : Nat → Nat :=
  fun i =>
    if addr ≤ i ∧ i < addr + chan.samples * (chan.DMA16 + 1) then chan.source (i - addr)
    else ram i

/-- The method `Gus::Dma8Addr`. -/
def Dma8Addr (g : Gus) : Nat := (g.dma_addr <<< 4) % 4294967296

/-- The method `Gus::Dma16Addr`. -/
def Dma16Addr (g : Gus) : Nat :=
  ((((g.dma_addr &&& 0x1fff) <<< 1) ||| (g.dma_addr &&& 0xc000)) <<< 4) % 4294967296

/-- The method `Gus::IsDmaPcm16Bit`. -/
def IsDmaPcm16Bit (g : Gus) : Bool := g.dma_ctrl &&& 0x40 != 0

/-- The method `Gus::IsDmaXfer16Bit`. -/
def IsDmaXfer16Bit (g : Gus) : Bool := (g.dma_ctrl &&& 0x4 != 0) && decide (4 ≤ g.dma1)

/-- The `for` loop of `Gus::PerformDmaTransfer` that flips the top bit of the
converted bytes, from index `i` on: `fuel` bounds the number of evaluations
of the loop condition, `none` when it is used up. -/
def PcmConvertLoop (end_ skip : Nat) : Nat → Nat → (Nat → Nat) → Option (Nat → Nat)
  | 0, _, _ => none
  | fuel + 1, i, ram =>
    if i < end_ then
      PcmConvertLoop end_ skip fuel (i + skip) (Function.update ram i ((ram i ^^^ 0x80) % 256))
    else some ram

/-- The three-way copy of `Gus::PerformDmaTransfer` at RAM offset `addr` for
`desired` words: RAM to host, host to RAM unconverted, host to RAM with the
PCM conversion loop. The channel is handed the pointer `ram + addr` and the
loop indexes `ram[i]` up to `addr + samples * (DMA16 + 1)`, both unchecked:
`none` when the block moved passes the end of `ram[RAM_SIZE]` (an access
outside the array). -/
def DmaCopy (fuel : Nat) (chan : DmaChannel) (g : Gus) (addr desired : Nat) : Option Gus :=
  if RAM_SIZE < addr + chan.samples * (chan.DMA16 + 1) then none
  else if g.dma_ctrl &&& 0x2 ≠ 0 then
    some { g with effects := g.effects ++ [Effect.dma_channel_Write desired addr] }
  else if g.dma_ctrl &&& 0x80 = 0 then
    some { g with
      ram := chan.Read g.ram addr,
      effects := g.effects ++ [Effect.dma_channel_Read desired addr] }
  else
    (PcmConvertLoop (addr + chan.samples * (chan.DMA16 + 1))
        (if IsDmaPcm16Bit g then 2 else 1) fuel
        ((addr + (if IsDmaPcm16Bit g then 1 else 0)) % 4294967296)
        (chan.Read g.ram addr)).map fun ram1 =>
      { g with
        ram := ram1,
        effects := g.effects ++ [Effect.dma_channel_Read desired addr] }

/-- The end of `Gus::PerformDmaTransfer`: the terminal-count IRQ and the
return value. -/
def RaiseTcIrq (g : Gus) : Bool × Gus :=
  if g.dma_ctrl &&& 0x20 ≠ 0 then
    (false, CheckIrq { g with irq_status := g.irq_status ||| 0x80 })
  else (true, g)

/-- The method `Gus::PerformDmaTransfer`: the value returned and the device
afterwards. `host c` is the channel object of channel number `c`, the one
`dma_channel` points to when `g.dma_channel = some c`. The first thing the
method does is to dereference `dma_channel` (`dma_channel->masked`): `none`
when it is null, as it is after construction with DMA 0, where
`UpdateDmaAddress` returns before it assigns the pointer. -/
def PerformDmaTransfer (fuel : Nat) (host : Nat → DmaChannel) (g : Gus) : Option (Bool × Gus) :=
  match g.dma_channel with
  | none => none
  | some c =>
    if (host c).masked = true ∨ g.dma_ctrl &&& 0x01 = 0 then some (false, g)
    else
      (DmaCopy fuel (host c) g (if IsDmaXfer16Bit g then Dma16Addr g else Dma8Addr g)
        (((host c).currcnt + 1) % 65536)).map RaiseTcIrq

/-- The function `GUS_DMA_Event`. -/
def GUS_DMA_Event (fuel : Nat) (host : Nat → DmaChannel) (g : Gus) : Option Gus :=
  (PerformDmaTransfer fuel host g).map fun r =>
    if r.1 then { r.2 with effects := r.2.effects ++ [Effect.PIC_AddEvent_GUS_DMA_Event] }
    else r.2

/-- The device after construction with DMA address 2 and DMA control
`dma_ctrl`. -/
def dmaDevice (dma_ctrl : Nat) : Gus :=
  { bootDevice with dma_addr := 2, dma_ctrl := dma_ctrl }

/-- Port writes at base `0x240`: the sampling control register with bit 0 set
(`0x49 := 0x01`), which calls `StartDmaTransfers` and leaves `dma_ctrl` alone. -/
def samplingStartWrites : List (Nat × Nat × Nat) := [(0x343, 0x49, 1), (0x345, 0x01, 1)]

/-- Port writes at base `0x240` on voice 0: volume control `0x0D := 0x01`
(RESET only), wave control `0x00 := 0x02` (STOPPED only), current volume
`0x09 := 0xFFF0` (16-bit write, the top table index), and the byte 1 poked
into RAM offset 0 through port `0x307`. -/
def mixedDisabledWrites : List (Nat × Nat × Nat) :=
  [(0x342, 0, 1), (0x343, 0x0D, 1), (0x345, 0x01, 1), (0x343, 0x00, 1), (0x345, 0x02, 1),
   (0x343, 0x09, 1), (0x344, 0xFFF0, 2), (0x347, 1, 1)]

/-! ### Soft limiter

The `float` amplitudes are exact rationals here. -/

/-- The stereo frame `struct AudioFrame`. -/
structure AudioFrame where
  left : ℚ
  right : ℚ

def ONE_AMP : ℚ := 1
def BUFFER_FRAMES : Nat := 48
def BUFFER_SAMPLES : Nat := BUFFER_FRAMES * 2
def DELTA_DB : ℚ := 2709201 / 1000000000
def SOFT_LIMIT_RELEASE_INC : ℚ := AUDIO_SAMPLE_MAX * DELTA_DB

/-- Conversion `static_cast<int16_t>` of a `float`: the fractional part is
discarded (rounding toward zero). The value is the mathematical integer; it
is an `int16_t` when it lies in `[-32768, 32767]`. -/
def floatToInt16 (x : ℚ) : Int := if 0 ≤ x then ⌊x⌋ else ⌈x⌉

/-- The first `n` iterations (`i = 0, 2, ..., 2n - 2`) of the loop of
`Gus::UpdatePeakAmplitudes`. -/
def UpdatePeakAmplitudesLoop (stream : Nat → ℚ) : Nat → AudioFrame → AudioFrame
  | 0, peak => peak
  | n + 1, peak =>
    { left := max (UpdatePeakAmplitudesLoop stream n peak).left |stream (2 * n)|,
      right := max (UpdatePeakAmplitudesLoop stream n peak).right |stream (2 * n + 1)| }

/-- The method `Gus::UpdatePeakAmplitudes`: the loop runs while
`i < BUFFER_SAMPLES - 1` in steps of 2, which is `BUFFER_FRAMES` iterations. -/
def UpdatePeakAmplitudes (peak : AudioFrame) (stream : Nat → ℚ) : AudioFrame :=
  UpdatePeakAmplitudesLoop stream BUFFER_FRAMES peak

/-- The first `n` iterations of the first loop of `Gus::SoftLimit` (no
scaling). -/
def NarrowLoop (inp : Nat → ℚ) : Nat → (Nat → Int) → (Nat → Int)
  | 0, out => out
  | n + 1, out =>
    Function.update
      (Function.update (NarrowLoop inp n out) (2 * n) (floatToInt16 (inp (2 * n))))
      (2 * n + 1) (floatToInt16 (inp (2 * n + 1)))

/-- The first `n` iterations of the second loop of `Gus::SoftLimit`
(scaling). -/
def ScaleLoop (inp : Nat → ℚ) (left_scalar right_scalar : ℚ) :
    Nat → (Nat → Int) → (Nat → Int)
  | 0, out => out
  | n + 1, out =>
    Function.update
      (Function.update (ScaleLoop inp left_scalar right_scalar n out) (2 * n)
        (floatToInt16 (inp (2 * n) * left_scalar)))
      (2 * n + 1) (floatToInt16 (inp (2 * n + 1) * right_scalar))

/-- The method `Gus::SoftLimit` on the peaks `peak`, the input buffer `inp`
and the output buffer `out`: the output buffer and the peaks afterwards. -/
def SoftLimit (peak : AudioFrame) (inp : Nat → ℚ) (out : Nat → Int) :
    (Nat → Int) × AudioFrame :=
  if (UpdatePeakAmplitudes peak inp).left < AUDIO_SAMPLE_MAX ∧
      (UpdatePeakAmplitudes peak inp).right < AUDIO_SAMPLE_MAX then
    (NarrowLoop inp BUFFER_FRAMES out, UpdatePeakAmplitudes peak inp)
  else
    (ScaleLoop inp (min ONE_AMP (AUDIO_SAMPLE_MAX / (UpdatePeakAmplitudes peak inp).left))
        (min ONE_AMP (AUDIO_SAMPLE_MAX / (UpdatePeakAmplitudes peak inp).right))
        BUFFER_FRAMES out,
      { left :=
          if (UpdatePeakAmplitudes peak inp).left > AUDIO_SAMPLE_MAX
          then (UpdatePeakAmplitudes peak inp).left - SOFT_LIMIT_RELEASE_INC
          else (UpdatePeakAmplitudes peak inp).left,
        right :=
          if (UpdatePeakAmplitudes peak inp).right > AUDIO_SAMPLE_MAX
          then (UpdatePeakAmplitudes peak inp).right - SOFT_LIMIT_RELEASE_INC
          else (UpdatePeakAmplitudes peak inp).right })

/-- The peak states the limiter can hold: the member initialiser
`peak = {ONE_AMP, ONE_AMP}` and what `SoftLimit` leaves. -/
inductive PeakReachable : AudioFrame → Prop where
  | init : PeakReachable { left := ONE_AMP, right := ONE_AMP }
  | step (peak : AudioFrame) (inp : Nat → ℚ) (out : Nat → Int) :
      PeakReachable peak → PeakReachable (SoftLimit peak inp out).2

/-! ### Pan scalars -/

/-- The body of the loop of `Gus::PopulatePanScalars` for position `i`: the
pair `(left, right)`. The library functions `cos` and `sin` and the constant
`M_PI` are parameters, over any field `α` of numbers. -/
def PopulatePanScalars {α : Type} [DivisionRing α] (cos sin : α → α) (pi : α) (i : Nat) :
    α × α :=
  (cos ((((i : α) - 7) / (if i < 7 then 7 else 8) + 1) * pi / 4),
   sin ((((i : α) - 7) / (if i < 7 then 7 else 8) + 1) * pi / 4))

/-! ### Timer expiry -/

/-- The element `timers[t]` of the array `Timer timers[2]`. -/
def Gus.timers (g : Gus) (t : Nat) : Timer := if t = 0 then g.timers_0 else g.timers_1

/-- The first statement of `Gus::CheckTimer` on one timer: the expired flag is
set unless the timer is masked. -/
def expireTimer (t : Timer) : Timer :=
  if !t.is_masked then { t with has_expired := true } else t

/-- The second statement of `Gus::CheckTimer` for timer `t`, whose
`should_raise_irq` is `raise`: the timer's status bit and `CheckIrq`. -/
def raiseTimerIrq (g : Gus) (raise : Bool) (t : Nat) : Gus :=
  if raise then CheckIrq { g with irq_status := g.irq_status ||| (0x4 <<< t) } else g

/-- The method `Gus::CheckTimer` for timer `t`: the value returned and the
device afterwards; `none` for an index outside `timers[2]`. -/
def CheckTimer (g : Gus) (t : Nat) : Option (Bool × Gus) :=
  if t = 0 then
    some (g.timers_0.is_counting_down,
      raiseTimerIrq { g with timers_0 := expireTimer g.timers_0 } g.timers_0.should_raise_irq 0)
  else if t = 1 then
    some (g.timers_1.is_counting_down,
      raiseTimerIrq { g with timers_1 := expireTimer g.timers_1 } g.timers_1.should_raise_irq 1)
  else none

/-- Port writes at base `0x240`: 14 active voices (`0x0E := 13`), wave IRQs
set by hand on voices 1 and 2 (`0x00 := 0xA0`), a runtime-control write with
state bits 0 (`0x4C := 0`, stop playback), then register `0x8F` selected. -/
def pendingThenStopWrites : List (Nat × Nat × Nat) :=
  [(0x343, 0x0E, 1), (0x345, 13, 1), (0x342, 1, 1), (0x343, 0x00, 1), (0x345, 0xA0, 1),
   (0x342, 2, 1), (0x343, 0x00, 1), (0x345, 0xA0, 1), (0x343, 0x4C, 1), (0x345, 0, 1),
   (0x343, 0x8F, 1)]

/-- Port writes at base `0x240`: 14 active voices (`0x0E := 13`), a
runtime-control write with state bits 0 (`0x4C := 0`, stop playback), voice 1
selected, then the wave control register `0x00` selected. -/
def stopThenSelectVoiceWrites : List (Nat × Nat × Nat) :=
  [(0x343, 0x0E, 1), (0x345, 13, 1), (0x343, 0x4C, 1), (0x345, 0, 1), (0x342, 1, 1),
   (0x343, 0x00, 1)]

/-- Port writes at base `0x240`: mixer control `0x200 := 0` (bit `0x40`
clear: the next channel select is a DMA select), then channel select
`0x20B := 5`. -/
def dmaSelectWrites : List (Nat × Nat × Nat) := [(0x240, 0, 1), (0x24B, 5, 1)]

/-- The extents `MIN_DMA_ADDRESS`, `MAX_DMA_ADDRESS`, `MIN_IRQ_ADDRESS` and
`MAX_IRQ_ADDRESS` of the DMA and IRQ channel numbers. -/
def MIN_DMA_ADDRESS : Nat := 0
def MAX_DMA_ADDRESS : Nat := 7
def MIN_IRQ_ADDRESS : Nat := 0
def MAX_IRQ_ADDRESS : Nat := 15

/-- The port accesses behind a device state, reduced to one bit. In
`SelectHistory b g` the device `g` is reached from construction by port
accesses that return, and `b` tells whether port `0x200` has been written
since the latest of: construction, the last stop write, the last write to
port `0x20B`. This is the condition in the words of the specification; the
latch `should_change_irq_dma` of the code is compared with it in
`SelectHistory_latch`. -/
inductive SelectHistory : Bool → Gus → Prop where
  | init (port dma irq : Nat) (g : Gus) :
      Gus.init port dma irq = some g → SelectHistory false g
  | mix (fuel : Nat) (b : Bool) (g g1 : Gus) (port val iolen : Nat) :
      SelectHistory b g → subSizeT port g.port_base = 0x200 →
      WriteToPort fuel g port val iolen = some g1 → SelectHistory true g1
  | select (fuel : Nat) (b : Bool) (g g1 : Gus) (port val iolen : Nat) :
      SelectHistory b g → subSizeT port g.port_base = 0x20b →
      WriteToPort fuel g port val iolen = some g1 → SelectHistory false g1
  | stop (fuel : Nat) (b : Bool) (g g1 : Gus) (port val iolen : Nat) :
      SelectHistory b g → IsStopWrite g port val iolen →
      WriteToPort fuel g port val iolen = some g1 → SelectHistory false g1
  | write (fuel : Nat) (b : Bool) (g g1 : Gus) (port val iolen : Nat) :
      SelectHistory b g → subSizeT port g.port_base ≠ 0x200 →
      subSizeT port g.port_base ≠ 0x20b → ¬ IsStopWrite g port val iolen →
      WriteToPort fuel g port val iolen = some g1 → SelectHistory b g1
  | read (fuel : Nat) (b : Bool) (g g1 : Gus) (port iolen x : Nat) :
      SelectHistory b g → ReadFromPort fuel g port iolen = some (x, g1) →
      SelectHistory b g1

/-- The device after construction at base `0x240` and a write of `0x40` to
port `0x200` (mixer control, IRQ select). -/
def armedDevice : Gus :=
  { bootDevice with mix_ctrl := 0x40, should_change_irq_dma := true }

/-! # Theorems -/

/-! ## Bit lemmas -/

theorem and_two_pow_ne_zero_iff (s k : Nat) : s &&& 2 ^ k ≠ 0 ↔ s.testBit k = true := by
  constructor
  · intro h
    by_contra hb
    apply h
    apply Nat.eq_of_testBit_eq
    intro i
    simp only [Nat.testBit_and, Nat.testBit_two_pow, Nat.zero_testBit]
    by_cases hik : k = i
    · subst hik; simp [hb]
    · simp [hik]
  · intro hb h0
    have : (s &&& 2 ^ k).testBit k = true := by
      simp [Nat.testBit_and, Nat.testBit_two_pow, hb]
    rw [h0] at this
    simp at this

theorem flag_iff_testBit (s : Nat) :
    (s &&& RESET ≠ 0 ↔ s.testBit 0 = true) ∧ (s &&& STOPPED ≠ 0 ↔ s.testBit 1 = true) ∧
    (s &&& BIT16 ≠ 0 ↔ s.testBit 2 = true) ∧ (s &&& LOOP ≠ 0 ↔ s.testBit 3 = true) ∧
    (s &&& BIDIRECTIONAL ≠ 0 ↔ s.testBit 4 = true) ∧ (s &&& RAISEIRQ ≠ 0 ↔ s.testBit 5 = true) ∧
    (s &&& DECREASING ≠ 0 ↔ s.testBit 6 = true) :=
  ⟨and_two_pow_ne_zero_iff s 0, and_two_pow_ne_zero_iff s 1, and_two_pow_ne_zero_iff s 2,
   and_two_pow_ne_zero_iff s 3, and_two_pow_ne_zero_iff s 4, and_two_pow_ne_zero_iff s 5,
   and_two_pow_ne_zero_iff s 6⟩

theorem disabled_iff (s : Nat) : s &&& DISABLED ≠ 0 ↔ (s &&& RESET ≠ 0 ∨ s &&& STOPPED ≠ 0) := by
  rw [(flag_iff_testBit s).1, (flag_iff_testBit s).2.1]
  constructor
  · intro h
    by_contra hc
    push_neg at hc
    apply h
    apply Nat.eq_of_testBit_eq
    intro i
    have h3 : DISABLED = 2 ^ 2 - 1 := by decide
    rw [h3]
    simp only [Nat.testBit_and, Nat.testBit_two_pow_sub_one, Nat.zero_testBit]
    by_cases hi : i < 2
    · have : i = 0 ∨ i = 1 := by omega
      rcases this with rfl | rfl <;> simp_all
    · simp [hi]
  · intro h h0
    have h3 : DISABLED = 2 ^ 2 - 1 := by decide
    rw [h3] at h0
    have e0 : (s &&& (2 ^ 2 - 1)).testBit 0 = false := by rw [h0]; simp
    have e1 : (s &&& (2 ^ 2 - 1)).testBit 1 = false := by rw [h0]; simp
    simp only [Nat.testBit_and, Nat.testBit_two_pow_sub_one] at e0 e1
    rcases h with h | h <;> simp_all


theorem wrapI32_eq_self {x : Int} (h1 : -2147483648 ≤ x) (h2 : x < 2147483648) : wrapI32 x = x := by
  unfold wrapI32; omega

theorem IncrementCtrlPos_disabled (c : VoiceCtrl) (irq m : Nat) (skip : Bool)
    (h : c.state &&& DISABLED ≠ 0) : IncrementCtrlPos c irq m skip = (c, irq) := by
  unfold IncrementCtrlPos; rw [if_pos h]

theorem IncrementCtrlPos_inc_before (c : VoiceCtrl) (irq m : Nat) (skip : Bool)
    (hr : c.InRange) (hen : c.state &&& DISABLED = 0) (hd : c.state &&& DECREASING = 0)
    (hb : c.pos + c.inc < c.end_) :
    IncrementCtrlPos c irq m skip = ({ c with pos := c.pos + c.inc }, irq) := by
  obtain ⟨⟨s1, s2⟩, ⟨e1, e2⟩, ⟨p1, p2⟩, ⟨i1, i2⟩⟩ := hr
  have w1 : wrapI32 (c.pos + c.inc) = c.pos + c.inc := wrapI32_eq_self (by omega) (by omega)
  have w2 : wrapI32 (c.pos + c.inc - c.end_) = c.pos + c.inc - c.end_ :=
    wrapI32_eq_self (by omega) (by omega)
  have hneg : c.pos + c.inc - c.end_ < 0 := by omega
  simp [IncrementCtrlPos, hen, hd, w1, w2, hneg]

theorem IncrementCtrlPos_dec_before (c : VoiceCtrl) (irq m : Nat) (skip : Bool)
    (hr : c.InRange) (hen : c.state &&& DISABLED = 0) (hd : c.state &&& DECREASING ≠ 0)
    (hb : c.start < c.pos - c.inc) :
    IncrementCtrlPos c irq m skip = ({ c with pos := c.pos - c.inc }, irq) := by
  obtain ⟨⟨s1, s2⟩, ⟨e1, e2⟩, ⟨p1, p2⟩, ⟨i1, i2⟩⟩ := hr
  have w1 : wrapI32 (c.pos - c.inc) = c.pos - c.inc := wrapI32_eq_self (by omega) (by omega)
  have w2 : wrapI32 (c.start - (c.pos - c.inc)) = c.start - (c.pos - c.inc) :=
    wrapI32_eq_self (by omega) (by omega)
  have hneg : c.start - (c.pos - c.inc) < 0 := by omega
  simp [IncrementCtrlPos, hen, hd, w1, w2, hneg]


theorem IncrementCtrlPos_before (c : VoiceCtrl) (irq m : Nat) (skip : Bool)
    (hr : c.InRange) (hen : c.state &&& DISABLED = 0)
    (hb : if c.state &&& DECREASING ≠ 0 then c.start < c.pos - c.inc
          else c.pos + c.inc < c.end_) :
    IncrementCtrlPos c irq m skip =
      ({ c with pos := if c.state &&& DECREASING ≠ 0 then c.pos - c.inc else c.pos + c.inc },
       irq) := by
  by_cases hd : c.state &&& DECREASING = 0
  · simp only [hd, ne_eq, not_true_eq_false, if_false] at hb ⊢
    exact IncrementCtrlPos_inc_before c irq m skip hr hen hd hb
  · simp only [hd, ne_eq, not_false_eq_true, if_true] at hb ⊢
    exact IncrementCtrlPos_dec_before c irq m skip hr hen hd hb

theorem IncrementCtrlPos_reached (c : VoiceCtrl) (irq m : Nat) (skip : Bool)
    (hr : c.InRange) (hen : c.state &&& DISABLED = 0) (p r : Int)
    (hp : p = if c.state &&& DECREASING ≠ 0 then c.pos - c.inc else c.pos + c.inc)
    (hrem : r = if c.state &&& DECREASING ≠ 0 then c.start - p else p - c.end_)
    (h0 : 0 ≤ r) :
    IncrementCtrlPos c irq m skip =
      (if skip = true then { c with pos := p }
       else if c.state &&& LOOP ≠ 0 then
         { c with
           pos := if (if c.state &&& BIDIRECTIONAL ≠ 0 then c.state ^^^ DECREASING
                      else c.state) &&& DECREASING ≠ 0 then c.end_ - r else c.start + r,
           state := if c.state &&& BIDIRECTIONAL ≠ 0 then c.state ^^^ DECREASING
                    else c.state }
       else
         { c with
           pos := if (c.state ||| 1) &&& DECREASING ≠ 0 then c.start else c.end_,
           state := c.state ||| 1 },
       if c.state &&& RAISEIRQ ≠ 0 then irq ||| m else irq) := by
  obtain ⟨⟨s1, s2⟩, ⟨e1, e2⟩, ⟨p1, p2⟩, ⟨i1, i2⟩⟩ := hr
  by_cases hd : c.state &&& DECREASING = 0
  · simp only [hd, ne_eq, not_true_eq_false, if_false] at hp hrem
    subst hp
    have w1 : wrapI32 (c.pos + c.inc) = c.pos + c.inc := wrapI32_eq_self (by omega) (by omega)
    have w2 : wrapI32 (c.pos + c.inc - c.end_) = r := by
      rw [hrem]; exact wrapI32_eq_self (by omega) (by omega)
    have w3 : wrapI32 (c.end_ - r) = c.end_ - r := wrapI32_eq_self (by omega) (by omega)
    have w4 : wrapI32 (c.start + r) = c.start + r := wrapI32_eq_self (by omega) (by omega)
    have hneg : ¬ r < 0 := by omega
    simp only [IncrementCtrlPos, hen, hd, ne_eq, not_true_eq_false, if_false, w1, w2, w3, w4,
      hneg]
    by_cases hs : skip = true
    · simp [hs]
    · by_cases hl : c.state &&& LOOP = 0 <;> simp [hs, hl]
  · simp only [hd, ne_eq, not_false_eq_true, if_true] at hp hrem
    subst hp
    have w1 : wrapI32 (c.pos - c.inc) = c.pos - c.inc := wrapI32_eq_self (by omega) (by omega)
    have w2 : wrapI32 (c.start - (c.pos - c.inc)) = r := by
      rw [hrem]; exact wrapI32_eq_self (by omega) (by omega)
    have w3 : wrapI32 (c.end_ - r) = c.end_ - r := wrapI32_eq_self (by omega) (by omega)
    have w4 : wrapI32 (c.start + r) = c.start + r := wrapI32_eq_self (by omega) (by omega)
    have hneg : ¬ r < 0 := by omega
    simp only [IncrementCtrlPos, hen, hd, ne_eq, not_true_eq_false, not_false_eq_true, if_true,
      if_false, w1, w2, w3, w4, hneg]
    by_cases hs : skip = true
    · simp [hs]
    · by_cases hl : c.state &&& LOOP = 0 <;> simp [hs, hl]


theorem or_one_decreasing (s : Nat) : (s ||| 1) &&& DECREASING ≠ 0 ↔ s &&& DECREASING ≠ 0 := by
  rw [(flag_iff_testBit _).2.2.2.2.2.2, (flag_iff_testBit _).2.2.2.2.2.2]
  have h1 : (1 : Nat) = 2 ^ 0 := by decide
  rw [Nat.testBit_or, h1, Nat.testBit_two_pow]
  simp

theorem or_one_disabled (s : Nat) : (s ||| 1) &&& DISABLED ≠ 0 := by
  rw [disabled_iff, (flag_iff_testBit _).1]
  left
  have h1 : (1 : Nat) = 2 ^ 0 := by decide
  rw [Nat.testBit_or, h1, Nat.testBit_two_pow]
  simp

theorem xor_decreasing_testBit (s i : Nat) :
    (s ^^^ DECREASING).testBit i = if i = 6 then !s.testBit 6 else s.testBit i := by
  have h1 : DECREASING = 2 ^ 6 := by decide
  rw [h1, Nat.testBit_xor, Nat.testBit_two_pow]
  by_cases hi : i = 6
  · subst hi; simp
  · have : ¬ 6 = i := fun h => hi h.symm
    simp [hi, this]

theorem xor_decreasing_flag (s : Nat) :
    (s ^^^ DECREASING) &&& DECREASING ≠ 0 ↔ s &&& DECREASING = 0 := by
  rw [(flag_iff_testBit _).2.2.2.2.2.2, xor_decreasing_testBit]
  have h := (flag_iff_testBit s).2.2.2.2.2.2
  constructor
  · intro hx
    by_contra hc
    have := h.1 hc
    simp [this] at hx
  · intro hx
    have : ¬ s.testBit 6 = true := fun hb => (h.2 hb) hx
    simp [this]


theorem IncrementCtrlPos_reached_skip (c : VoiceCtrl) (irq m : Nat)
    (hr : c.InRange) (hen : c.state &&& DISABLED = 0) (r : Int)
    (hrem : r = if c.state &&& DECREASING ≠ 0 then c.start - (c.pos - c.inc)
                else c.pos + c.inc - c.end_)
    (h0 : 0 ≤ r) :
    IncrementCtrlPos c irq m true =
      ({ c with pos := if c.state &&& DECREASING ≠ 0 then c.pos - c.inc else c.pos + c.inc },
       if c.state &&& RAISEIRQ ≠ 0 then irq ||| m else irq) := by
  rw [IncrementCtrlPos_reached c irq m true hr hen _ r rfl
    (by rw [hrem]; split_ifs <;> ring) h0, if_pos rfl]

theorem IncrementCtrlPos_reached_loop (c : VoiceCtrl) (irq m : Nat)
    (hr : c.InRange) (hen : c.state &&& DISABLED = 0) (hl : c.state &&& LOOP ≠ 0) (r : Int)
    (hrem : r = if c.state &&& DECREASING ≠ 0 then c.start - (c.pos - c.inc)
                else c.pos + c.inc - c.end_)
    (h0 : 0 ≤ r) :
    IncrementCtrlPos c irq m false =
      ({ c with
         pos := if (if c.state &&& BIDIRECTIONAL ≠ 0 then c.state ^^^ DECREASING
                    else c.state) &&& DECREASING ≠ 0 then c.end_ - r else c.start + r,
         state := if c.state &&& BIDIRECTIONAL ≠ 0 then c.state ^^^ DECREASING
                  else c.state },
       if c.state &&& RAISEIRQ ≠ 0 then irq ||| m else irq) := by
  rw [IncrementCtrlPos_reached c irq m false hr hen _ r rfl
    (by rw [hrem]; split_ifs <;> ring) h0, if_neg (by decide), if_pos hl]

theorem IncrementCtrlPos_reached_stop (c : VoiceCtrl) (irq m : Nat)
    (hr : c.InRange) (hen : c.state &&& DISABLED = 0) (hl : c.state &&& LOOP = 0) (r : Int)
    (hrem : r = if c.state &&& DECREASING ≠ 0 then c.start - (c.pos - c.inc)
                else c.pos + c.inc - c.end_)
    (h0 : 0 ≤ r) :
    IncrementCtrlPos c irq m false =
      ({ c with
         pos := if c.state &&& DECREASING ≠ 0 then c.start else c.end_,
         state := c.state ||| 1 },
       if c.state &&& RAISEIRQ ≠ 0 then irq ||| m else irq) := by
  rw [IncrementCtrlPos_reached c irq m false hr hen _ r rfl
    (by rw [hrem]; split_ifs <;> ring) h0, if_neg (by decide), if_neg (by simp [hl])]
  have := or_one_decreasing c.state
  by_cases hd : c.state &&& DECREASING = 0
  · have h2 : (c.state ||| 1) &&& DECREASING = 0 := by
      by_contra hc; exact (this.1 hc) hd
    simp only [h2, hd, ne_eq, not_true_eq_false, if_false]
  · have h2 : ¬ (c.state ||| 1) &&& DECREASING = 0 := this.2 hd
    simp only [h2, hd, ne_eq, not_false_eq_true, if_true]

theorem IncrementCtrlPos_loop_pos (c : VoiceCtrl) (irq m : Nat)
    (hr : c.InRange) (hen : c.state &&& DISABLED = 0) (hl : c.state &&& LOOP ≠ 0) (r : Int)
    (hrem : r = if c.state &&& DECREASING ≠ 0 then c.start - (c.pos - c.inc)
                else c.pos + c.inc - c.end_)
    (h0 : 0 ≤ r) :
    (IncrementCtrlPos c irq m false).1.pos =
      (if (IncrementCtrlPos c irq m false).1.state &&& DECREASING ≠ 0 then c.end_ - r
       else c.start + r) := by
  rw [IncrementCtrlPos_reached_loop c irq m hr hen hl r hrem h0]

/-! ## Claims -/

/-- C1: for an enabled wave track whose step reaches or passes the active
boundary (overshoot `r ≥ 0`), `PopWavePos` suppresses the loop/stop handling
exactly when the volume state has BIT16 and the wave state lacks LOOP: then
the wave track is left with the stepped position and everything else,
including its state byte, as before; with wave LOOP set the position wraps
whatever the volume state is; with neither, the track stops. `PopVolPos`
never suppresses: an enabled volume track reaching its boundary always wraps
(LOOP) or stops (no LOOP), whatever the BIT16 bits are. -/
theorem PopWavePos_suppresses_iff_rollover (v : Voice) (irq : VoiceIrq)
    (hr : v.wave_ctrl.InRange) (hen : v.wave_ctrl.state &&& DISABLED = 0) (r : Int)
    (hrem : r = if v.wave_ctrl.state &&& DECREASING ≠ 0
                then v.wave_ctrl.start - (v.wave_ctrl.pos - v.wave_ctrl.inc)
                else v.wave_ctrl.pos + v.wave_ctrl.inc - v.wave_ctrl.end_)
    (h0 : 0 ≤ r) :
    (CheckWaveRolloverCondition v = true ↔
      (v.vol_ctrl.state &&& BIT16 ≠ 0 ∧ v.wave_ctrl.state &&& LOOP = 0)) ∧
    (v.vol_ctrl.state &&& BIT16 ≠ 0 → v.wave_ctrl.state &&& LOOP = 0 →
      (PopWavePos v irq).2.1.wave_ctrl =
        { v.wave_ctrl with
          pos := if v.wave_ctrl.state &&& DECREASING ≠ 0
                 then v.wave_ctrl.pos - v.wave_ctrl.inc
                 else v.wave_ctrl.pos + v.wave_ctrl.inc }) ∧
    (v.wave_ctrl.state &&& LOOP ≠ 0 →
      (PopWavePos v irq).2.1.wave_ctrl.pos =
        if (PopWavePos v irq).2.1.wave_ctrl.state &&& DECREASING ≠ 0
        then v.wave_ctrl.end_ - r else v.wave_ctrl.start + r) ∧
    (v.vol_ctrl.state &&& BIT16 = 0 → v.wave_ctrl.state &&& LOOP = 0 →
      (PopWavePos v irq).2.1.wave_ctrl.state = v.wave_ctrl.state ||| 1 ∧
      (PopWavePos v irq).2.1.wave_ctrl.pos =
        if v.wave_ctrl.state &&& DECREASING ≠ 0 then v.wave_ctrl.start
        else v.wave_ctrl.end_) ∧
    (∀ r2 : Int, v.vol_ctrl.InRange → v.vol_ctrl.state &&& DISABLED = 0 →
      r2 = (if v.vol_ctrl.state &&& DECREASING ≠ 0
            then v.vol_ctrl.start - (v.vol_ctrl.pos - v.vol_ctrl.inc)
            else v.vol_ctrl.pos + v.vol_ctrl.inc - v.vol_ctrl.end_) →
      0 ≤ r2 →
      (v.vol_ctrl.state &&& LOOP ≠ 0 →
        (PopVolPos v irq).2.1.vol_ctrl.pos =
          if (PopVolPos v irq).2.1.vol_ctrl.state &&& DECREASING ≠ 0
          then v.vol_ctrl.end_ - r2 else v.vol_ctrl.start + r2) ∧
      (v.vol_ctrl.state &&& LOOP = 0 →
        (PopVolPos v irq).2.1.vol_ctrl.state = v.vol_ctrl.state ||| 1 ∧
        (PopVolPos v irq).2.1.vol_ctrl.pos =
          if v.vol_ctrl.state &&& DECREASING ≠ 0 then v.vol_ctrl.start
          else v.vol_ctrl.end_)) := by
  have hcond : CheckWaveRolloverCondition v = true ↔
      (v.vol_ctrl.state &&& BIT16 ≠ 0 ∧ v.wave_ctrl.state &&& LOOP = 0) := by
    simp [CheckWaveRolloverCondition]
  refine ⟨hcond, ?_, ?_, ?_, ?_⟩
  · intro hb hl
    have hs : CheckWaveRolloverCondition v = true := hcond.2 ⟨hb, hl⟩
    simp only [PopWavePos, hs,
      IncrementCtrlPos_reached_skip v.wave_ctrl irq.wave_state v.irq_mask hr hen r hrem h0]
  · intro hl
    have hs : CheckWaveRolloverCondition v = false := by
      simp [CheckWaveRolloverCondition, hl]
    simp only [PopWavePos, hs,
      IncrementCtrlPos_reached_loop v.wave_ctrl irq.wave_state v.irq_mask hr hen hl r hrem h0]
  · intro hb hl
    have hs : CheckWaveRolloverCondition v = false := by
      simp [CheckWaveRolloverCondition, hb]
    simp only [PopWavePos, hs,
      IncrementCtrlPos_reached_stop v.wave_ctrl irq.wave_state v.irq_mask hr hen hl r hrem h0,
      and_self]
  · intro r2 hr2 hen2 hrem2 h02
    constructor
    · intro hl
      simp only [PopVolPos,
        IncrementCtrlPos_reached_loop v.vol_ctrl irq.vol_state v.irq_mask hr2 hen2 hl r2 hrem2 h02]
    · intro hl
      simp only [PopVolPos,
        IncrementCtrlPos_reached_stop v.vol_ctrl irq.vol_state v.irq_mask hr2 hen2 hl r2 hrem2 h02,
        and_self]

theorem PopWavePos_suppresses_iff_rollover_witness :
    (PopWavePos (rolloverVoice 9) ⟨0, 0, 0⟩).2.1.wave_ctrl =
      { start := 0, end_ := 10, pos := 11, inc := 2, rate := 4, state := RAISEIRQ } :=
  (PopWavePos_suppresses_iff_rollover (rolloverVoice 9) ⟨0, 0, 0⟩ (by decide) (by decide) 1
    (by decide) (by decide)).2.1 (by decide) (by decide)

/-- C2: for an enabled control track with LOOP set, advanced without loop-wrap
suppression, whose step reaches or crosses the active boundary with overshoot
`r ≥ 0`: the DECREASING flag is flipped if BIDIRECTIONAL is set and kept
otherwise, every other state bit is unchanged, and the new position is
`end - r` if the resulting state has DECREASING and `start + r` if not. -/
theorem IncrementCtrlPos_loop_wrap (c : VoiceCtrl) (irq m : Nat)
    (hr : c.InRange) (hen : c.state &&& DISABLED = 0) (hl : c.state &&& LOOP ≠ 0) (r : Int)
    (hrem : r = if c.state &&& DECREASING ≠ 0 then c.start - (c.pos - c.inc)
                else c.pos + c.inc - c.end_)
    (h0 : 0 ≤ r) :
    (c.state &&& BIDIRECTIONAL ≠ 0 →
      ((IncrementCtrlPos c irq m false).1.state &&& DECREASING ≠ 0 ↔
        c.state &&& DECREASING = 0)) ∧
    (c.state &&& BIDIRECTIONAL = 0 →
      ((IncrementCtrlPos c irq m false).1.state &&& DECREASING ≠ 0 ↔
        c.state &&& DECREASING ≠ 0)) ∧
    (∀ i : Nat, i ≠ 6 →
      (IncrementCtrlPos c irq m false).1.state.testBit i = c.state.testBit i) ∧
    (IncrementCtrlPos c irq m false).1.pos =
      (if (IncrementCtrlPos c irq m false).1.state &&& DECREASING ≠ 0 then c.end_ - r
       else c.start + r) := by
  rw [IncrementCtrlPos_reached_loop c irq m hr hen hl r hrem h0]
  refine ⟨?_, ?_, ?_, rfl⟩
  · intro hb
    simp only [if_pos hb]
    exact xor_decreasing_flag c.state
  · intro hb
    simp only [hb, ne_eq, not_true_eq_false, if_false]
  · intro i hi
    by_cases hb : c.state &&& BIDIRECTIONAL = 0
    · simp only [hb, ne_eq, not_true_eq_false, if_false]
    · simp only [hb, ne_eq, not_false_eq_true, if_true, xor_decreasing_testBit, if_neg hi]

theorem IncrementCtrlPos_loop_wrap_witness :
    (IncrementCtrlPos (sampleTrack (LOOP ||| BIDIRECTIONAL)) 0 1 false).1.pos = 7 := by
  have h := (IncrementCtrlPos_loop_wrap (sampleTrack (LOOP ||| BIDIRECTIONAL)) 0 1 (by decide) (by decide) (by decide) 3
        (by decide) (by decide)).2.2.2
  rw [h]
  decide

/-- C3: for an enabled control track without LOOP, advanced without loop-wrap
suppression, whose step reaches or crosses the active boundary: the state
becomes `state | 0x01`, the position becomes exactly `start` (DECREASING) or
exactly `end` (otherwise); the resulting track is disabled, and any number of
later advances, with any IRQ bitmask, leave the track and the bitmask
unchanged. -/
theorem IncrementCtrlPos_stop (c : VoiceCtrl) (irq m : Nat)
    (hr : c.InRange) (hen : c.state &&& DISABLED = 0) (hl : c.state &&& LOOP = 0) (r : Int)
    (hrem : r = if c.state &&& DECREASING ≠ 0 then c.start - (c.pos - c.inc)
                else c.pos + c.inc - c.end_)
    (h0 : 0 ≤ r) :
    (IncrementCtrlPos c irq m false).1.state = c.state ||| 1 ∧
    (IncrementCtrlPos c irq m false).1.pos =
      (if c.state &&& DECREASING ≠ 0 then c.start else c.end_) ∧
    (IncrementCtrlPos c irq m false).1.state &&& DISABLED ≠ 0 ∧
    (∀ (n irq2 : Nat) (skip : Bool),
      (fun s : VoiceCtrl × Nat => IncrementCtrlPos s.1 s.2 m skip)^[n]
          ((IncrementCtrlPos c irq m false).1, irq2) =
        ((IncrementCtrlPos c irq m false).1, irq2)) := by
  rw [IncrementCtrlPos_reached_stop c irq m hr hen hl r hrem h0]
  refine ⟨rfl, rfl, or_one_disabled c.state, ?_⟩
  intro n irq2 skip
  induction n with
  | zero => rfl
  | succ k ih =>
    rw [Function.iterate_succ_apply, IncrementCtrlPos_disabled _ _ _ _ (or_one_disabled c.state)]
    exact ih

theorem IncrementCtrlPos_stop_witness :
    (IncrementCtrlPos (sampleTrack RAISEIRQ) 0 1 false).1.pos = 10 := by
  have h := (IncrementCtrlPos_stop (sampleTrack RAISEIRQ) 0 1 (by decide) (by decide) (by decide) 3
        (by decide) (by decide)).2.1
  rw [h]
  decide

theorem IncrementCtrlPos_irq_cases (c : VoiceCtrl) (irq m : Nat) (skip : Bool) :
    (IncrementCtrlPos c irq m skip).2 = irq ∨ (IncrementCtrlPos c irq m skip).2 = irq ||| m := by
  unfold IncrementCtrlPos
  simp only []
  split_ifs <;> simp

theorem init_irq_mask (num : Nat) (h : num < 32) : (Voice.init num).irq_mask = 2 ^ num := by
  have h1 : (2 : Nat) ^ num < 2 ^ 32 := Nat.pow_lt_pow_right (by decide) h
  simp only [Voice.init, Nat.one_shiftLeft]
  exact Nat.mod_eq_of_lt h1

theorem or_two_pow_testBit_self (x k : Nat) : (x ||| 2 ^ k).testBit k = true := by
  simp [Nat.testBit_or, Nat.testBit_two_pow]

theorem or_two_pow_testBit_of_ne (x k j : Nat) (h : j ≠ k) :
    (x ||| 2 ^ k).testBit j = x.testBit j := by
  have : ¬ k = j := fun e => h e.symm
  simp [Nat.testBit_or, Nat.testBit_two_pow, this]

/-- C4: `PopWavePos` and `PopVolPos` return the position held before the call.
On a track whose state has RESET or STOPPED set the call changes nothing
(voice and shared IRQ state). On an enabled track whose stepped position has
not reached the active boundary (`pos + inc < end` when increasing,
`pos - inc > start` when DECREASING) the only change is the position of that
track, which becomes `pos + inc` (resp. `pos - inc`). -/
theorem PopPos_returns_previous (v : Voice) (irq : VoiceIrq) :
    ((PopWavePos v irq).1 = v.wave_ctrl.pos ∧ (PopVolPos v irq).1 = v.vol_ctrl.pos) ∧
    ((v.wave_ctrl.state &&& RESET ≠ 0 ∨ v.wave_ctrl.state &&& STOPPED ≠ 0) →
      (PopWavePos v irq).2 = (v, irq)) ∧
    ((v.vol_ctrl.state &&& RESET ≠ 0 ∨ v.vol_ctrl.state &&& STOPPED ≠ 0) →
      (PopVolPos v irq).2 = (v, irq)) ∧
    (v.wave_ctrl.InRange → v.wave_ctrl.state &&& DISABLED = 0 →
      (if v.wave_ctrl.state &&& DECREASING ≠ 0
       then v.wave_ctrl.start < v.wave_ctrl.pos - v.wave_ctrl.inc
       else v.wave_ctrl.pos + v.wave_ctrl.inc < v.wave_ctrl.end_) →
      (PopWavePos v irq).2 =
        ({ v with
           wave_ctrl := { v.wave_ctrl with
             pos := if v.wave_ctrl.state &&& DECREASING ≠ 0
                    then v.wave_ctrl.pos - v.wave_ctrl.inc
                    else v.wave_ctrl.pos + v.wave_ctrl.inc } }, irq)) ∧
    (v.vol_ctrl.InRange → v.vol_ctrl.state &&& DISABLED = 0 →
      (if v.vol_ctrl.state &&& DECREASING ≠ 0
       then v.vol_ctrl.start < v.vol_ctrl.pos - v.vol_ctrl.inc
       else v.vol_ctrl.pos + v.vol_ctrl.inc < v.vol_ctrl.end_) →
      (PopVolPos v irq).2 =
        ({ v with
           vol_ctrl := { v.vol_ctrl with
             pos := if v.vol_ctrl.state &&& DECREASING ≠ 0
                    then v.vol_ctrl.pos - v.vol_ctrl.inc
                    else v.vol_ctrl.pos + v.vol_ctrl.inc } }, irq)) := by
  refine ⟨⟨rfl, rfl⟩, ?_, ?_, ?_, ?_⟩
  · intro h
    simp only [PopWavePos, IncrementCtrlPos_disabled _ _ _ _ ((disabled_iff _).2 h)]
  · intro h
    simp only [PopVolPos, IncrementCtrlPos_disabled _ _ _ _ ((disabled_iff _).2 h)]
  · intro hr hen hb
    simp only [PopWavePos, IncrementCtrlPos_before _ _ _ _ hr hen hb]
  · intro hr hen hb
    simp only [PopVolPos, IncrementCtrlPos_before _ _ _ _ hr hen hb]

theorem PopPos_returns_previous_witness :
    (PopWavePos (rolloverVoice 5) ⟨0, 0, 0⟩).1 = 5 ∧
    (PopWavePos (rolloverVoice 5) ⟨0, 0, 0⟩).2.1.wave_ctrl.pos = 7 ∧
    (PopVolPos (Voice.init 3) ⟨0, 0, 0⟩).2 = (Voice.init 3, ⟨0, 0, 0⟩) := by
  have h := PopPos_returns_previous (rolloverVoice 5) ⟨0, 0, 0⟩
  have h2 := PopPos_returns_previous (Voice.init 3) ⟨0, 0, 0⟩
  refine ⟨h.1.1, ?_, h2.2.2.1 (by decide)⟩
  rw [h.2.2.2.1 (by decide) (by decide) (by decide)]
  decide

/-- C5: for a voice with index `num` (so `irq_mask = 1 << num`): whenever the
step of an enabled track reaches or crosses its active boundary, whatever the
track then does (loop, stop or roll over), the voice's bit is set in that
track's IRQ bitmask if RAISEIRQ is set in the track's state and the bitmask is
left as it was if not. No advance (of either track, in any state) changes the
bit of another voice, the bitmask of the other axis, or the cursor. -/
theorem advance_irq_effect (v : Voice) (irq : VoiceIrq) (num : Nat) (hnum : num < 32)
    (hm : v.irq_mask = (Voice.init num).irq_mask) :
    (∀ r : Int, v.wave_ctrl.InRange → v.wave_ctrl.state &&& DISABLED = 0 →
      r = (if v.wave_ctrl.state &&& DECREASING ≠ 0
           then v.wave_ctrl.start - (v.wave_ctrl.pos - v.wave_ctrl.inc)
           else v.wave_ctrl.pos + v.wave_ctrl.inc - v.wave_ctrl.end_) →
      0 ≤ r →
      (v.wave_ctrl.state &&& RAISEIRQ ≠ 0 →
        (PopWavePos v irq).2.2.wave_state.testBit num = true) ∧
      (v.wave_ctrl.state &&& RAISEIRQ = 0 →
        (PopWavePos v irq).2.2.wave_state = irq.wave_state)) ∧
    (∀ r : Int, v.vol_ctrl.InRange → v.vol_ctrl.state &&& DISABLED = 0 →
      r = (if v.vol_ctrl.state &&& DECREASING ≠ 0
           then v.vol_ctrl.start - (v.vol_ctrl.pos - v.vol_ctrl.inc)
           else v.vol_ctrl.pos + v.vol_ctrl.inc - v.vol_ctrl.end_) →
      0 ≤ r →
      (v.vol_ctrl.state &&& RAISEIRQ ≠ 0 →
        (PopVolPos v irq).2.2.vol_state.testBit num = true) ∧
      (v.vol_ctrl.state &&& RAISEIRQ = 0 →
        (PopVolPos v irq).2.2.vol_state = irq.vol_state)) ∧
    ((PopWavePos v irq).2.2.vol_state = irq.vol_state ∧
      (PopWavePos v irq).2.2.status = irq.status ∧
      ∀ j : Nat, j ≠ num →
        (PopWavePos v irq).2.2.wave_state.testBit j = irq.wave_state.testBit j) ∧
    ((PopVolPos v irq).2.2.wave_state = irq.wave_state ∧
      (PopVolPos v irq).2.2.status = irq.status ∧
      ∀ j : Nat, j ≠ num →
        (PopVolPos v irq).2.2.vol_state.testBit j = irq.vol_state.testBit j) := by
  have hmask : v.irq_mask = 2 ^ num := by rw [hm, init_irq_mask num hnum]
  refine ⟨?_, ?_, ⟨rfl, rfl, ?_⟩, ⟨rfl, rfl, ?_⟩⟩
  · intro r hr hen hrem h0
    have key : (PopWavePos v irq).2.2.wave_state =
        if v.wave_ctrl.state &&& RAISEIRQ ≠ 0 then irq.wave_state ||| v.irq_mask
        else irq.wave_state := by
      by_cases hs : CheckWaveRolloverCondition v = true
      · simp only [PopWavePos, hs, IncrementCtrlPos_reached_skip _ _ _ hr hen r hrem h0]
      · rw [Bool.not_eq_true] at hs
        by_cases hl : v.wave_ctrl.state &&& LOOP = 0
        · simp only [PopWavePos, hs, IncrementCtrlPos_reached_stop _ _ _ hr hen hl r hrem h0]
        · simp only [PopWavePos, hs, IncrementCtrlPos_reached_loop _ _ _ hr hen hl r hrem h0]
    constructor
    · intro hq
      rw [key, if_pos hq, hmask]
      exact or_two_pow_testBit_self _ _
    · intro hq
      rw [key, if_neg (by simp [hq])]
  · intro r hr hen hrem h0
    have key : (PopVolPos v irq).2.2.vol_state =
        if v.vol_ctrl.state &&& RAISEIRQ ≠ 0 then irq.vol_state ||| v.irq_mask
        else irq.vol_state := by
      by_cases hl : v.vol_ctrl.state &&& LOOP = 0
      · simp only [PopVolPos, IncrementCtrlPos_reached_stop _ _ _ hr hen hl r hrem h0]
      · simp only [PopVolPos, IncrementCtrlPos_reached_loop _ _ _ hr hen hl r hrem h0]
    constructor
    · intro hq
      rw [key, if_pos hq, hmask]
      exact or_two_pow_testBit_self _ _
    · intro hq
      rw [key, if_neg (by simp [hq])]
  · intro j hj
    show (IncrementCtrlPos v.wave_ctrl irq.wave_state v.irq_mask
      (CheckWaveRolloverCondition v)).2.testBit j = _
    rcases IncrementCtrlPos_irq_cases v.wave_ctrl irq.wave_state v.irq_mask
      (CheckWaveRolloverCondition v) with h | h
    · rw [h]
    · rw [h, hmask]; exact or_two_pow_testBit_of_ne _ _ _ hj
  · intro j hj
    show (IncrementCtrlPos v.vol_ctrl irq.vol_state v.irq_mask false).2.testBit j = _
    rcases IncrementCtrlPos_irq_cases v.vol_ctrl irq.vol_state v.irq_mask false with h | h
    · rw [h]
    · rw [h, hmask]; exact or_two_pow_testBit_of_ne _ _ _ hj

theorem advance_irq_effect_witness :
    (PopWavePos (rolloverVoice 9) ⟨0, 0, 0⟩).2.2.wave_state.testBit 3 = true :=
  ((advance_irq_effect (rolloverVoice 9) ⟨0, 0, 0⟩ 3 (by decide) rfl).1 1
    (by decide) (by decide) (by decide) (by decide)).1 (by decide)

/-- C6: after the volume register writes start `0xFE00`, end `0xFF00`, current
`0xFF00`, rate `0x3F00` and control `0x0800` (LOOP) on voice 0, the track is
at `start ≤ pos = end` with index 4080; one generated frame wraps the position
to `start + 63 * 512`, whose table index 4127 is not below `VOLUME_LEVELS`:
the register `0x89` read computes 4127 and the assertion of `GetVolScalar`
fails in the second frame. -/
theorem volume_index_overrun :
    (overrunVoice.map fun s => s.1.vol_ctrl) =
      some { start := 4064 * 512, end_ := 4080 * 512, pos := 4080 * 512, inc := 63 * 512,
             rate := 63, state := LOOP } ∧
    (overrunVoice.bind fun s =>
      (GenerateSamples s.1 s.2 1).map fun t => ReadFromRegister_0x89_i t.1) = some 4127 ∧
    (overrunVoice.bind fun s =>
      (GenerateSamples s.1 s.2 1).map fun t => (GetVolScalar t.1 t.2).isSome) = some false ∧
    (overrunVoice.bind fun s => GenerateSamples s.1 s.2 2) = none := by
  refine ⟨by decide, by decide, by decide, by decide⟩

theorem Read8BitSample_i_lt (addr : Int) : Read8BitSample_i addr < 1048576 := by
  unfold Read8BitSample_i
  exact Nat.and_lt_two_pow _ (n := 20) (by decide)

theorem Read16BitSample_i_bounds (addr : Int) :
    Read16BitSample_i addr % 2 = 0 ∧ Read16BitSample_i addr < 1048576 := by
  unfold Read16BitSample_i
  simp only []
  generalize toU32 addr = n
  have hu : n &&& 0x1FFFF < 2 ^ 17 := Nat.and_lt_two_pow _ (by decide)
  have hl : n &&& 0xC0000 < 2 ^ 20 := Nat.and_lt_two_pow _ (by decide)
  have hs : (n &&& 0x1FFFF) <<< 1 = 2 * (n &&& 0x1FFFF) := by
    rw [Nat.shiftLeft_eq]; omega
  have hm : ((n &&& 0x1FFFF) <<< 1) % 4294967296 = 2 * (n &&& 0x1FFFF) := by
    rw [hs]; omega
  rw [hm]
  constructor
  · have hb : ((n &&& 0xC0000) ||| 2 * (n &&& 0x1FFFF)).testBit 0 = false := by
      rw [Nat.testBit_or, Nat.testBit_and]
      have h1 : Nat.testBit 0xC0000 0 = false := by decide
      have h2 : (2 * (n &&& 0x1FFFF)).testBit 0 = false := by
        rw [Nat.testBit_zero]; simp
      rw [h1, h2]; simp
    rw [Nat.testBit_zero] at hb
    have := Nat.mod_two_eq_zero_or_one ((n &&& 0xC0000) ||| 2 * (n &&& 0x1FFFF))
    rcases this with h | h
    · exact h
    · simp [h] at hb
  · exact Nat.or_lt_two_pow (n := 20) hl (by omega)

/-- C7: for every sample address, the 8-bit sample offset is below `2^20`, the
16-bit sample offset is even and at most `0xFFFFE`, so both bytes of the
16-bit load lie inside the 1 MB RAM; the assertions `i < RAM_SIZE` of
`Read8BitSample` and `Read16BitSample` hold, also for the interpolation fetch
at `addr + 1`. -/
theorem sample_offsets_in_ram (ram : Nat → Nat) (addr : Int) :
    (Read8BitSample_i addr < 2 ^ 20 ∧
      Read16BitSample_i addr % 2 = 0 ∧ Read16BitSample_i addr ≤ 0xFFFFE ∧
      Read16BitSample_i addr + 1 < RAM_SIZE ∧
      (Read8BitSample ram addr).isSome = true ∧ (Read16BitSample ram addr).isSome = true) ∧
    (Read8BitSample_i (wrapI32 (addr + 1)) < 2 ^ 20 ∧
      Read16BitSample_i (wrapI32 (addr + 1)) % 2 = 0 ∧
      Read16BitSample_i (wrapI32 (addr + 1)) ≤ 0xFFFFE ∧
      Read16BitSample_i (wrapI32 (addr + 1)) + 1 < RAM_SIZE ∧
      (Read8BitSample ram (wrapI32 (addr + 1))).isSome = true ∧
      (Read16BitSample ram (wrapI32 (addr + 1))).isSome = true) := by
  have key : ∀ a : Int, Read8BitSample_i a < 2 ^ 20 ∧
      Read16BitSample_i a % 2 = 0 ∧ Read16BitSample_i a ≤ 0xFFFFE ∧
      Read16BitSample_i a + 1 < RAM_SIZE ∧
      (Read8BitSample ram a).isSome = true ∧ (Read16BitSample ram a).isSome = true := by
    intro a
    have h8 := Read8BitSample_i_lt a
    obtain ⟨he, hlt⟩ := Read16BitSample_i_bounds a
    have hR : RAM_SIZE = 1048576 := rfl
    refine ⟨h8, he, by omega, by rw [hR]; omega, ?_, ?_⟩
    · simp only [Read8BitSample, hR, if_pos h8, Option.isSome_some]
    · simp only [Read16BitSample, hR, if_pos hlt, Option.isSome_some]
  exact ⟨key addr, key (wrapI32 (addr + 1))⟩

theorem xor_decreasing_loop (s : Nat) (h : s &&& LOOP ≠ 0) : (s ^^^ DECREASING) &&& LOOP ≠ 0 := by
  rw [(flag_iff_testBit _).2.2.2.1] at h ⊢
  rw [xor_decreasing_testBit, if_neg (by decide)]
  exact h

/-- One advance keeps a looping track inside `[start, end]` when the increment
does not exceed the loop length. -/
theorem IncrementCtrlPos_loop_step (c : VoiceCtrl) (irq m : Nat) (hr : c.InRange)
    (hl : c.state &&& LOOP ≠ 0) (hi : 0 ≤ c.inc) (hlen : c.inc ≤ c.end_ - c.start)
    (hs : c.start ≤ c.pos) (he : c.pos ≤ c.end_) :
    (IncrementCtrlPos c irq m false).1.start = c.start ∧
    (IncrementCtrlPos c irq m false).1.end_ = c.end_ ∧
    (IncrementCtrlPos c irq m false).1.inc = c.inc ∧
    (IncrementCtrlPos c irq m false).1.state &&& LOOP ≠ 0 ∧
    c.start ≤ (IncrementCtrlPos c irq m false).1.pos ∧
    (IncrementCtrlPos c irq m false).1.pos ≤ c.end_ := by
  have hloop : ∀ r : Int,
      r = (if c.state &&& DECREASING ≠ 0 then c.start - (c.pos - c.inc)
           else c.pos + c.inc - c.end_) →
      0 ≤ r → r ≤ c.inc → c.state &&& DISABLED = 0 →
      (IncrementCtrlPos c irq m false).1.start = c.start ∧
      (IncrementCtrlPos c irq m false).1.end_ = c.end_ ∧
      (IncrementCtrlPos c irq m false).1.inc = c.inc ∧
      (IncrementCtrlPos c irq m false).1.state &&& LOOP ≠ 0 ∧
      c.start ≤ (IncrementCtrlPos c irq m false).1.pos ∧
      (IncrementCtrlPos c irq m false).1.pos ≤ c.end_ := by
    intro r hrem h0 hri hen
    have hpos := IncrementCtrlPos_loop_pos c irq m hr hen hl r hrem h0
    rw [hpos, IncrementCtrlPos_reached_loop c irq m hr hen hl r hrem h0]
    refine ⟨rfl, rfl, rfl, ?_, ?_, ?_⟩
    · show (if c.state &&& BIDIRECTIONAL ≠ 0 then c.state ^^^ DECREASING else c.state)
        &&& LOOP ≠ 0
      split_ifs
      · exact xor_decreasing_loop _ hl
      · exact hl
    · split_ifs <;> omega
    · split_ifs <;> omega
  by_cases hen : c.state &&& DISABLED = 0
  · by_cases hd : c.state &&& DECREASING = 0
    · by_cases hb : c.pos + c.inc < c.end_
      · rw [IncrementCtrlPos_inc_before c irq m false hr hen hd hb]
        exact ⟨rfl, rfl, rfl, hl, by show c.start ≤ c.pos + c.inc; omega,
          by show c.pos + c.inc ≤ c.end_; omega⟩
      · exact hloop (c.pos + c.inc - c.end_) (by simp [hd]) (by omega) (by omega) hen
    · by_cases hb : c.start < c.pos - c.inc
      · rw [IncrementCtrlPos_dec_before c irq m false hr hen hd hb]
        exact ⟨rfl, rfl, rfl, hl, by show c.start ≤ c.pos - c.inc; omega,
          by show c.pos - c.inc ≤ c.end_; omega⟩
      · exact hloop (c.start - (c.pos - c.inc)) (by simp [hd]) (by omega) (by omega) hen
  · rw [IncrementCtrlPos_disabled c irq m false hen]
    exact ⟨rfl, rfl, rfl, hl, hs, he⟩

/-- C8, as stated, fails: the looping track `[0, 10]` at position 5 with
increment 100 (LOOP set, `inc ≥ 0`, `start ≤ pos ≤ end`, no suppression) is at
position 95 after one advance, outside `[start, end]`. -/
theorem loop_position_escapes :
    (longStepTrack.state &&& LOOP ≠ 0 ∧ 0 ≤ longStepTrack.inc ∧
      longStepTrack.start ≤ longStepTrack.pos ∧ longStepTrack.pos ≤ longStepTrack.end_) ∧
    (IncrementCtrlPos longStepTrack 0 1 false).1.pos = 95 ∧
    ¬ ((IncrementCtrlPos longStepTrack 0 1 false).1.pos ≤ longStepTrack.end_) := by
  decide

/-- C8 (amended): for a control track with LOOP set, `0 ≤ inc ≤ end - start`
and `start ≤ pos ≤ end`, advanced any number of times with loop-wrap not
suppressed, the position after each advance lies within `[start, end]`. -/
theorem loop_position_in_range (c : VoiceCtrl) (irq m n : Nat) (hr : c.InRange)
    (hl : c.state &&& LOOP ≠ 0) (hi : 0 ≤ c.inc) (hlen : c.inc ≤ c.end_ - c.start)
    (hs : c.start ≤ c.pos) (he : c.pos ≤ c.end_) :
    c.start ≤ ((fun s : VoiceCtrl × Nat => IncrementCtrlPos s.1 s.2 m false)^[n] (c, irq)).1.pos ∧
    ((fun s : VoiceCtrl × Nat => IncrementCtrlPos s.1 s.2 m false)^[n] (c, irq)).1.pos ≤ c.end_ := by
  have inv : ∀ k : Nat,
      let s := (fun s : VoiceCtrl × Nat => IncrementCtrlPos s.1 s.2 m false)^[k] (c, irq)
      s.1.start = c.start ∧ s.1.end_ = c.end_ ∧ s.1.inc = c.inc ∧ s.1.state &&& LOOP ≠ 0 ∧
      c.start ≤ s.1.pos ∧ s.1.pos ≤ c.end_ := by
    intro k
    induction k with
    | zero => exact ⟨rfl, rfl, rfl, hl, hs, he⟩
    | succ k ih =>
      simp only [Function.iterate_succ_apply'] at ih ⊢
      obtain ⟨a1, a2, a3, a4, a5, a6⟩ := ih
      generalize (fun s : VoiceCtrl × Nat => IncrementCtrlPos s.1 s.2 m false)^[k] (c, irq) = s
        at a1 a2 a3 a4 a5 a6 ⊢
      have hr' : s.1.InRange := by
        obtain ⟨h1, h2, h3, h4⟩ := hr
        refine ⟨by rw [a1]; exact h1, by rw [a2]; exact h2, ?_, by rw [a3]; exact h4⟩
        constructor <;> omega
      have step := IncrementCtrlPos_loop_step s.1 s.2 m hr' a4 (by rw [a3]; exact hi)
        (by rw [a1, a2, a3]; exact hlen) (by rw [a1]; exact a5) (by rw [a2]; exact a6)
      obtain ⟨b1, b2, b3, b4, b5, b6⟩ := step
      exact ⟨by rw [b1, a1], by rw [b2, a2], by rw [b3, a3], b4, by rw [← a1]; exact b5,
        by rw [← a2]; exact b6⟩
  exact ⟨(inv n).2.2.2.2.1, (inv n).2.2.2.2.2⟩

theorem loop_position_in_range_witness :
    0 ≤ ((fun s : VoiceCtrl × Nat => IncrementCtrlPos s.1 s.2 1 false)^[5]
      (sampleTrack (LOOP ||| BIDIRECTIONAL), 0)).1.pos ∧
    ((fun s : VoiceCtrl × Nat => IncrementCtrlPos s.1 s.2 1 false)^[5]
      (sampleTrack (LOOP ||| BIDIRECTIONAL), 0)).1.pos ≤ 10 :=
  loop_position_in_range (sampleTrack (LOOP ||| BIDIRECTIONAL)) 0 1 5 (by decide) (by decide)
    (by decide) (by decide) (by decide) (by decide)

/-- C9, as stated, fails: in the rollover configuration (volume BIT16, wave
LOOP clear, wave RAISEIRQ set) the advance from position 9 crosses the end 10
and leaves the voice at position 11; from there, with the position already
beyond the boundary and the wave IRQ bit of the voice clear, the next advance
raises the bit again. -/
theorem rollover_irq_raised_again :
    CheckWaveRolloverCondition (rolloverVoice 11) = true ∧
    (rolloverVoice 11).wave_ctrl.state &&& RAISEIRQ ≠ 0 ∧
    (PopWavePos (rolloverVoice 9) ⟨0, 0, 0⟩).2.1 = rolloverVoice 11 ∧
    (rolloverVoice 11).wave_ctrl.end_ < (rolloverVoice 11).wave_ctrl.pos ∧
    ((VoiceIrq.mk 0 0 0).wave_state.testBit 3 = false ∧
      (PopWavePos (rolloverVoice 11) (VoiceIrq.mk 0 0 0)).2.2.wave_state.testBit 3 = true) := by
  decide

/-- C9 (amended): in the rollover case (volume BIT16 set, wave LOOP clear,
wave RAISEIRQ set), for the enabled, increasing wave track of voice `num`, an
advance leaves the position at `pos + inc` and everything else in the track as
it was, and afterwards the voice's wave IRQ bit is set exactly when it was set
before or the stepped position `pos + inc` is at or beyond the end boundary.
So the bit is raised by the step that crosses the boundary and, with a
non-negative increment, by every later advance made while the position is at
or beyond the boundary; a step that stays before the end does not raise it. -/
theorem rollover_irq_level (v : Voice) (irq : VoiceIrq) (num : Nat) (hnum : num < 32)
    (hm : v.irq_mask = (Voice.init num).irq_mask) (hr : v.wave_ctrl.InRange)
    (hen : v.wave_ctrl.state &&& DISABLED = 0) (hb16 : v.vol_ctrl.state &&& BIT16 ≠ 0)
    (hl : v.wave_ctrl.state &&& LOOP = 0) (hq : v.wave_ctrl.state &&& RAISEIRQ ≠ 0)
    (hd : v.wave_ctrl.state &&& DECREASING = 0) :
    (PopWavePos v irq).2.1.wave_ctrl =
      { v.wave_ctrl with pos := v.wave_ctrl.pos + v.wave_ctrl.inc } ∧
    (PopWavePos v irq).2.2.wave_state.testBit num =
      (irq.wave_state.testBit num ||
        decide (v.wave_ctrl.end_ ≤ v.wave_ctrl.pos + v.wave_ctrl.inc)) ∧
    (v.wave_ctrl.end_ ≤ v.wave_ctrl.pos → 0 ≤ v.wave_ctrl.inc →
      (PopWavePos v irq).2.2.wave_state.testBit num = true) := by
  have hmask : v.irq_mask = 2 ^ num := by rw [hm, init_irq_mask num hnum]
  have hs : CheckWaveRolloverCondition v = true := by
    simp [CheckWaveRolloverCondition, hb16, hl]
  by_cases hb : v.wave_ctrl.pos + v.wave_ctrl.inc < v.wave_ctrl.end_
  · have e := IncrementCtrlPos_inc_before v.wave_ctrl irq.wave_state v.irq_mask true hr hen hd hb
    have hdec : decide (v.wave_ctrl.end_ ≤ v.wave_ctrl.pos + v.wave_ctrl.inc) = false := by
      simp only [decide_eq_false_iff_not]; omega
    refine ⟨?_, ?_, ?_⟩
    · simp only [PopWavePos, hs, e]
    · simp only [PopWavePos, hs, e, hdec, Bool.or_false]
    · intro h1 h2; omega
  · have e := IncrementCtrlPos_reached_skip v.wave_ctrl irq.wave_state v.irq_mask hr hen
      (v.wave_ctrl.pos + v.wave_ctrl.inc - v.wave_ctrl.end_) (by simp [hd]) (by omega)
    simp only [hd, ne_eq, not_true_eq_false, if_false] at e
    rw [if_pos hq] at e
    have hdec : decide (v.wave_ctrl.end_ ≤ v.wave_ctrl.pos + v.wave_ctrl.inc) = true := by
      simp only [decide_eq_true_eq]; omega
    have hbit : (PopWavePos v irq).2.2.wave_state.testBit num = true := by
      simp only [PopWavePos, hs, e]
      rw [hmask]
      exact or_two_pow_testBit_self _ _
    refine ⟨?_, ?_, fun _ _ => hbit⟩
    · simp only [PopWavePos, hs, e]
    · rw [hbit, hdec, Bool.or_true]

theorem rollover_irq_level_witness :
    (PopWavePos (rolloverVoice 11) ⟨0, 0, 0⟩).2.2.wave_state.testBit 3 = true :=
  (rollover_irq_level (rolloverVoice 11) ⟨0, 0, 0⟩ 3 (by decide) rfl (by decide) (by decide)
    (by decide) (by decide) (by decide) (by decide)).2.2 (by decide) (by decide)

set_option maxRecDepth 100000 in
theorem vol_rate_inc_table : ∀ val : Nat, val < 256 →
    ((8 : Int) ^ (val >>> 6) = ((1 <<< (3 * (val >>> 6)) : Nat) : Int)) ∧
    ((8 : Int) ^ (val >>> 6) = 1 ∨ (8 : Int) ^ (val >>> 6) = 8 ∨ (8 : Int) ^ (val >>> 6) = 64 ∨
      (8 : Int) ^ (val >>> 6) = 512) ∧
    (8 : Int) ^ (val >>> 6) *
        (ceil_sdivide (((val &&& 63 : Nat) : Int) * VOLUME_INC_SCALAR)
          ((1 <<< (3 * (val >>> 6)) : Nat) : Int) - 1) < ((val &&& 63 : Nat) : Int) * 512 ∧
    ((val &&& 63 : Nat) : Int) * 512 ≤ (8 : Int) ^ (val >>> 6) *
        ceil_sdivide (((val &&& 63 : Nat) : Int) * VOLUME_INC_SCALAR)
          ((1 <<< (3 * (val >>> 6)) : Nat) : Int) ∧
    0 ≤ ceil_sdivide (((val &&& 63 : Nat) : Int) * VOLUME_INC_SCALAR)
          ((1 <<< (3 * (val >>> 6)) : Nat) : Int) ∧
    ceil_sdivide (((val &&& 63 : Nat) : Int) * VOLUME_INC_SCALAR)
          ((1 <<< (3 * (val >>> 6)) : Nat) : Int) ≤ 63 * 512 ∧
    (ceil_sdivide (((val &&& 63 : Nat) : Int) * VOLUME_INC_SCALAR)
          ((1 <<< (3 * (val >>> 6)) : Nat) : Int) = 0 ↔ val &&& 63 = 0) := by
  decide

/-- C10: for every volume-rate byte `val` in `[0, 255]`, `WriteVolRate`
succeeds (its assertion holds) and sets the increment to the ceiling of
`(val & 63) * 512 / d` with `d = 8 ^ (val >> 6)`, one of 1, 8, 64, 512 (the
ceiling is the integer `inc` with `d * (inc - 1) < (val & 63) * 512 ≤ d * inc`);
the increment is non-negative, at most `63 * 512`, and zero only when the
magnitude `val & 63` is zero. -/
theorem WriteVolRate_increment (v : Voice) (val : Nat) (hval : val < 256) :
    ∃ inc : Int,
      WriteVolRate v val =
        some { v with vol_ctrl := { v.vol_ctrl with rate := val, inc := inc } } ∧
      ((8 : Int) ^ (val >>> 6) = 1 ∨ (8 : Int) ^ (val >>> 6) = 8 ∨
        (8 : Int) ^ (val >>> 6) = 64 ∨ (8 : Int) ^ (val >>> 6) = 512) ∧
      (8 : Int) ^ (val >>> 6) * (inc - 1) < ((val &&& 63 : Nat) : Int) * 512 ∧
      ((val &&& 63 : Nat) : Int) * 512 ≤ (8 : Int) ^ (val >>> 6) * inc ∧
      0 ≤ inc ∧ inc ≤ 63 * 512 ∧ (inc = 0 ↔ val &&& 63 = 0) := by
  obtain ⟨_, hd, h1, h2, h3, h4, h5⟩ := vol_rate_inc_table val hval
  refine ⟨ceil_sdivide (((val &&& 63 : Nat) : Int) * VOLUME_INC_SCALAR)
    ((1 <<< (3 * (val >>> 6)) : Nat) : Int), ?_, hd, h1, h2, h3, h4, h5⟩
  have hV : VOLUME_INC_SCALAR = 512 := rfl
  unfold WriteVolRate
  simp only []
  rw [if_pos ⟨h3, by rw [hV]; exact h4⟩]

theorem WriteVolRate_increment_witness :
    ∃ inc : Int, (WriteVolRate (Voice.init 0) 0x85).map (fun w => w.vol_ctrl.inc) = some inc ∧
      64 * (inc - 1) < 5 * 512 ∧ 5 * 512 ≤ 64 * inc := by
  obtain ⟨inc, h, _, h1, h2, _⟩ := WriteVolRate_increment (Voice.init 0) 0x85 (by decide)
  exact ⟨inc, by rw [h]; rfl, by simpa using h1, by simpa using h2⟩

/-! ## Sample generation -/

theorem shared_disabled_bit (a b : Nat)
    (h : (a &&& RESET ≠ 0 ∧ b &&& RESET ≠ 0) ∨ (a &&& STOPPED ≠ 0 ∧ b &&& STOPPED ≠ 0)) :
    a &&& b &&& DISABLED ≠ 0 := by
  rw [disabled_iff, (flag_iff_testBit _).1, (flag_iff_testBit _).2.1, Nat.testBit_and,
    Nat.testBit_and]
  rw [(flag_iff_testBit a).1, (flag_iff_testBit b).1, (flag_iff_testBit a).2.1,
    (flag_iff_testBit b).2.1] at h
  rcases h with ⟨h1, h2⟩ | ⟨h1, h2⟩
  · left; simp [h1, h2]
  · right; simp [h1, h2]

/-- For every voice whose volume and wave states share a disabled bit (RESET
set in both, or STOPPED set in both), `GenerateSamples` skips the voice
entirely: for any requested frame count it returns with the stream, the voice
and the shared IRQ state unchanged. -/
theorem GenerateSamples_skips_shared_disabled (stream : Nat → ℚ) (ram : Nat → Nat)
    (vol_scalars : Nat → ℚ) (pan_scalars : Nat → ℚ × ℚ) (requested_frames : Nat) (v : Voice)
    (irq : VoiceIrq)
    (h : (v.vol_ctrl.state &&& RESET ≠ 0 ∧ v.wave_ctrl.state &&& RESET ≠ 0) ∨
         (v.vol_ctrl.state &&& STOPPED ≠ 0 ∧ v.wave_ctrl.state &&& STOPPED ≠ 0)) :
    GenerateSamplesStream stream ram vol_scalars pan_scalars requested_frames v irq =
      some (stream, v, irq) := by
  unfold GenerateSamplesStream
  rw [if_pos (shared_disabled_bit _ _ h)]

theorem GenerateSamples_skips_shared_disabled_example :
    GenerateSamplesStream (fun _ => 0) (fun _ => 1) (fun _ => 1) (fun _ => (1, 1)) 48
        (Voice.init 5) ⟨0, 0, 0⟩ = some (fun _ => 0, Voice.init 5, ⟨0, 0, 0⟩) :=
  GenerateSamples_skips_shared_disabled _ _ _ _ 48 (Voice.init 5) ⟨0, 0, 0⟩
    (Or.inl ⟨by decide, by decide⟩)

/-- C11: the claim says a voice with both tracks disabled is skipped. After
the port writes `mixedDisabledWrites` voice 0 has volume state RESET only
(`0x01`) and wave state STOPPED only (`0x02`): both tracks are disabled (each
state has a bit of `DISABLED`), yet the guard
`vol_ctrl.state & wave_ctrl.state & DISABLED` is 0 and `GenerateSamples` for
one frame does not skip the voice: whatever the volume and pan tables, it adds
the held sample (RAM byte 1, scaled to 256) times `vol_scalars[4095]` times
the pan scalars of position 7 to `stream[0]` and `stream[1]`, and it counts
the call in `generated_8bit_ms`. -/
theorem GenerateSamples_mixed_disabled_not_skipped (vol_scalars : Nat → ℚ)
    (pan_scalars : Nat → ℚ × ℚ) :
    ((Gus.init 0x240 3 5).bind (runWrites 66 mixedDisabledWrites)).map
        (fun g => (g.voices 0, g.voice_irq, g.ram 0)) =
      some (mixedDisabledVoice, ⟨0, 0, 0⟩, 1) ∧
    (mixedDisabledVoice.vol_ctrl.state &&& DISABLED ≠ 0 ∧
      mixedDisabledVoice.wave_ctrl.state &&& DISABLED ≠ 0 ∧
      mixedDisabledVoice.vol_ctrl.state &&& mixedDisabledVoice.wave_ctrl.state &&& DISABLED = 0) ∧
    (GenerateSamplesStream (fun _ => 0) (Function.update (fun _ => 0) 0 1) vol_scalars
        pan_scalars 1 mixedDisabledVoice ⟨0, 0, 0⟩).map
        (fun r => (r.1 0, r.1 1, r.2.1.generated_8bit_ms)) =
      some (256 * vol_scalars 4095 * (pan_scalars 7).1,
        256 * vol_scalars 4095 * (pan_scalars 7).2, 1) := by
  refine ⟨by decide, by decide, ?_⟩
  have h0 : ¬ mixedDisabledVoice.vol_ctrl.state &&& mixedDisabledVoice.wave_ctrl.state &&&
      DISABLED ≠ 0 := by decide
  have h1 : GetSample (Function.update (fun _ => 0) 0 1) mixedDisabledVoice ⟨0, 0, 0⟩ =
      some (256, mixedDisabledVoice, ⟨0, 0, 0⟩) := by decide
  have h2 : GetVolScalar mixedDisabledVoice ⟨0, 0, 0⟩ =
      some (4095, mixedDisabledVoice, ⟨0, 0, 0⟩) := by decide
  have h3 : Is8Bit mixedDisabledVoice = true := by decide
  have h4 : mixedDisabledVoice.generated_8bit_ms = 0 := by decide
  have h5 : mixedDisabledVoice.pan_position = 7 := by decide
  simp only [GenerateSamplesStream, if_neg h0, GenerateSamplesLoop, h1, h2, Option.bind_some,
    Option.map_some', h3, if_true, h4, h5]
  norm_num [Function.update]
  rw [h2]
  simp [h3, h4, h5]

/-! ## The voice IRQ cursor -/

theorem and_one_shiftLeft_ne_zero_iff (t s : Nat) : t &&& (1 <<< s) ≠ 0 ↔ t.testBit s = true := by
  rw [Nat.one_shiftLeft]
  exact and_two_pow_ne_zero_iff t s

theorem testBit_false_of_lt_two_pow (t n i : Nat) (h : t < 2 ^ n) (hi : n ≤ i) :
    t.testBit i = false :=
  Nat.testBit_lt_two_pow (lt_of_lt_of_le h (Nat.pow_le_pow_right (by decide) hi))

theorem lt_of_testBit_of_lt_two_pow (t n i : Nat) (h : t < 2 ^ n) (hi : t.testBit i = true) :
    i < n := by
  by_contra hc
  rw [testBit_false_of_lt_two_pow t n i h (by omega)] at hi
  exact Bool.false_ne_true hi

/-- Scanning upwards from `s` finds a set bit at or before the set bit `j`. -/
theorem CheckVoiceIrqLoop_up (t av j : Nat) (hj : t.testBit j = true) (hjav : j < av)
    (hav : av ≤ 32) :
    ∀ (d s fuel : Nat), s ≤ j → j - s = d → d + 1 ≤ fuel →
      ∃ s1, CheckVoiceIrqLoop fuel t av s = some s1 ∧ s ≤ s1 ∧ s1 ≤ j ∧ t.testBit s1 = true ∧
        (t.testBit s = true → s1 = s) := by
  intro d
  induction d with
  | zero =>
    intro s fuel hs hd hf
    have hsj : s = j := by omega
    subst hsj
    obtain ⟨f, rfl⟩ : ∃ f, fuel = f + 1 := ⟨fuel - 1, by omega⟩
    refine ⟨s, ?_, le_refl _, le_refl _, hj, fun _ => rfl⟩
    unfold CheckVoiceIrqLoop
    rw [if_pos ((and_one_shiftLeft_ne_zero_iff t s).2 hj)]
  | succ d ih =>
    intro s fuel hs hd hf
    obtain ⟨f, rfl⟩ : ∃ f, fuel = f + 1 := ⟨fuel - 1, by omega⟩
    by_cases hb : t.testBit s = true
    · refine ⟨s, ?_, le_refl _, hs, hb, fun _ => rfl⟩
      unfold CheckVoiceIrqLoop
      rw [if_pos ((and_one_shiftLeft_ne_zero_iff t s).2 hb)]
    · have hnb : ¬ t &&& (1 <<< s) ≠ 0 := fun h => hb ((and_one_shiftLeft_ne_zero_iff t s).1 h)
      have hmod : (s + 1) % 256 = s + 1 := Nat.mod_eq_of_lt (by omega)
      have hnext : (if (s + 1) % 256 ≥ av then 0 else (s + 1) % 256) = s + 1 := by
        rw [hmod, if_neg (by omega)]
      obtain ⟨s1, h1, h2, h3, h4, _⟩ := ih (s + 1) f (by omega) (by omega) (by omega)
      refine ⟨s1, ?_, by omega, h3, h4, fun h => absurd h hb⟩
      unfold CheckVoiceIrqLoop
      rw [if_neg hnb]
      simp only []
      rw [hnext]
      exact h1

/-- From a cursor with no set bit at or above it, the scan wraps to 0 and
finds a set bit at or before the set bit `j`. -/
theorem CheckVoiceIrqLoop_wrap (t av j : Nat) (hj : t.testBit j = true) (hjav : j < av)
    (hav : av ≤ 32) :
    ∀ (k s fuel : Nat), s ≤ 255 → av - s = k → (∀ i, s ≤ i → t.testBit i = false) →
      k + j + 2 ≤ fuel →
      ∃ s1, CheckVoiceIrqLoop fuel t av s = some s1 ∧ s1 ≤ j ∧ t.testBit s1 = true := by
  intro k
  induction k with
  | zero =>
    intro s fuel hs hk hno hf
    obtain ⟨f, rfl⟩ : ∃ f, fuel = f + 1 := ⟨fuel - 1, by omega⟩
    have hnb : ¬ t &&& (1 <<< s) ≠ 0 := fun h => by
      have := (and_one_shiftLeft_ne_zero_iff t s).1 h
      rw [hno s (le_refl _)] at this
      exact Bool.false_ne_true this
    have hnext : (if (s + 1) % 256 ≥ av then 0 else (s + 1) % 256) = 0 := by
      by_cases h255 : s = 255
      · subst h255; simp
      · rw [Nat.mod_eq_of_lt (by omega), if_pos (by omega)]
    obtain ⟨s1, h1, _, h3, h4, _⟩ :=
      CheckVoiceIrqLoop_up t av j hj hjav hav j 0 f (Nat.zero_le _) (by omega) (by omega)
    refine ⟨s1, ?_, h3, h4⟩
    unfold CheckVoiceIrqLoop
    rw [if_neg hnb]
    simp only []
    rw [hnext]
    exact h1
  | succ k ih =>
    intro s fuel hs hk hno hf
    obtain ⟨f, rfl⟩ : ∃ f, fuel = f + 1 := ⟨fuel - 1, by omega⟩
    have hnb : ¬ t &&& (1 <<< s) ≠ 0 := fun h => by
      have := (and_one_shiftLeft_ne_zero_iff t s).1 h
      rw [hno s (le_refl _)] at this
      exact Bool.false_ne_true this
    have hmod : (s + 1) % 256 = s + 1 := Nat.mod_eq_of_lt (by omega)
    by_cases hw : s + 1 ≥ av
    · have hnext : (if (s + 1) % 256 ≥ av then 0 else (s + 1) % 256) = 0 := by
        rw [hmod, if_pos hw]
      obtain ⟨s1, h1, _, h3, h4, _⟩ :=
        CheckVoiceIrqLoop_up t av j hj hjav hav j 0 f (Nat.zero_le _) (by omega) (by omega)
      refine ⟨s1, ?_, h3, h4⟩
      unfold CheckVoiceIrqLoop
      rw [if_neg hnb]
      simp only []
      rw [hnext]
      exact h1
    · have hnext : (if (s + 1) % 256 ≥ av then 0 else (s + 1) % 256) = s + 1 := by
        rw [hmod, if_neg hw]
      obtain ⟨s1, h1, h3, h4⟩ := ih (s + 1) f (by omega) (by omega)
        (fun i hi => hno i (by omega)) (by omega)
      refine ⟨s1, ?_, h3, h4⟩
      unfold CheckVoiceIrqLoop
      rw [if_neg hnb]
      simp only []
      rw [hnext]
      exact h1

/-- The cursor search terminates on a non-empty mask inside the active
voices. -/
theorem CheckVoiceIrqLoop_terminates (t av s fuel : Nat) (ht : t ≠ 0) (hlt : t < 2 ^ av)
    (hav : av ≤ 32) (hs : s ≤ 255) (hf : 66 ≤ fuel) :
    ∃ s1, CheckVoiceIrqLoop fuel t av s = some s1 ∧ s1 < av ∧ t.testBit s1 = true ∧
      (t.testBit s = true → s1 = s) := by
  obtain ⟨j, hj⟩ := Nat.ne_zero_implies_bit_true ht
  have hjav : j < av := lt_of_testBit_of_lt_two_pow t av j hlt hj
  by_cases hex : ∃ i, s ≤ i ∧ t.testBit i = true
  · obtain ⟨i, hi, hbi⟩ := hex
    have hiav : i < av := lt_of_testBit_of_lt_two_pow t av i hlt hbi
    obtain ⟨s1, h1, _, h3, h4, h5⟩ :=
      CheckVoiceIrqLoop_up t av i hbi hiav hav (i - s) s fuel hi rfl (by omega)
    exact ⟨s1, h1, by omega, h4, h5⟩
  · have hno : ∀ i, s ≤ i → t.testBit i = false := by
      intro i hi
      by_contra hc
      exact hex ⟨i, hi, by simpa using hc⟩
    obtain ⟨s1, h1, h3, h4⟩ :=
      CheckVoiceIrqLoop_wrap t av j hj hjav hav (av - s) s fuel hs rfl hno (by omega)
    refine ⟨s1, h1, by omega, h4, fun hb => ?_⟩
    rw [hno s (le_refl _)] at hb
    exact absurd hb Bool.false_ne_true

theorem CheckIrq_eq (g : Gus) : ∃ e, CheckIrq g = { g with effects := e } := by
  unfold CheckIrq
  split_ifs
  · exact ⟨_, rfl⟩
  · exact ⟨g.effects, rfl⟩

theorem and_mask_testBit (x av i : Nat) :
    (x &&& (2 ^ av - 1)).testBit i = (x.testBit i && decide (i < av)) := by
  rw [Nat.testBit_and, Nat.testBit_two_pow_sub_one]

/-- What `CheckVoiceIrq` leaves behind when the mask has exactly the
`active_voices` low bits: it returns with enough fuel, touches only
`irq_status`, the cursor and the effects, and the cursor ends on a pending
active voice when there is one. -/
theorem CheckVoiceIrq_spec (fuel : Nat) (g : Gus) (hf : 66 ≤ fuel)
    (hav : g.active_voices ≤ 32) (hmask : g.active_voice_mask = 2 ^ g.active_voices - 1)
    (hs : g.voice_irq.status ≤ 255) :
    ∃ g1 : Gus, CheckVoiceIrq fuel g = some g1 ∧
      g1.voice_irq.vol_state = g.voice_irq.vol_state ∧
      g1.voice_irq.wave_state = g.voice_irq.wave_state ∧
      g1.active_voices = g.active_voices ∧ g1.active_voice_mask = g.active_voice_mask ∧
      g1.selected_register = g.selected_register ∧
      (((g.voice_irq.vol_state ||| g.voice_irq.wave_state) &&& g.active_voice_mask = 0 →
        g1.voice_irq.status = g.voice_irq.status ∧ g1.irq_status = g.irq_status &&& 0x9f)) ∧
      (((g.voice_irq.vol_state ||| g.voice_irq.wave_state) &&& g.active_voice_mask ≠ 0 →
        g1.voice_irq.status < g.active_voices ∧
        (g.voice_irq.vol_state ||| g.voice_irq.wave_state).testBit g1.voice_irq.status = true ∧
        ((g.voice_irq.status < g.active_voices ∧
          (g.voice_irq.vol_state ||| g.voice_irq.wave_state).testBit g.voice_irq.status = true) →
          g1.voice_irq.status = g.voice_irq.status) ∧
        g1.irq_status =
          (if g.voice_irq.wave_state ≠ 0
           then (if g.voice_irq.vol_state ≠ 0 then g.irq_status &&& 0x9f ||| 0x40
                 else g.irq_status &&& 0x9f) ||| 0x20
           else (if g.voice_irq.vol_state ≠ 0 then g.irq_status &&& 0x9f ||| 0x40
                 else g.irq_status &&& 0x9f)))) := by
  by_cases ht : (g.voice_irq.vol_state ||| g.voice_irq.wave_state) &&& g.active_voice_mask = 0
  · refine ⟨{ g with irq_status := g.irq_status &&& 0x9f }, ?_, rfl, rfl, rfl, rfl, rfl,
      fun _ => ⟨rfl, rfl⟩, fun h => absurd ht h⟩
    unfold CheckVoiceIrq
    simp only []
    rw [if_pos ht]
  · have hlt : (g.voice_irq.vol_state ||| g.voice_irq.wave_state) &&& g.active_voice_mask <
        2 ^ g.active_voices := by
      rw [hmask, Nat.and_pow_two_sub_one_eq_mod]
      exact Nat.mod_lt _ (Nat.pos_pow_of_pos _ (by decide))
    obtain ⟨s1, h1, h2, h3, h4⟩ := CheckVoiceIrqLoop_terminates _ g.active_voices
      g.voice_irq.status fuel ht hlt hav hs hf
    have hb1 : (g.voice_irq.vol_state ||| g.voice_irq.wave_state).testBit s1 = true := by
      rw [hmask, and_mask_testBit] at h3
      simp only [Bool.and_eq_true] at h3
      exact h3.1
    have hkeep : (g.voice_irq.status < g.active_voices ∧
        (g.voice_irq.vol_state ||| g.voice_irq.wave_state).testBit g.voice_irq.status = true) →
        s1 = g.voice_irq.status := by
      rintro ⟨ha, hb⟩
      apply h4
      rw [hmask, and_mask_testBit, hb]
      simp [ha]
    unfold CheckVoiceIrq
    simp only []
    rw [if_neg ht]
    by_cases hv : g.voice_irq.vol_state ≠ 0 <;> by_cases hw : g.voice_irq.wave_state ≠ 0
    all_goals
      simp only [hv, hw, if_true, if_false, not_true_eq_false, not_false_eq_true, ne_eq]
      obtain ⟨e, he⟩ := CheckIrq_eq _
      rw [he]
      simp only []
      rw [h1]
      exact ⟨_, rfl, rfl, rfl, rfl, rfl, rfl, fun h => absurd h ht,
        fun _ => ⟨h2, hb1, hkeep, rfl⟩⟩

/-- C14: when `active_voice_mask` has exactly the `active_voices` low bits set
and an active voice has a pending volume or wave IRQ, then from every cursor
value in `[0, 31]` the cursor search of `CheckVoiceIrq` terminates (any fuel
from 66 on suffices) and leaves a cursor below `active_voices` whose bit is
set in `vol_state | wave_state`; a cursor that already pointed at a pending
active voice is left where it was. The pending bits are not changed. -/
theorem CheckVoiceIrq_cursor_terminates (fuel : Nat) (g : Gus) (hf : 66 ≤ fuel)
    (hav : g.active_voices ≤ 32) (hmask : g.active_voice_mask = 2 ^ g.active_voices - 1)
    (hpend : (g.voice_irq.vol_state ||| g.voice_irq.wave_state) &&& g.active_voice_mask ≠ 0)
    (hs : g.voice_irq.status ≤ 31) :
    ∃ g1 : Gus, CheckVoiceIrq fuel g = some g1 ∧
      g1.voice_irq.status < g.active_voices ∧
      (g.voice_irq.vol_state ||| g.voice_irq.wave_state).testBit g1.voice_irq.status = true ∧
      ((g.voice_irq.status < g.active_voices ∧
        (g.voice_irq.vol_state ||| g.voice_irq.wave_state).testBit g.voice_irq.status = true) →
        g1.voice_irq.status = g.voice_irq.status) ∧
      g1.voice_irq.vol_state = g.voice_irq.vol_state ∧
      g1.voice_irq.wave_state = g.voice_irq.wave_state := by
  obtain ⟨g1, h1, h2, h3, _, _, _, _, h8⟩ :=
    CheckVoiceIrq_spec fuel g hf hav hmask (by omega)
  obtain ⟨a, b, c, _⟩ := h8 hpend
  exact ⟨g1, h1, a, b, c, h2, h3⟩

/-- C13: after the port writes that activate 14 voices, set a volume IRQ by
hand on the inactive voice 20 and a wave IRQ on the active voice 3, the last
`CheckVoiceIrq` leaves `irq_status = 0x60`: bit 0x40 is set although no
voice inside `active_voice_mask` has a pending volume IRQ. -/
theorem CheckVoiceIrq_inactive_volume_bit :
    ((Gus.init 0x240 3 5).bind (runWrites 66 inactiveVolumeIrqWrites)).map
      (fun g => (g.irq_status, g.active_voice_mask,
        g.voice_irq.vol_state &&& g.active_voice_mask,
        g.voice_irq.wave_state &&& g.active_voice_mask, g.voice_irq.status)) =
      some (0x60, 0x3FFF, 0, 8, 3) := by
  decide

/-! ## Reads of the voice IRQ status register -/

theorem reported_voice_index : ∀ s : Nat, s < 32 → ∀ a b : Bool,
    ((((if b then (if a then (s ||| 0x20) % 256 ||| 0x40 else (s ||| 0x20) % 256) ||| 0x80
        else (if a then (s ||| 0x20) % 256 ||| 0x40 else (s ||| 0x20) % 256)) <<< 8) % 65536)
      >>> 8) &&& 31 = s := by
  decide

theorem clear_bit_testBit (x s i : Nat) (hx : x < 2 ^ 32) (hs : s < 32) :
    (x &&& (0xFFFFFFFF ^^^ (1 <<< s) % 4294967296)).testBit i =
      (x.testBit i && decide (i ≠ s)) := by
  have hm : (1 <<< s) % 4294967296 = 2 ^ s := by
    rw [Nat.one_shiftLeft]
    exact Nat.mod_eq_of_lt (Nat.pow_lt_pow_right (by decide) hs)
  have hF : (0xFFFFFFFF : Nat) = 2 ^ 32 - 1 := by decide
  rw [hm, hF, Nat.testBit_and, Nat.testBit_xor, Nat.testBit_two_pow_sub_one, Nat.testBit_two_pow]
  by_cases hi : i < 32
  · by_cases his : s = i
    · subst his; simp [hi]
    · have : i ≠ s := fun h => his h.symm
      simp [hi, his, this]
  · rw [testBit_false_of_lt_two_pow x 32 i hx (by omega)]
    simp

theorem lt_two_pow_of_or_lt (a b n : Nat) (h : a ||| b < 2 ^ n) : a < 2 ^ n ∧ b < 2 ^ n := by
  constructor
  · apply Nat.lt_pow_two_of_testBit
    intro i hi
    have := testBit_false_of_lt_two_pow _ n i h hi
    rw [Nat.testBit_or] at this
    simp only [Bool.or_eq_false_iff] at this
    exact this.1
  · apply Nat.lt_pow_two_of_testBit
    intro i hi
    have := testBit_false_of_lt_two_pow _ n i h hi
    rw [Nat.testBit_or] at this
    simp only [Bool.or_eq_false_iff] at this
    exact this.2

theorem and_mask_eq_self (x av : Nat) (h : x < 2 ^ av) : x &&& (2 ^ av - 1) = x := by
  rw [Nat.and_pow_two_sub_one_eq_mod]
  exact Nat.mod_eq_of_lt h

/-- One read of register `0x8F` in a state satisfying `CursorInv` with a
pending voice: it reports the cursor, clears exactly that voice's two bits
and re-establishes `CursorInv`. -/
theorem ReadFromRegister_0x8f_step (fuel : Nat) (g : Gus) (hf : 66 ≤ fuel) (hinv : CursorInv g)
    (hp : g.pending ≠ 0) :
    ∃ (x : Nat) (g1 : Gus), ReadFromRegister fuel g = some (x, g1) ∧
      (x >>> 8) &&& 31 = g.voice_irq.status ∧ CursorInv g1 ∧
      (∀ i, g1.voice_irq.vol_state.testBit i =
        (g.voice_irq.vol_state.testBit i && decide (i ≠ g.voice_irq.status))) ∧
      (∀ i, g1.voice_irq.wave_state.testBit i =
        (g.voice_irq.wave_state.testBit i && decide (i ≠ g.voice_irq.status))) := by
  obtain ⟨hsel, hav, hmask, hlt, _, hcur, _⟩ := hinv
  obtain ⟨hsav, hsbit⟩ := hcur hp
  have hs32 : g.voice_irq.status < 32 := by omega
  have hlt32 : g.pending < 2 ^ 32 :=
    lt_of_lt_of_le hlt (Nat.pow_le_pow_right (by decide) hav)
  obtain ⟨hv32, hw32⟩ := lt_two_pow_of_or_lt _ _ 32 hlt32
  -- the state after the two bits are cleared
  let gc : Gus :=
    { g with voice_irq := { g.voice_irq with
        vol_state := g.voice_irq.vol_state &&&
          (0xFFFFFFFF ^^^ (1 <<< g.voice_irq.status) % 4294967296),
        wave_state := g.voice_irq.wave_state &&&
          (0xFFFFFFFF ^^^ (1 <<< g.voice_irq.status) % 4294967296) } }
  have hvb : ∀ i, gc.voice_irq.vol_state.testBit i =
      (g.voice_irq.vol_state.testBit i && decide (i ≠ g.voice_irq.status)) :=
    fun i => clear_bit_testBit _ _ i hv32 hs32
  have hwb : ∀ i, gc.voice_irq.wave_state.testBit i =
      (g.voice_irq.wave_state.testBit i && decide (i ≠ g.voice_irq.status)) :=
    fun i => clear_bit_testBit _ _ i hw32 hs32
  have hpb : ∀ i, gc.pending.testBit i =
      (g.pending.testBit i && decide (i ≠ g.voice_irq.status)) := by
    intro i
    simp only [Gus.pending, Nat.testBit_or, hvb, hwb]
    cases g.voice_irq.vol_state.testBit i <;> cases g.voice_irq.wave_state.testBit i <;> simp
  have hclt : gc.pending < 2 ^ g.active_voices := by
    apply Nat.lt_pow_two_of_testBit
    intro i hi
    rw [hpb, testBit_false_of_lt_two_pow _ _ i hlt hi]
    rfl
  obtain ⟨g1, h1, e1, e2, e3, e4, e5, hz, hnz⟩ :=
    CheckVoiceIrq_spec fuel gc hf hav hmask (by show g.voice_irq.status ≤ 255; omega)
  have htot : (gc.voice_irq.vol_state ||| gc.voice_irq.wave_state) &&& gc.active_voice_mask =
      gc.pending := by
    show gc.pending &&& g.active_voice_mask = gc.pending
    rw [hmask]
    exact and_mask_eq_self _ _ hclt
  rw [htot] at hz hnz
  have hp1 : g1.pending = gc.pending := by
    simp only [Gus.pending, e1, e2]
  refine ⟨(voiceIrqStatusReg g.voice_irq <<< 8) % 65536, g1, ?_, ?_, ?_, ?_, ?_⟩
  · unfold ReadFromRegister
    rw [if_neg (by rw [hsel]; decide), if_neg (by rw [hsel]; decide),
      if_neg (by rw [hsel]; decide), if_neg (by rw [hsel]; decide), if_pos hsel]
    unfold ReadGlobal_0x8f
    show (CheckVoiceIrq fuel gc).map _ = _
    rw [h1]
    rfl
  · have key := reported_voice_index _ hs32
      (decide (g.voice_irq.vol_state &&& (1 <<< g.voice_irq.status) % 4294967296 = 0))
      (decide (g.voice_irq.wave_state &&& (1 <<< g.voice_irq.status) % 4294967296 = 0))
    simp only [decide_eq_true_eq] at key
    exact key
  · refine ⟨by rw [e5]; exact hsel, by rw [e3]; exact hav, by rw [e4, e3]; exact hmask,
      by rw [hp1, e3]; exact hclt, ?_, ?_, ?_⟩
    · by_cases h0 : gc.pending = 0
      · rw [(hz h0).1]; show g.voice_irq.status ≤ 255; omega
      · have := (hnz h0).1
        have hav' : gc.active_voices ≤ 32 := hav
        omega
    · intro hne
      rw [hp1] at hne
      obtain ⟨a, b, _, _⟩ := hnz hne
      rw [hp1, e3]
      exact ⟨a, b⟩
    · intro h0
      rw [hp1] at h0
      rw [(hz h0).2, Nat.and_assoc]
      have : (0x9f : Nat) &&& 0x60 = 0 := by decide
      rw [this, Nat.and_zero]
  · intro i; rw [e1]; exact hvb i
  · intro i; rw [e2]; exact hwb i

theorem mem_voiceSet (x i : Nat) : i ∈ voiceSet x ↔ i < 32 ∧ x.testBit i = true := by
  simp [voiceSet]

theorem eq_zero_of_voiceSet_card (x : Nat) (hx : x < 2 ^ 32) (h : (voiceSet x).card = 0) :
    x = 0 := by
  apply Nat.eq_of_testBit_eq
  intro i
  rw [Nat.zero_testBit]
  by_cases hi : i < 32
  · by_contra hc
    have hmem : i ∈ voiceSet x := (mem_voiceSet x i).2 ⟨hi, by simpa using hc⟩
    rw [Finset.card_eq_zero.1 h] at hmem
    exact absurd hmem (Finset.not_mem_empty i)
  · exact testBit_false_of_lt_two_pow x 32 i hx (by omega)

theorem voiceSet_erase (x y s : Nat)
    (h : ∀ i, y.testBit i = (x.testBit i && decide (i ≠ s))) :
    voiceSet y = (voiceSet x).erase s := by
  ext i
  rw [Finset.mem_erase, mem_voiceSet, mem_voiceSet, h]
  by_cases his : i = s
  · simp [his]
  · simp [his]

/-- Reading register `0x8F` once per pending voice reports each pending voice
exactly once and leaves no voice IRQ pending. -/
theorem repeatReadFromRegister_spec (fuel : Nat) (hf : 66 ≤ fuel) :
    ∀ (n : Nat) (g : Gus), CursorInv g → (voiceSet g.pending).card = n →
      ∃ (l : List Nat) (g1 : Gus), repeatReadFromRegister fuel n g = some (l, g1) ∧
        l.Nodup ∧ l.length = n ∧ (∀ i, i ∈ l ↔ g.pending.testBit i = true) ∧
        g1.voice_irq.vol_state = 0 ∧ g1.voice_irq.wave_state = 0 ∧
        g1.irq_status &&& 0x60 = 0 := by
  intro n
  induction n with
  | zero =>
    intro g hinv hcard
    have hlt32 : g.pending < 2 ^ 32 :=
      lt_of_lt_of_le hinv.2.2.2.1 (Nat.pow_le_pow_right (by decide) hinv.2.1)
    have hp0 : g.pending = 0 := eq_zero_of_voiceSet_card _ hlt32 hcard
    have h1 : g.voice_irq.vol_state ||| g.voice_irq.wave_state < 2 ^ 0 := by
      show g.pending < 2 ^ 0
      rw [hp0]; decide
    obtain ⟨hv, hw⟩ := lt_two_pow_of_or_lt _ _ 0 h1
    refine ⟨[], g, rfl, List.nodup_nil, rfl, ?_, by omega, by omega, hinv.2.2.2.2.2.2 hp0⟩
    intro i
    rw [hp0, Nat.zero_testBit]
    simp
  | succ n ih =>
    intro g hinv hcard
    have hp : g.pending ≠ 0 := by
      intro h0
      rw [h0] at hcard
      have : voiceSet 0 = ∅ := by
        ext i; rw [mem_voiceSet, Nat.zero_testBit]; simp
      rw [this] at hcard
      simp at hcard
    obtain ⟨hsav, hsbit⟩ := hinv.2.2.2.2.2.1 hp
    have hs32 : g.voice_irq.status < 32 := lt_of_lt_of_le hsav hinv.2.1
    obtain ⟨x, g1, hread, hrep, hinv1, hvb, hwb⟩ := ReadFromRegister_0x8f_step fuel g hf hinv hp
    have hpb : ∀ i, g1.pending.testBit i =
        (g.pending.testBit i && decide (i ≠ g.voice_irq.status)) := by
      intro i
      simp only [Gus.pending, Nat.testBit_or, hvb, hwb]
      cases g.voice_irq.vol_state.testBit i <;> cases g.voice_irq.wave_state.testBit i <;> simp
    have hset := voiceSet_erase g.pending g1.pending g.voice_irq.status hpb
    have hmem : g.voice_irq.status ∈ voiceSet g.pending :=
      (mem_voiceSet _ _).2 ⟨hs32, hsbit⟩
    have hcard1 : (voiceSet g1.pending).card = n := by
      rw [hset, Finset.card_erase_of_mem hmem, hcard]
      rfl
    obtain ⟨l, g2, hrest, hnd, hlen, hmeml, hv0, hw0, hirq⟩ := ih g1 hinv1 hcard1
    refine ⟨g.voice_irq.status :: l, g2, ?_, ?_, by simp [hlen], ?_, hv0, hw0, hirq⟩
    · rw [repeatReadFromRegister, hread]
      simp [hrest, hrep]
    · refine List.nodup_cons.2 ⟨?_, hnd⟩
      intro hin
      have := (hmeml _).1 hin
      rw [hpb] at this
      simp at this
    · intro i
      rw [List.mem_cons, hmeml, hpb]
      by_cases his : i = g.voice_irq.status
      · subst his; simp [hsbit]
      · simp [his]

/-- C12: suppose `active_voice_mask` has exactly the `active_voices` low bits
set (so `active_voices ≥ 1` once a voice is pending), the set of voices with a
pending volume or wave IRQ is non-empty and lies within the active voices, and
`CheckVoiceIrq` has run (giving `g`). Then as many reads of register `0x8F` as
there are pending voices all return (fuel 66 suffices), report distinct voice
indices that are exactly the pending voices, and leave no voice IRQ pending
and bits 0x20 and 0x40 of `irq_status` clear. Each read reports the cursor
and clears exactly the volume and wave bit of the reported voice. -/
theorem voice_irq_reads_report_pending (fuel : Nat) (g0 g : Gus) (hf : 66 ≤ fuel)
    (hsel : g0.selected_register = 0x8f) (hav : g0.active_voices ≤ 32)
    (hmask : g0.active_voice_mask = 2 ^ g0.active_voices - 1)
    (hP : g0.pending ≠ 0) (hin : g0.pending < 2 ^ g0.active_voices)
    (hst : g0.voice_irq.status ≤ 31) (hrun : CheckVoiceIrq fuel g0 = some g) :
    (∃ (l : List Nat) (g1 : Gus),
      repeatReadFromRegister fuel (voiceSet g0.pending).card g = some (l, g1) ∧
      l.Nodup ∧ l.length = (voiceSet g0.pending).card ∧
      (∀ i, i ∈ l ↔ g0.pending.testBit i = true) ∧
      g1.voice_irq.vol_state = 0 ∧ g1.voice_irq.wave_state = 0 ∧
      g1.irq_status &&& 0x60 = 0) ∧
    (∃ (x : Nat) (g1 : Gus), ReadFromRegister fuel g = some (x, g1) ∧
      (x >>> 8) &&& 31 = g.voice_irq.status ∧
      g0.pending.testBit g.voice_irq.status = true ∧
      (∀ i, g1.voice_irq.vol_state.testBit i =
        (g0.voice_irq.vol_state.testBit i && decide (i ≠ g.voice_irq.status))) ∧
      (∀ i, g1.voice_irq.wave_state.testBit i =
        (g0.voice_irq.wave_state.testBit i && decide (i ≠ g.voice_irq.status)))) := by
  obtain ⟨g', h1, e1, e2, e3, e4, e5, _, hnz⟩ :=
    CheckVoiceIrq_spec fuel g0 hf hav hmask (by omega)
  rw [hrun] at h1
  have hgg : g = g' := Option.some.inj h1
  subst hgg
  have htot : (g0.voice_irq.vol_state ||| g0.voice_irq.wave_state) &&& g0.active_voice_mask =
      g0.pending := by
    show g0.pending &&& g0.active_voice_mask = g0.pending
    rw [hmask]
    exact and_mask_eq_self _ _ hin
  rw [htot] at hnz
  obtain ⟨a, b, _, _⟩ := hnz hP
  have hpg : g.pending = g0.pending := by simp only [Gus.pending, e1, e2]
  have hinv : CursorInv g := by
    refine ⟨by rw [e5]; exact hsel, by rw [e3]; exact hav, by rw [e4, e3]; exact hmask,
      by rw [hpg, e3]; exact hin, by omega, ?_, ?_⟩
    · intro _
      rw [hpg, e3]
      exact ⟨a, b⟩
    · intro h0
      rw [hpg] at h0
      exact absurd h0 hP
  constructor
  · have := repeatReadFromRegister_spec fuel hf (voiceSet g0.pending).card g hinv (by rw [hpg])
    rw [hpg] at this
    exact this
  · obtain ⟨x, g1, hread, hrep, _, hvb, hwb⟩ :=
      ReadFromRegister_0x8f_step fuel g hf hinv (by rw [hpg]; exact hP)
    refine ⟨x, g1, hread, hrep, b, ?_, ?_⟩
    · intro i; rw [hvb, e1]
    · intro i; rw [hwb, e2]

theorem voice_irq_reads_report_pending_witness :
    ((CheckVoiceIrq 66 (irqDevice 8 512 0)).bind (repeatReadFromRegister 66 2)).map
        (fun r => r.1) = some [3, 9] ∧
    ∃ (g : Gus) (l : List Nat) (g1 : Gus), CheckVoiceIrq 66 (irqDevice 8 512 0) = some g ∧
      repeatReadFromRegister 66 (voiceSet (irqDevice 8 512 0).pending).card g = some (l, g1) ∧
      (∀ i, i ∈ l ↔ (irqDevice 8 512 0).pending.testBit i = true) ∧
      g1.irq_status &&& 0x60 = 0 := by
  refine ⟨by decide, ?_⟩
  obtain ⟨g, hg, _⟩ := CheckVoiceIrq_spec 66 (irqDevice 8 512 0) (le_refl _) (by decide)
    (by decide) (by decide)
  obtain ⟨⟨l, g1, h1, _, _, h4, _, _, h7⟩, _⟩ :=
    voice_irq_reads_report_pending 66 (irqDevice 8 512 0) g (le_refl _) rfl (by decide)
      (by decide) (by decide) (by decide) (by decide) hg
  exact ⟨g, l, g1, hg, h1, h4, h7⟩

/-! ## The active voices -/

/-- The members `CheckVoiceIrq` can change: `irq_status`, the cursor and the
effects. -/
theorem CheckVoiceIrq_frame (fuel : Nat) (g g1 : Gus) (h : CheckVoiceIrq fuel g = some g1) :
    ∃ (st s : Nat) (e : List Effect),
      g1 = { g with irq_status := st, voice_irq := { g.voice_irq with status := s },
                    effects := e } := by
  unfold CheckVoiceIrq at h
  simp only [] at h
  split_ifs at h with ht hv hw hw
  · cases h; exact ⟨_, g.voice_irq.status, g.effects, rfl⟩
  all_goals
    obtain ⟨e, he⟩ := CheckIrq_eq _
    rw [he] at h
    simp only [Option.map_eq_some'] at h
    obtain ⟨s, _, hs⟩ := h
    subst hs
    exact ⟨_, s, e, rfl⟩

theorem shift_mask_eq : ∀ r : Nat, 14 ≤ r → r ≤ 32 → 0xffffffff >>> (32 - r) = 2 ^ r - 1 := by
  intro r h1 h2
  interval_cases r <;> decide

theorem clamp_voices (x : Nat) (hx : x ≤ 32) : clamp x MIN_VOICES MAX_VOICES = max 14 x := by
  unfold clamp MIN_VOICES MAX_VOICES
  split_ifs <;> omega

theorem ActivateVoices_spec (g : Gus) (req : Nat) (hreq : req ≤ 32)
    (hinv : g.active_voices = 0 ∨ VoicesInvariant g) :
    ∃ g1, ActivateVoices g req = some g1 ∧ g1.active_voices = max 14 req ∧
      VoicesInvariant g1 := by
  unfold ActivateVoices
  simp only []
  rw [clamp_voices req hreq]
  have hb : 14 ≤ max 14 req ∧ max 14 req ≤ 32 := by omega
  by_cases hne : max 14 req ≠ g.active_voices
  · rw [if_pos hne, if_pos hb.2]
    refine ⟨_, rfl, rfl, hb.1, hb.2, ?_⟩
    show 0xffffffff >>> (MAX_VOICES - max 14 req) = 2 ^ max 14 req - 1
    exact shift_mask_eq _ hb.1 hb.2
  · rw [if_neg hne]
    have he : max 14 req = g.active_voices := by
      by_contra hc; exact hne hc
    refine ⟨g, rfl, he.symm, ?_⟩
    rcases hinv with h0 | hi
    · omega
    · exact hi

theorem WriteGlobal_0xE_spec (g : Gus) (hinv : g.active_voices = 0 ∨ VoicesInvariant g) :
    ∃ g1, WriteGlobal_0xE g = some g1 ∧
      g1.active_voices = max 14 (1 + ((g.register_data >>> 8) &&& 31)) ∧
      VoicesInvariant g1 := by
  have hle : (g.register_data >>> 8) &&& 31 ≤ 31 := Nat.and_le_right
  have hmod : (1 + ((g.register_data >>> 8) &&& 31)) % 256 =
      1 + ((g.register_data >>> 8) &&& 31) := Nat.mod_eq_of_lt (by omega)
  unfold WriteGlobal_0xE
  rw [hmod]
  exact ActivateVoices_spec _ _ (by omega) hinv

theorem WriteToVoiceRegister_voices (fuel : Nat) (g g1 : Gus) (idx : Nat)
    (h : WriteToVoiceRegister fuel g idx = some g1) :
    g1.active_voices = g.active_voices ∧ g1.active_voice_mask = g.active_voice_mask := by
  unfold WriteToVoiceRegister at h
  split_ifs at h
  · unfold WriteVoice_0x0 at h
    split_ifs at h
    · obtain ⟨st, s, e, he⟩ := CheckVoiceIrq_frame _ _ _ h
      rw [he]; exact ⟨rfl, rfl⟩
    · cases h; exact ⟨rfl, rfl⟩
  · cases h; exact ⟨rfl, rfl⟩
  · cases h; exact ⟨rfl, rfl⟩
  · simp only [Option.map_eq_some'] at h
    obtain ⟨v1, _, hv⟩ := h
    subst hv; exact ⟨rfl, rfl⟩
  · cases h; exact ⟨rfl, rfl⟩
  · cases h; exact ⟨rfl, rfl⟩
  · cases h; exact ⟨rfl, rfl⟩
  · cases h; exact ⟨rfl, rfl⟩
  · unfold WriteVoice_0xD at h
    split_ifs at h
    · obtain ⟨st, s, e, he⟩ := CheckVoiceIrq_frame _ _ _ h
      rw [he]; exact ⟨rfl, rfl⟩
    · cases h; exact ⟨rfl, rfl⟩
  · cases h; exact ⟨rfl, rfl⟩

theorem StartDmaTransfers_voices (g : Gus) :
    (StartDmaTransfers g).active_voices = g.active_voices ∧
    (StartDmaTransfers g).active_voice_mask = g.active_voice_mask := ⟨rfl, rfl⟩

theorem CheckIrq_voices (g : Gus) :
    (CheckIrq g).active_voices = g.active_voices ∧
    (CheckIrq g).active_voice_mask = g.active_voice_mask := by
  obtain ⟨e, he⟩ := CheckIrq_eq g
  rw [he]; exact ⟨rfl, rfl⟩

theorem BeginPlayback_voices (g : Gus) :
    (BeginPlayback g).active_voices = g.active_voices ∧
    (BeginPlayback g).active_voice_mask = g.active_voice_mask := by
  unfold BeginPlayback
  simp only []
  split_ifs <;> exact ⟨rfl, rfl⟩

theorem WriteGlobal_0x4c_voices (g : Gus) :
    ((g.register_data >>> 8) &&& 7 = 0 →
      (WriteGlobal_0x4c g).active_voices = 0 ∧
      (WriteGlobal_0x4c g).active_voice_mask = g.active_voice_mask) ∧
    ((g.register_data >>> 8) &&& 7 ≠ 0 →
      (WriteGlobal_0x4c g).active_voices = g.active_voices ∧
      (WriteGlobal_0x4c g).active_voice_mask = g.active_voice_mask) := by
  unfold WriteGlobal_0x4c
  constructor
  · intro h0
    rw [if_pos h0, (CheckIrq_voices _).1, (CheckIrq_voices _).2]
    exact ⟨rfl, rfl⟩
  · intro h0
    rw [if_neg h0, (CheckIrq_voices _).1, (CheckIrq_voices _).2]
    split_ifs
    · exact ⟨rfl, rfl⟩
    · exact BeginPlayback_voices _
    · exact ⟨rfl, rfl⟩

/-- What `WriteToRegister` does to the active voices: a runtime-control write
with state bits 0 sets `active_voices` to 0 and keeps the mask; every other
write keeps both or (register `0xE`) sets them as the invariant says. -/
theorem WriteToRegister_voices (fuel : Nat) (g g1 : Gus)
    (hinv : g.active_voices = 0 ∨ VoicesInvariant g)
    (h : WriteToRegister fuel g = some g1) :
    ((g.selected_register = 0x4c ∧ (g.register_data >>> 8) &&& 7 = 0) →
      g1.active_voices = 0 ∧ g1.active_voice_mask = g.active_voice_mask) ∧
    (¬ (g.selected_register = 0x4c ∧ (g.register_data >>> 8) &&& 7 = 0) →
      ((g1.active_voices = g.active_voices ∧ g1.active_voice_mask = g.active_voice_mask) ∨
       VoicesInvariant g1)) := by
  unfold WriteToRegister at h
  by_cases h1 : g.selected_register = 0xE
  · rw [if_pos h1] at h
    obtain ⟨g2, hg2, _, hv⟩ := WriteGlobal_0xE_spec g hinv
    rw [hg2] at h
    cases h
    exact ⟨fun hc => by omega, fun _ => Or.inr hv⟩
  rw [if_neg h1] at h
  by_cases h2 : g.selected_register = 0x10
  · rw [if_pos h2] at h
    cases h; exact ⟨fun hc => by omega, fun _ => Or.inl ⟨rfl, rfl⟩⟩
  rw [if_neg h2] at h
  by_cases h3 : g.selected_register = 0x41
  · rw [if_pos h3] at h
    cases h
    refine ⟨fun hc => by omega, fun _ => Or.inl ?_⟩
    unfold WriteGlobal_0x41
    split_ifs <;> exact ⟨rfl, rfl⟩
  rw [if_neg h3] at h
  by_cases h4 : g.selected_register = 0x42
  · rw [if_pos h4] at h
    cases h; exact ⟨fun hc => by omega, fun _ => Or.inl ⟨rfl, rfl⟩⟩
  rw [if_neg h4] at h
  by_cases h5 : g.selected_register = 0x43
  · rw [if_pos h5] at h
    cases h; exact ⟨fun hc => by omega, fun _ => Or.inl ⟨rfl, rfl⟩⟩
  rw [if_neg h5] at h
  by_cases h6 : g.selected_register = 0x44
  · rw [if_pos h6] at h
    cases h; exact ⟨fun hc => by omega, fun _ => Or.inl ⟨rfl, rfl⟩⟩
  rw [if_neg h6] at h
  by_cases h7 : g.selected_register = 0x45
  · rw [if_pos h7] at h
    cases h; exact ⟨fun hc => by omega, fun _ => Or.inl ⟨rfl, rfl⟩⟩
  rw [if_neg h7] at h
  by_cases h8 : g.selected_register = 0x46
  · rw [if_pos h8] at h
    cases h; exact ⟨fun hc => by omega, fun _ => Or.inl ⟨rfl, rfl⟩⟩
  rw [if_neg h8] at h
  by_cases h9 : g.selected_register = 0x47
  · rw [if_pos h9] at h
    cases h; exact ⟨fun hc => by omega, fun _ => Or.inl ⟨rfl, rfl⟩⟩
  rw [if_neg h9] at h
  by_cases h10 : g.selected_register = 0x49
  · rw [if_pos h10] at h
    cases h
    refine ⟨fun hc => by omega, fun _ => Or.inl ?_⟩
    unfold WriteGlobal_0x49
    split_ifs <;> exact ⟨rfl, rfl⟩
  rw [if_neg h10] at h
  by_cases h11 : g.selected_register = 0x4c
  · rw [if_pos h11] at h
    cases h
    exact ⟨fun hc => (WriteGlobal_0x4c_voices g).1 hc.2,
      fun hc => Or.inl ((WriteGlobal_0x4c_voices g).2 (fun h0 => hc ⟨h11, h0⟩))⟩
  rw [if_neg h11] at h
  refine ⟨fun hc => absurd hc.1 h11, fun _ => Or.inl ?_⟩
  cases hv : g.voice with
  | none => rw [hv] at h; cases h; exact ⟨rfl, rfl⟩
  | some idx => rw [hv] at h; exact WriteToVoiceRegister_voices fuel g g1 idx h

theorem UpdateDmaAddress_voices (g g1 : Gus) (a : Nat) (h : UpdateDmaAddress g a = some g1) :
    g1.active_voices = g.active_voices ∧ g1.active_voice_mask = g.active_voice_mask := by
  unfold UpdateDmaAddress at h
  split_ifs at h
  · cases h; exact ⟨rfl, rfl⟩
  · simp only [] at h
    cases hc : GetDMAChannel a with
    | none => rw [hc] at h; cases h
    | some c => rw [hc] at h; cases h; exact ⟨rfl, rfl⟩

theorem WritePort_0x20b_voices (g g1 : Gus) (val : Nat) (h : WritePort_0x20b g val = some g1) :
    g1.active_voices = g.active_voices ∧ g1.active_voice_mask = g.active_voice_mask := by
  unfold WritePort_0x20b at h
  split_ifs at h
  · cases h; exact ⟨rfl, rfl⟩
  · cases h; exact ⟨rfl, rfl⟩
  · cases h; exact ⟨rfl, rfl⟩
  · have := UpdateDmaAddress_voices _ _ _ h
    exact this
  · cases h; exact ⟨rfl, rfl⟩

theorem WritePort_0x209_voices (g : Gus) (val : Nat) :
    (WritePort_0x209 g val).active_voices = g.active_voices ∧
    (WritePort_0x209 g val).active_voice_mask = g.active_voice_mask := by
  unfold WritePort_0x209
  split_ifs <;> exact ⟨rfl, rfl⟩

/-- What a port write does to the active voices. -/
theorem WriteToPort_voices (fuel : Nat) (g g1 : Gus) (port val iolen : Nat)
    (hinv : g.active_voices = 0 ∨ VoicesInvariant g)
    (h : WriteToPort fuel g port val iolen = some g1) :
    (IsStopWrite g port val iolen →
      g1.active_voices = 0 ∧ g1.active_voice_mask = g.active_voice_mask) ∧
    (¬ IsStopWrite g port val iolen →
      ((g1.active_voices = g.active_voices ∧ g1.active_voice_mask = g.active_voice_mask) ∨
       VoicesInvariant g1)) := by
  unfold WriteToPort at h
  by_cases p1 : subSizeT port g.port_base = 0x200
  · rw [if_pos p1] at h
    cases h
    exact ⟨fun hc => by unfold IsStopWrite at hc; omega, fun _ => Or.inl ⟨rfl, rfl⟩⟩
  rw [if_neg p1] at h
  by_cases p2 : subSizeT port g.port_base = 0x208
  · rw [if_pos p2] at h
    cases h
    exact ⟨fun hc => by unfold IsStopWrite at hc; omega, fun _ => Or.inl ⟨rfl, rfl⟩⟩
  rw [if_neg p2] at h
  by_cases p3 : subSizeT port g.port_base = 0x209
  · rw [if_pos p3] at h
    cases h
    exact ⟨fun hc => by unfold IsStopWrite at hc; omega,
      fun _ => Or.inl (WritePort_0x209_voices g val)⟩
  rw [if_neg p3] at h
  by_cases p4 : subSizeT port g.port_base = 0x20b
  · rw [if_pos p4] at h
    exact ⟨fun hc => by unfold IsStopWrite at hc; omega,
      fun _ => Or.inl (WritePort_0x20b_voices g g1 val h)⟩
  rw [if_neg p4] at h
  by_cases p5 : subSizeT port g.port_base = 0x302
  · rw [if_pos p5] at h
    cases h
    exact ⟨fun hc => by unfold IsStopWrite at hc; omega, fun _ => Or.inl ⟨rfl, rfl⟩⟩
  rw [if_neg p5] at h
  by_cases p6 : subSizeT port g.port_base = 0x303
  · rw [if_pos p6] at h
    cases h
    exact ⟨fun hc => by unfold IsStopWrite at hc; omega, fun _ => Or.inl ⟨rfl, rfl⟩⟩
  rw [if_neg p6] at h
  by_cases p7 : subSizeT port g.port_base = 0x304
  · rw [if_pos p7] at h
    by_cases hio : iolen = 2
    · rw [if_pos hio] at h
      obtain ⟨a, b⟩ := WriteToRegister_voices fuel
        { g with register_data := val % 65536 } g1 hinv h
      constructor
      · intro hc
        unfold IsStopWrite at hc
        apply a
        rcases hc with ⟨hs, ⟨_, _, hst⟩ | ⟨hp, _⟩⟩
        · exact ⟨hs, hst⟩
        · omega
      · intro hc
        apply b
        intro hst
        apply hc
        exact ⟨hst.1, Or.inl ⟨p7, hio, hst.2⟩⟩
    · rw [if_neg hio] at h
      cases h
      refine ⟨fun hc => ?_, fun _ => Or.inl ⟨rfl, rfl⟩⟩
      unfold IsStopWrite at hc
      omega
  rw [if_neg p7] at h
  by_cases p8 : subSizeT port g.port_base = 0x305
  · rw [if_pos p8] at h
    obtain ⟨a, b⟩ := WriteToRegister_voices fuel
      { g with register_data := ((0x00ff &&& g.register_data) ||| (val <<< 8)) % 65536 } g1
      hinv h
    constructor
    · intro hc
      unfold IsStopWrite at hc
      apply a
      rcases hc with ⟨hs, ⟨hp, _⟩ | ⟨_, hst⟩⟩
      · omega
      · exact ⟨hs, hst⟩
    · intro hc
      apply b
      intro hst
      apply hc
      exact ⟨hst.1, Or.inr ⟨p8, hst.2⟩⟩
  rw [if_neg p8] at h
  have hns : ¬ IsStopWrite g port val iolen := by
    intro hc
    unfold IsStopWrite at hc
    omega
  by_cases p9 : subSizeT port g.port_base = 0x307
  · rw [if_pos p9] at h
    cases h
    refine ⟨fun hc => absurd hc hns, fun _ => Or.inl ?_⟩
    split_ifs <;> exact ⟨rfl, rfl⟩
  rw [if_neg p9] at h
  cases h
  exact ⟨fun hc => absurd hc hns, fun _ => Or.inl ⟨rfl, rfl⟩⟩

theorem ReadFromRegister_voices (fuel : Nat) (g g1 : Gus) (x : Nat)
    (h : ReadFromRegister fuel g = some (x, g1)) :
    g1.active_voices = g.active_voices ∧ g1.active_voice_mask = g.active_voice_mask := by
  unfold ReadFromRegister at h
  split_ifs at h
  · cases h; exact CheckIrq_voices _
  · cases h; exact ⟨rfl, rfl⟩
  · cases h; exact ⟨rfl, rfl⟩
  · cases h; exact ⟨rfl, rfl⟩
  · unfold ReadGlobal_0x8f at h
    simp only [Option.map_eq_some', Prod.mk.injEq] at h
    obtain ⟨g2, hg2, _, he⟩ := h
    subst he
    obtain ⟨st, s, e, hf⟩ := CheckVoiceIrq_frame _ _ _ hg2
    rw [hf]; exact ⟨rfl, rfl⟩
  all_goals
    cases hv : g.voice with
    | none => rw [hv] at h; cases h; exact ⟨rfl, rfl⟩
    | some idx =>
      rw [hv] at h
      simp only [Option.map_eq_some', Prod.mk.injEq] at h
      obtain ⟨y, _, _, he⟩ := h
      subst he; exact ⟨rfl, rfl⟩

theorem ReadFromPort_voices (fuel : Nat) (g g1 : Gus) (port iolen x : Nat)
    (h : ReadFromPort fuel g port iolen = some (x, g1)) :
    g1.active_voices = g.active_voices ∧ g1.active_voice_mask = g.active_voice_mask := by
  unfold ReadFromPort at h
  split_ifs at h
  all_goals first
    | (cases h; exact ⟨rfl, rfl⟩)
    | (simp only [Option.map_eq_some', Prod.mk.injEq] at h
       obtain ⟨r, hr, _, he⟩ := h
       subst he
       exact ReadFromRegister_voices fuel g r.2 r.1 hr)

theorem VoicesInvariant_of_eq (g g1 : Gus) (h : VoicesInvariant g)
    (e : g1.active_voices = g.active_voices ∧ g1.active_voice_mask = g.active_voice_mask) :
    VoicesInvariant g1 := by
  unfold VoicesInvariant at *
  rw [e.1, e.2]; exact h

/-- In every state reachable by port accesses the voices are either not
activated (`active_voices = 0`) or satisfy the invariant. -/
theorem Reachable_voices (g : Gus) (h : Reachable g) :
    g.active_voices = 0 ∨ VoicesInvariant g := by
  induction h with
  | init port dma irq g hg =>
    left
    exact (UpdateDmaAddress_voices _ _ _ hg).1
  | step g g1 _ hstep ih =>
    cases hstep with
    | write fuel _ _ port val iolen hw =>
      obtain ⟨a, b⟩ := WriteToPort_voices fuel g g1 port val iolen ih hw
      by_cases hs : IsStopWrite g port val iolen
      · exact Or.inl (a hs).1
      · rcases b hs with e | hv
        · rcases ih with h0 | hi
          · exact Or.inl (by rw [e.1]; exact h0)
          · exact Or.inr (VoicesInvariant_of_eq g g1 hi e)
        · exact Or.inr hv
    | read fuel _ _ port iolen x hr =>
      have e := ReadFromPort_voices fuel g g1 port iolen x hr
      rcases ih with h0 | hi
      · exact Or.inl (by rw [e.1]; exact h0)
      · exact Or.inr (VoicesInvariant_of_eq g g1 hi e)

theorem high_byte_of_split_write (r h : Nat) (hh : h < 256) :
    (((0x00ff &&& r) ||| (h <<< 8)) % 65536) >>> 8 = h := by
  have ha : 0x00ff &&& r < 2 ^ 8 := by
    rw [Nat.and_comm]; exact Nat.and_lt_two_pow _ (by decide)
  have e : h <<< 8 ||| (0x00ff &&& r) = 2 ^ 8 * h + (0x00ff &&& r) := by
    rw [Nat.shiftLeft_eq, Nat.mul_comm, ← Nat.mul_add_lt_is_or ha]
  rw [Nat.or_comm, e, Nat.shiftRight_eq_div_pow]
  omega

theorem bootDevice_init : Gus.init 0x240 3 5 = some bootDevice := rfl

theorem selectDevice_reachable (sr : Nat) (h : sr < 256) : Reachable (selectDevice sr) := by
  refine Reachable.step bootDevice _ (Reachable.init 0x240 3 5 _ bootDevice_init)
    (PortStep.write 0 _ _ 0x343 sr 1 ?_)
  have hp : subSizeT 0x343 bootDevice.port_base = 0x303 := by decide
  unfold WriteToPort
  rw [if_neg (by rw [hp]; decide), if_neg (by rw [hp]; decide), if_neg (by rw [hp]; decide),
    if_neg (by rw [hp]; decide), if_neg (by rw [hp]; decide), if_pos hp,
    Nat.mod_eq_of_lt h]
  rfl

/-- C15: in any state reachable from construction by port accesses with the
active-voice register `0x0E` selected, running the register with any data
word `rd` (high byte `rd >> 8`), and in particular writing a byte `h` to the
high data port `0x305`, returns and leaves
`active_voices = max(14, 1 + (h & 31))`, which lies in `[14, 32]`, and
`active_voice_mask = 2^active_voices - 1`. -/
theorem active_voice_register_write (fuel : Nat) (g : Gus) (hreach : Reachable g)
    (hsel : g.selected_register = 0xE) :
    (∀ rd : Nat, ∃ g1, WriteToRegister fuel { g with register_data := rd } = some g1 ∧
      g1.active_voices = max 14 (1 + ((rd >>> 8) &&& 31)) ∧
      14 ≤ g1.active_voices ∧ g1.active_voices ≤ 32 ∧
      g1.active_voice_mask = 2 ^ g1.active_voices - 1) ∧
    (∀ port h iolen : Nat, subSizeT port g.port_base = 0x305 → h < 256 →
      ∃ g1, WriteToPort fuel g port h iolen = some g1 ∧
        g1.active_voices = max 14 (1 + (h &&& 31)) ∧
        14 ≤ g1.active_voices ∧ g1.active_voices ≤ 32 ∧
        g1.active_voice_mask = 2 ^ g1.active_voices - 1) := by
  have hinv := Reachable_voices g hreach
  have key : ∀ rd : Nat, ∃ g1, WriteToRegister fuel { g with register_data := rd } = some g1 ∧
      g1.active_voices = max 14 (1 + ((rd >>> 8) &&& 31)) ∧
      14 ≤ g1.active_voices ∧ g1.active_voices ≤ 32 ∧
      g1.active_voice_mask = 2 ^ g1.active_voices - 1 := by
    intro rd
    obtain ⟨g1, h1, h2, h3, h4, h5⟩ :=
      WriteGlobal_0xE_spec { g with register_data := rd } hinv
    refine ⟨g1, ?_, h2, h3, h4, h5⟩
    unfold WriteToRegister
    rw [if_pos hsel]
    exact h1
  refine ⟨key, ?_⟩
  intro port h iolen hp hh
  obtain ⟨g1, h1, h2, h3⟩ := key (((0x00ff &&& g.register_data) ||| (h <<< 8)) % 65536)
  rw [high_byte_of_split_write _ _ hh] at h2
  refine ⟨g1, ?_, h2, h3⟩
  unfold WriteToPort
  rw [if_neg (by rw [hp]; decide), if_neg (by rw [hp]; decide), if_neg (by rw [hp]; decide),
    if_neg (by rw [hp]; decide), if_neg (by rw [hp]; decide), if_neg (by rw [hp]; decide),
    if_neg (by rw [hp]; decide), if_pos hp]
  exact h1

theorem active_voice_register_write_witness :
    ∃ g1, WriteToPort 0 (selectDevice 0xE) 0x345 0x4F 1 = some g1 ∧ g1.active_voices = 16 ∧
      g1.active_voice_mask = 0xFFFF := by
  obtain ⟨g1, h1, h2, _, _, h5⟩ :=
    (active_voice_register_write 0 (selectDevice 0xE) (selectDevice_reachable 0xE (by decide))
      rfl).2 0x345 0x4F 1 (by decide) (by decide)
  have h16 : g1.active_voices = 16 := by rw [h2]; decide
  exact ⟨g1, h1, h16, by rw [h5, h16]; decide⟩

/-- C16, as stated, fails: after construction, the active-voice register is
written (`0x0E := 13`, giving 14 active voices and mask `0x3FFF`); the later
runtime-control write with state bits 0 (`0x4C := 0`) leaves
`active_voices = 0`, outside `[14, 32]`, with the mask still `0x3FFF`. -/
theorem stop_write_resets_active_voices :
    ((Gus.init 0x240 3 5).bind (runWrites 66 (activateThenStopWrites.take 2))).map
        (fun g => (g.active_voices, g.active_voice_mask)) = some (14, 0x3FFF) ∧
    ((Gus.init 0x240 3 5).bind (runWrites 66 activateThenStopWrites)).map
        (fun g => (g.active_voices, g.active_voice_mask)) = some (0, 0x3FFF) := by
  decide

/-- C16 (amended): in a state where the invariant holds (`active_voices` in
`[14, 32]` and `active_voice_mask` with exactly the `active_voices` low bits
set, as after a write of the active-voice register), every port read and
every port write other than a stop-playback write (runtime control `0x4C`
with state bits 0) preserves the invariant; a stop-playback write sets
`active_voices` to 0. -/
theorem port_access_keeps_voices_invariant (g : Gus) (hinv : VoicesInvariant g) :
    (∀ (fuel port iolen x : Nat) (g1 : Gus),
      ReadFromPort fuel g port iolen = some (x, g1) → VoicesInvariant g1) ∧
    (∀ (fuel port val iolen : Nat) (g1 : Gus),
      WriteToPort fuel g port val iolen = some g1 →
      (¬ IsStopWrite g port val iolen → VoicesInvariant g1) ∧
      (IsStopWrite g port val iolen → g1.active_voices = 0)) := by
  constructor
  · intro fuel port iolen x g1 h
    exact VoicesInvariant_of_eq g g1 hinv (ReadFromPort_voices fuel g g1 port iolen x h)
  · intro fuel port val iolen g1 h
    obtain ⟨a, b⟩ := WriteToPort_voices fuel g g1 port val iolen (Or.inr hinv) h
    refine ⟨fun hs => ?_, fun hs => (a hs).1⟩
    rcases b hs with e | hv
    · exact VoicesInvariant_of_eq g g1 hinv e
    · exact hv

theorem port_access_keeps_voices_invariant_witness :
    ∃ g1, WriteToPort 66 (irqDevice 0 0 0) 0x342 5 1 = some g1 ∧ VoicesInvariant g1 := by
  have hinv : VoicesInvariant (irqDevice 0 0 0) := by
    unfold VoicesInvariant; decide
  have hw : WriteToPort 66 (irqDevice 0 0 0) 0x342 5 1 =
      some { irqDevice 0 0 0 with voice_index := 5, voice := some 5 } := rfl
  refine ⟨_, hw, ?_⟩
  refine ((port_access_keeps_voices_invariant (irqDevice 0 0 0) hinv).2 66 0x342 5 1 _ hw).1 ?_
  unfold IsStopWrite
  decide

theorem CheckVoiceIrq_cursor_terminates_witness :
    ∃ g1, CheckVoiceIrq 66 (irqDevice 0 512 20) = some g1 ∧ g1.voice_irq.status < 14 := by
  obtain ⟨g1, h1, h2, _⟩ := CheckVoiceIrq_cursor_terminates 66 (irqDevice 0 512 20) (le_refl _)
    (by decide) (by decide) (by decide) (by decide)
  exact ⟨g1, h1, h2⟩

/-! ## Register data and the dispatch -/

theorem split_write_data (L H : Nat) (hL : L < 256) :
    ((0x00ff &&& (L % 65536)) ||| (H <<< 8)) % 65536 = ((H <<< 8) ||| L) % 65536 := by
  have h1 : L % 65536 = L := Nat.mod_eq_of_lt (by omega)
  have h2 : 0x00ff &&& L = L := by
    rw [Nat.and_comm]
    exact Nat.and_pow_two_sub_one_of_lt_two_pow (n := 8) (by omega)
  rw [h1, h2, Nat.or_comm]

/-- C17: for every device state and all bytes `L` and `H`, writing `L` to
port `0x304` as an 8-bit access and then `H` to port `0x305` gives exactly the
result of the single 16-bit write of `(H << 8) | L` to port `0x304`: in both
cases the selected register's handler runs once, on the state whose
`register_data` is `(H << 8) | L`. -/
theorem split_write_eq_word_write (fuel : Nat) (g : Gus) (p304 p305 L H : Nat)
    (hL : L < 256) (hH : H < 256) (h4 : subSizeT p304 g.port_base = 0x304)
    (h5 : subSizeT p305 g.port_base = 0x305) :
    ((WriteToPort fuel g p304 L 1).bind fun g1 => WriteToPort fuel g1 p305 H 1) =
      WriteToPort fuel g p304 ((H <<< 8) ||| L) 2 ∧
    WriteToPort fuel g p304 ((H <<< 8) ||| L) 2 =
      WriteToRegister fuel { g with register_data := (H <<< 8) ||| L } := by
  have hword : ((H <<< 8) ||| L) % 65536 = (H <<< 8) ||| L := by
    apply Nat.mod_eq_of_lt
    have h1 : H <<< 8 < 2 ^ 16 := by rw [Nat.shiftLeft_eq]; omega
    exact Nat.or_lt_two_pow h1 (by omega)
  have hw : WriteToPort fuel g p304 ((H <<< 8) ||| L) 2 =
      WriteToRegister fuel { g with register_data := (H <<< 8) ||| L } := by
    unfold WriteToPort
    rw [if_neg (by rw [h4]; decide), if_neg (by rw [h4]; decide), if_neg (by rw [h4]; decide),
      if_neg (by rw [h4]; decide), if_neg (by rw [h4]; decide), if_neg (by rw [h4]; decide),
      if_pos h4, if_pos rfl, hword]
  have hb : WriteToPort fuel g p304 L 1 = some { g with register_data := L % 65536 } := by
    unfold WriteToPort
    rw [if_neg (by rw [h4]; decide), if_neg (by rw [h4]; decide), if_neg (by rw [h4]; decide),
      if_neg (by rw [h4]; decide), if_neg (by rw [h4]; decide), if_neg (by rw [h4]; decide),
      if_pos h4, if_neg (by decide)]
  have h5' : subSizeT p305 ({ g with register_data := L % 65536 } : Gus).port_base = 0x305 := h5
  have hh : WriteToPort fuel { g with register_data := L % 65536 } p305 H 1 =
      WriteToRegister fuel { g with register_data := (H <<< 8) ||| L } := by
    unfold WriteToPort
    rw [if_neg (by rw [h5']; decide), if_neg (by rw [h5']; decide),
      if_neg (by rw [h5']; decide), if_neg (by rw [h5']; decide),
      if_neg (by rw [h5']; decide), if_neg (by rw [h5']; decide),
      if_neg (by rw [h5']; decide), if_pos h5']
    show WriteToRegister fuel
      { g with register_data := ((0x00ff &&& (L % 65536)) ||| (H <<< 8)) % 65536 } = _
    rw [split_write_data L H hL, hword]
  refine ⟨?_, hw⟩
  rw [hb, Option.some_bind, hh, hw]

theorem split_write_eq_word_write_witness :
    ((WriteToPort 66 (selectDevice 0x9) 0x344 0x34 1).bind fun g1 =>
        WriteToPort 66 g1 0x345 0x12 1) =
      WriteToPort 66 (selectDevice 0x9) 0x344 0x1234 2 :=
  (split_write_eq_word_write 66 (selectDevice 0x9) 0x344 0x345 0x34 0x12 (by decide)
    (by decide) (by decide) (by decide)).1

theorem WriteToRegister_voice_case (fuel : Nat) (g : Gus)
    (h : g.selected_register ≠ 0xE ∧ g.selected_register ≠ 0x10 ∧
      ¬ (0x41 ≤ g.selected_register ∧ g.selected_register ≤ 0x47) ∧
      g.selected_register ≠ 0x49 ∧ g.selected_register ≠ 0x4c) :
    WriteToRegister fuel g =
      match g.voice with
      | none => some g
      | some idx => WriteToVoiceRegister fuel g idx := by
  obtain ⟨h1, h2, h3, h4, h5⟩ := h
  have e1 : g.selected_register ≠ 0x41 := by omega
  have e2 : g.selected_register ≠ 0x42 := by omega
  have e3 : g.selected_register ≠ 0x43 := by omega
  have e4 : g.selected_register ≠ 0x44 := by omega
  have e5 : g.selected_register ≠ 0x45 := by omega
  have e6 : g.selected_register ≠ 0x46 := by omega
  have e7 : g.selected_register ≠ 0x47 := by omega
  unfold WriteToRegister
  rw [if_neg h1, if_neg h2, if_neg e1, if_neg e2, if_neg e3, if_neg e4, if_neg e5, if_neg e6,
    if_neg e7, if_neg h4, if_neg h5]

theorem WriteToRegister_runtime_case (fuel : Nat) (g : Gus)
    (h : g.selected_register = 0x4c) : WriteToRegister fuel g = some (WriteGlobal_0x4c g) := by
  unfold WriteToRegister
  simp only [h]
  rfl

theorem WriteToVoiceRegister_unhandled (fuel : Nat) (g : Gus) (idx : Nat)
    (h : 0x0D < g.selected_register) : WriteToVoiceRegister fuel g idx = some g := by
  have e0 : g.selected_register ≠ 0x0 := by omega
  have e1 : g.selected_register ≠ 0x1 := by omega
  have e2 : ¬ (g.selected_register = 0x2 ∨ g.selected_register = 0x3 ∨
      g.selected_register = 0x4 ∨ g.selected_register = 0x5 ∨ g.selected_register = 0xA ∨
      g.selected_register = 0xB) := by omega
  have e6 : g.selected_register ≠ 0x6 := by omega
  have e7 : g.selected_register ≠ 0x7 := by omega
  have e8 : g.selected_register ≠ 0x8 := by omega
  have e9 : g.selected_register ≠ 0x9 := by omega
  have ec : g.selected_register ≠ 0xC := by omega
  have ed : g.selected_register ≠ 0xD := by omega
  unfold WriteToVoiceRegister
  rw [if_neg e0, if_neg e1, if_neg e2, if_neg e6, if_neg e7, if_neg e8, if_neg e9, if_neg ec,
    if_neg ed]

/-- C18: while no voice is selected, running a write for any per-voice
register `0x00` to `0x0D` returns the device unchanged, and a read of any
register outside the global ones (`0x41`, `0x42`, `0x45`, `0x49`, `0x8F`)
returns, with the device unchanged, `0x0300` for `0x80` and `0x8D` and 0
otherwise, a value that depends on the selected register only. No voice is
selected after construction and after a runtime-control write with state
bits 0. -/
theorem no_voice_selected (fuel : Nat) (g : Gus) (hv : g.voice = none) :
    (g.selected_register ≤ 0x0D → WriteToRegister fuel g = some g) ∧
    ((g.selected_register ≠ 0x41 ∧ g.selected_register ≠ 0x42 ∧ g.selected_register ≠ 0x45 ∧
        g.selected_register ≠ 0x49 ∧ g.selected_register ≠ 0x8f) →
      ReadFromRegister fuel g =
        some (if g.selected_register = 0x80 ∨ g.selected_register = 0x8d then 0x0300 else 0,
          g)) ∧
    (∀ (port dma irq : Nat) (g0 : Gus), Gus.init port dma irq = some g0 → g0.voice = none) ∧
    (∀ (h : Gus) (h1 : Gus), h.selected_register = 0x4c → (h.register_data >>> 8) &&& 7 = 0 →
      WriteToRegister fuel h = some h1 → h1.voice = none) := by
  refine ⟨?_, ?_, ?_, ?_⟩
  · intro hs
    rw [WriteToRegister_voice_case fuel g (by omega), hv]
  · rintro ⟨h1, h2, h3, h4, h5⟩
    unfold ReadFromRegister
    rw [if_neg h1, if_neg h2, if_neg h3, if_neg h4, if_neg h5, hv]
  · intro port dma irq g0 h0
    unfold Gus.init UpdateDmaAddress at h0
    split_ifs at h0
    · cases h0; rfl
    · simp only [] at h0
      cases hc : GetDMAChannel dma with
      | none => rw [hc] at h0; cases h0
      | some c => rw [hc] at h0; cases h0; rfl
  · intro h h1 hs hst hw
    rw [WriteToRegister_runtime_case fuel h hs] at hw
    cases hw
    unfold WriteGlobal_0x4c
    rw [if_pos hst]
    obtain ⟨e, he⟩ := CheckIrq_eq (StopPlayback { h with irq_enabled := decide (h.register_data &&& 0x4 ≠ 0) })
    rw [he]
    rfl

theorem no_voice_selected_witness :
    WriteToRegister 0 (selectDevice 0x9) = some (selectDevice 0x9) ∧
    ReadFromRegister 0 (selectDevice 0x8d) = some (0x0300, selectDevice 0x8d) :=
  ⟨(no_voice_selected 0 (selectDevice 0x9) rfl).1 (by decide),
   (no_voice_selected 0 (selectDevice 0x8d) rfl).2.1 (by decide)⟩

/-- C19: with a voice selected, for a selected register that no case of the
write dispatch handles (not `0x0E`, `0x10`, `0x41` to `0x47`, `0x49`, `0x4C`,
nor `0x00` to `0x0D`) `WriteToRegister` returns the device unchanged, and for
a selected register that no case of the read dispatch handles (not `0x41`,
`0x42`, `0x45`, `0x49`, `0x8F`, nor `0x80`, `0x82`, `0x83`, `0x89`, `0x8A`,
`0x8B`, `0x8D`) `ReadFromRegister` returns the latched `register_data` with
the device unchanged. -/
theorem unhandled_register (fuel : Nat) (g : Gus) (idx : Nat) (hv : g.voice = some idx) :
    ((g.selected_register ≠ 0x0E ∧ g.selected_register ≠ 0x10 ∧
        ¬ (0x41 ≤ g.selected_register ∧ g.selected_register ≤ 0x47) ∧
        g.selected_register ≠ 0x49 ∧ g.selected_register ≠ 0x4c ∧
        ¬ g.selected_register ≤ 0x0D) →
      WriteToRegister fuel g = some g) ∧
    ((g.selected_register ≠ 0x41 ∧ g.selected_register ≠ 0x42 ∧ g.selected_register ≠ 0x45 ∧
        g.selected_register ≠ 0x49 ∧ g.selected_register ≠ 0x8f ∧
        g.selected_register ≠ 0x80 ∧ g.selected_register ≠ 0x82 ∧
        g.selected_register ≠ 0x83 ∧ g.selected_register ≠ 0x89 ∧
        g.selected_register ≠ 0x8a ∧ g.selected_register ≠ 0x8b ∧
        g.selected_register ≠ 0x8d) →
      ReadFromRegister fuel g = some (g.register_data, g)) := by
  constructor
  · rintro ⟨h1, h2, h3, h4, h5, h6⟩
    rw [WriteToRegister_voice_case fuel g ⟨h1, h2, h3, h4, h5⟩, hv]
    exact WriteToVoiceRegister_unhandled fuel g idx (by omega)
  · rintro ⟨h1, h2, h3, h4, h5, h6, h7, h8, h9, h10, h11, h12⟩
    unfold ReadFromRegister
    rw [if_neg h1, if_neg h2, if_neg h3, if_neg h4, if_neg h5, hv]
    show (ReadFromVoiceRegister g idx).map _ = _
    unfold ReadFromVoiceRegister
    rw [if_neg h6, if_neg h7, if_neg h8, if_neg h9, if_neg h10, if_neg h11, if_neg h12]
    rfl

/-- C20: a runtime-control (`0x4C`) write whose state bits
`(register_data >> 8) & 7` are 0 returns and clears the transient registers:
afterwards `irq_status = 0`, `irq_enabled = false`, `dma_ctrl = 0`,
`timer_ctrl = 0`, `sample_ctrl = 0`, `mix_ctrl = 0x0B`, `dma_addr = 0`,
`dram_addr = 0`, `register_data = 0`, `selected_register = 0`,
`voice_index = 0`, no voice is selected and the IRQ/DMA-select latch is
clear, while the sample RAM and all voices are unchanged. -/
theorem stop_playback_clears_registers (fuel : Nat) (g : Gus)
    (hsel : g.selected_register = 0x4c) (hst : (g.register_data >>> 8) &&& 7 = 0) :
    ∃ g1, WriteToRegister fuel g = some g1 ∧
      g1.irq_status = 0 ∧ g1.irq_enabled = false ∧ g1.dma_ctrl = 0 ∧ g1.timer_ctrl = 0 ∧
      g1.sample_ctrl = 0 ∧ g1.mix_ctrl = 0x0B ∧ g1.dma_addr = 0 ∧ g1.dram_addr = 0 ∧
      g1.register_data = 0 ∧ g1.selected_register = 0 ∧ g1.voice_index = 0 ∧
      g1.voice = none ∧ g1.should_change_irq_dma = false ∧
      g1.ram = g.ram ∧ g1.voices = g.voices := by
  refine ⟨WriteGlobal_0x4c g, ?_, ?_⟩
  · exact WriteToRegister_runtime_case fuel g hsel
  · unfold WriteGlobal_0x4c
    rw [if_pos hst]
    obtain ⟨e, he⟩ := CheckIrq_eq (StopPlayback { g with irq_enabled := decide (g.register_data &&& 0x4 ≠ 0) })
    rw [he]
    exact ⟨rfl, rfl, rfl, rfl, rfl, rfl, rfl, rfl, rfl, rfl, rfl, rfl, rfl, rfl, rfl⟩

theorem stop_playback_clears_registers_witness :
    ∃ g1, WriteToRegister 0 (selectDevice 0x4c) = some g1 ∧ g1.mix_ctrl = 0x0B ∧
      g1.voice = none := by
  obtain ⟨g1, h, _, _, _, _, _, h6, _, _, _, _, _, h12, _⟩ :=
    stop_playback_clears_registers 0 (selectDevice 0x4c) rfl (by decide)
  exact ⟨g1, h, h6, h12⟩


theorem voiceDevice_writes :
    runWrites 0 [(0x342, 0, 1), (0x343, 0x0F, 1)] bootDevice = some (voiceDevice 0x0F) ∧
    runWrites 0 [(0x342, 0, 1), (0x343, 0x81, 1)] bootDevice = some (voiceDevice 0x81) :=
  ⟨rfl, rfl⟩

theorem unhandled_register_witness :
    WriteToRegister 0 (voiceDevice 0x0F) = some (voiceDevice 0x0F) ∧
    ReadFromRegister 0 (voiceDevice 0x81) =
      some ((voiceDevice 0x81).register_data, voiceDevice 0x81) :=
  ⟨(unhandled_register 0 (voiceDevice 0x0F) 0 rfl).1 (by decide),
   (unhandled_register 0 (voiceDevice 0x81) 0 rfl).2 (by decide)⟩


/-! ## Runtime control: prepare for playback -/

theorem ResetCtrls_voice (v : Voice) (irq irq0 : VoiceIrq) :
    (ResetCtrls v irq).1 = (ResetCtrls v irq0).1 ∧
    (ResetCtrls v irq).1.vol_ctrl.state = 0x01 ∧ (ResetCtrls v irq).1.wave_ctrl.state = 0x01 ∧
    (ResetCtrls v irq).1.pan_position = 7 ∧ (ResetCtrls v irq).1.vol_ctrl.pos = 0 ∧
    (ResetCtrls v irq).1.wave_ctrl.pos = v.wave_ctrl.pos ∧
    (ResetCtrls v irq).1.irq_mask = v.irq_mask :=
  ⟨rfl, rfl, rfl, rfl, rfl, rfl, rfl⟩

theorem ResetVoices_voice (n : Nat) (s : (Nat → Voice) × VoiceIrq) (i : Nat) :
    (ResetVoices n s).1 i =
      if i < n then (ResetCtrls (s.1 i) ⟨0, 0, 0⟩).1 else s.1 i := by
  induction n with
  | zero => simp [ResetVoices]
  | succ n ih =>
    show Function.update (ResetVoices n s).1 n
      (ResetCtrls ((ResetVoices n s).1 n) (ResetVoices n s).2).1 i = _
    by_cases hi : i = n
    · subst hi
      rw [Function.update_same, ih, if_neg (lt_irrefl i), if_pos (Nat.lt_succ_self i)]
      exact (ResetCtrls_voice _ _ _).1
    · rw [Function.update_noteq hi, ih]
      by_cases hlt : i < n
      · rw [if_pos hlt, if_pos (by omega)]
      · rw [if_neg hlt, if_neg (by omega)]

theorem WriteGlobal_0x4c_prepare (g : Gus) (hst : (g.register_data >>> 8) &&& 7 = 1) :
    ∃ e, WriteGlobal_0x4c g =
      { PrepareForPlayback { g with irq_enabled := decide (g.register_data &&& 0x4 ≠ 0) } with
        effects := e } := by
  unfold WriteGlobal_0x4c
  rw [if_neg (by rw [hst]; decide), if_pos hst]
  exact CheckIrq_eq _

/-- C21: a runtime-control (`0x4C`) write whose state bits equal 1 returns
and leaves the wave and volume track of each of the 32 voices in state `0x01`
with no pending IRQ bit (both control bytes read back as `0x01`), every pan
position at 7, the shared voice IRQ state zero (`vol_state`, `wave_state` and
the cursor) and both timers at their defaults (value `0xFF`, expired, not
counting down, unmasked, not raising an IRQ, default delay); `active_voices`,
the sample RAM and the DMA registers are unchanged. -/
theorem prepare_write_resets_voices (fuel : Nat) (g : Gus)
    (hsel : g.selected_register = 0x4c) (hst : (g.register_data >>> 8) &&& 7 = 1) :
    ∃ g1, WriteToRegister fuel g = some g1 ∧
      (∀ i, i < 32 →
        (g1.voices i).wave_ctrl.state = 0x01 ∧ (g1.voices i).vol_ctrl.state = 0x01 ∧
        ReadWaveState (g1.voices i) g1.voice_irq = 0x01 ∧
        ReadVolState (g1.voices i) g1.voice_irq = 0x01 ∧
        (g1.voices i).pan_position = 7) ∧
      g1.voice_irq.vol_state = 0 ∧ g1.voice_irq.wave_state = 0 ∧ g1.voice_irq.status = 0 ∧
      (g1.timers_0.value = 0xff ∧ g1.timers_0.has_expired = true ∧
        g1.timers_0.is_counting_down = false ∧ g1.timers_0.is_masked = false ∧
        g1.timers_0.should_raise_irq = false ∧ g1.timers_0.delay = TIMER_1_DEFAULT_DELAY) ∧
      (g1.timers_1.value = 0xff ∧ g1.timers_1.has_expired = true ∧
        g1.timers_1.is_counting_down = false ∧ g1.timers_1.is_masked = false ∧
        g1.timers_1.should_raise_irq = false ∧ g1.timers_1.delay = TIMER_2_DEFAULT_DELAY) ∧
      g1.active_voices = g.active_voices ∧ g1.ram = g.ram ∧
      g1.dma_ctrl = g.dma_ctrl ∧ g1.dma_addr = g.dma_addr ∧ g1.dma1 = g.dma1 ∧
      g1.dma2 = g.dma2 ∧ g1.dma_channel = g.dma_channel := by
  obtain ⟨e, he⟩ := WriteGlobal_0x4c_prepare g hst
  refine ⟨WriteGlobal_0x4c g, WriteToRegister_runtime_case fuel g hsel, ?_⟩
  rw [he]
  refine ⟨?_, rfl, rfl, rfl, ⟨rfl, rfl, rfl, rfl, rfl, rfl⟩, ⟨rfl, rfl, rfl, rfl, rfl, rfl⟩,
    rfl, rfl, rfl, rfl, rfl, rfl, rfl⟩
  intro i hi
  have hv : ∀ irq : VoiceIrq,
      (ResetVoices MAX_VOICES (g.voices, irq)).1 i = (ResetCtrls (g.voices i) ⟨0, 0, 0⟩).1 := by
    intro irq
    rw [ResetVoices_voice, if_pos (by unfold MAX_VOICES; omega)]
  show ((ResetVoices MAX_VOICES (g.voices, g.voice_irq)).1 i).wave_ctrl.state = 0x01 ∧
    ((ResetVoices MAX_VOICES (g.voices, g.voice_irq)).1 i).vol_ctrl.state = 0x01 ∧
    ReadWaveState ((ResetVoices MAX_VOICES (g.voices, g.voice_irq)).1 i) ⟨0, 0, 0⟩ = 0x01 ∧
    ReadVolState ((ResetVoices MAX_VOICES (g.voices, g.voice_irq)).1 i) ⟨0, 0, 0⟩ = 0x01 ∧
    ((ResetVoices MAX_VOICES (g.voices, g.voice_irq)).1 i).pan_position = 7
  rw [hv]
  refine ⟨rfl, rfl, ?_, ?_, rfl⟩
  · unfold ReadWaveState ReadCtrlState
    rw [if_neg (by simp)]
    rfl
  · unfold ReadVolState ReadCtrlState
    rw [if_neg (by simp)]
    rfl

theorem prepare_write_resets_voices_witness :
    ∃ g1, WriteToRegister 0 { selectDevice 0x4c with register_data := 0x0100 } = some g1 ∧
      (g1.voices 31).wave_ctrl.state = 0x01 ∧ (g1.voices 31).pan_position = 7 := by
  obtain ⟨g1, h, hv, _⟩ := prepare_write_resets_voices 0
    { selectDevice 0x4c with register_data := 0x0100 } rfl (by decide)
  exact ⟨g1, h, (hv 31 (by decide)).1, (hv 31 (by decide)).2.2.2.2⟩

/-- C22, as stated, fails: after voice 0's current wave address has been set
to 512 through register `0x0B`, the prepare-for-playback write leaves that
wave position at 512; only the volume position is 0 (and both states
`0x01`). -/
theorem prepare_write_keeps_wave_position :
    ((Gus.init 0x240 3 5).bind (runWrites 66 (wavePositionThenPrepareWrites.take 3))).map
        (fun g => (g.voices 0).wave_ctrl.pos) = some 512 ∧
    ((Gus.init 0x240 3 5).bind (runWrites 66 wavePositionThenPrepareWrites)).map
        (fun g => ((g.voices 0).wave_ctrl.pos, (g.voices 0).vol_ctrl.pos,
          (g.voices 0).wave_ctrl.state, (g.voices 0).vol_ctrl.state)) =
      some (512, 0, 1, 1) := by
  decide

/-- C22 (amended): a prepare-for-playback runtime-control write (state bits
equal 1) returns and reinitialises every voice's volume position: afterwards
the volume position of each of the 32 voices is 0, whatever it was before,
while the wave position of each voice is left as it was. -/
theorem prepare_write_positions (fuel : Nat) (g : Gus)
    (hsel : g.selected_register = 0x4c) (hst : (g.register_data >>> 8) &&& 7 = 1) :
    ∃ g1, WriteToRegister fuel g = some g1 ∧
      ∀ i, i < 32 →
        (g1.voices i).vol_ctrl.pos = 0 ∧
        (g1.voices i).wave_ctrl.pos = (g.voices i).wave_ctrl.pos := by
  obtain ⟨e, he⟩ := WriteGlobal_0x4c_prepare g hst
  refine ⟨WriteGlobal_0x4c g, WriteToRegister_runtime_case fuel g hsel, ?_⟩
  rw [he]
  intro i hi
  show ((ResetVoices MAX_VOICES (g.voices, g.voice_irq)).1 i).vol_ctrl.pos = 0 ∧
    ((ResetVoices MAX_VOICES (g.voices, g.voice_irq)).1 i).wave_ctrl.pos =
      (g.voices i).wave_ctrl.pos
  rw [ResetVoices_voice, if_pos (by unfold MAX_VOICES; omega)]
  exact ⟨rfl, rfl⟩

theorem prepare_write_positions_witness :
    ∃ g1, WriteToRegister 0 { selectDevice 0x4c with register_data := 0x0100 } = some g1 ∧
      (g1.voices 5).vol_ctrl.pos = 0 := by
  obtain ⟨g1, h, hv⟩ := prepare_write_positions 0
    { selectDevice 0x4c with register_data := 0x0100 } rfl (by decide)
  exact ⟨g1, h, (hv 5 (by decide)).1⟩

/-- C23, as stated, fails: with runtime control selected, the write of
`0x0104` (prepare, bit `0x04` set) latches `irq_enabled = true`; the
following write of `0x0004` (stop, bit `0x04` set again) leaves
`irq_enabled = false`. -/
theorem stop_write_clears_irq_enable :
    (0x0004 &&& 0x04 ≠ 0 ∧ (0x0004 >>> 8) &&& 7 = 0) ∧
    ((Gus.init 0x240 3 5).bind (runWrites 66 (irqEnableThenStopWrites.take 2))).map
        (fun g => g.irq_enabled) = some true ∧
    ((Gus.init 0x240 3 5).bind (runWrites 66 irqEnableThenStopWrites)).map
        (fun g => g.irq_enabled) = some false := by
  decide

/-- C23 (amended): every runtime-control (`0x4C`) write returns; when its
state bits select prepare or run (state bits non-zero), `irq_enabled`
afterwards equals bit `0x04` of the written `register_data`; when they select
stop (state bits 0), `irq_enabled` is false afterwards whatever that bit
is. -/
theorem runtime_write_irq_enable (fuel : Nat) (g : Gus) (hsel : g.selected_register = 0x4c) :
    ∃ g1, WriteToRegister fuel g = some g1 ∧
      ((g.register_data >>> 8) &&& 7 ≠ 0 →
        g1.irq_enabled = decide (g.register_data &&& 0x4 ≠ 0)) ∧
      ((g.register_data >>> 8) &&& 7 = 0 → g1.irq_enabled = false) := by
  refine ⟨WriteGlobal_0x4c g, WriteToRegister_runtime_case fuel g hsel, ?_, ?_⟩
  · intro h0
    unfold WriteGlobal_0x4c
    rw [if_neg h0]
    obtain ⟨e, he⟩ := CheckIrq_eq
      (if (g.register_data >>> 8) &&& 7 = 1 then
        PrepareForPlayback { g with irq_enabled := decide (g.register_data &&& 0x4 ≠ 0) }
      else if g.active_voices ≠ 0 then
        BeginPlayback { g with irq_enabled := decide (g.register_data &&& 0x4 ≠ 0) }
      else { g with irq_enabled := decide (g.register_data &&& 0x4 ≠ 0) })
    rw [he]
    show (if (g.register_data >>> 8) &&& 7 = 1 then
        PrepareForPlayback { g with irq_enabled := decide (g.register_data &&& 0x4 ≠ 0) }
      else if g.active_voices ≠ 0 then
        BeginPlayback { g with irq_enabled := decide (g.register_data &&& 0x4 ≠ 0) }
      else { g with irq_enabled := decide (g.register_data &&& 0x4 ≠ 0) }).irq_enabled = _
    by_cases h1 : (g.register_data >>> 8) &&& 7 = 1
    · rw [if_pos h1]; rfl
    · rw [if_neg h1]
      by_cases h2 : g.active_voices ≠ 0
      · rw [if_pos h2]
        unfold BeginPlayback
        simp only []
        split_ifs <;> rfl
      · rw [if_neg h2]
  · intro h0
    unfold WriteGlobal_0x4c
    rw [if_pos h0]
    obtain ⟨e, he⟩ := CheckIrq_eq
      (StopPlayback { g with irq_enabled := decide (g.register_data &&& 0x4 ≠ 0) })
    rw [he]
    rfl

theorem runtime_write_irq_enable_witness :
    ∃ g1, WriteToRegister 0 { selectDevice 0x4c with register_data := 0x0104 } = some g1 ∧
      g1.irq_enabled = true := by
  obtain ⟨g1, h, h1, _⟩ := runtime_write_irq_enable 0
    { selectDevice 0x4c with register_data := 0x0104 } rfl
  exact ⟨g1, h, h1 (by decide)⟩


/-! ## DMA transfers -/

theorem and_c000 (d : Nat) (h : d < 65536) : d &&& 0xc000 = d / 16384 * 16384 := by
  have e : d &&& 0xc000 = (d >>> 14) <<< 14 := by
    apply Nat.eq_of_testBit_eq
    intro i
    rw [Nat.testBit_and, Nat.testBit_shiftLeft, Nat.testBit_shiftRight]
    by_cases hi : 14 ≤ i
    · by_cases h16 : 16 ≤ i
      · have hd : d.testBit i = false := testBit_false_of_lt_two_pow d 16 i (by omega) h16
        simp [hd, hi, Nat.add_sub_cancel' hi]
      · have h2 : i = 14 ∨ i = 15 := by omega
        rcases h2 with rfl | rfl
        · simp [show Nat.testBit 49152 14 = true from rfl]
        · simp [show Nat.testBit 49152 15 = true from rfl]
    · have hc : (0xc000 : Nat).testBit i = false := by
        have hlt : i < 14 := by omega
        interval_cases i <;> rfl
      simp [hc, hi]
  rw [e, Nat.shiftLeft_eq, Nat.shiftRight_eq_div_pow]

theorem dma16_combined (d : Nat) (h : d < 65536) :
    ((d &&& 0x1fff) <<< 1) ||| (d &&& 0xc000) = d / 16384 * 16384 + 2 * (d % 8192) := by
  have h1 : d &&& 0x1fff = d % 8192 := Nat.and_pow_two_sub_one_eq_mod d 13
  have h2 : 2 * (d % 8192) < 2 ^ 14 := by omega
  have h3 := Nat.mul_add_lt_is_or h2 (d / 16384)
  rw [h1, and_c000 d h, Nat.shiftLeft_eq, Nat.or_comm]
  rw [show d / 16384 * 16384 = 2 ^ 14 * (d / 16384) by omega,
    show d % 8192 * 2 ^ 1 = 2 * (d % 8192) by omega]
  exact h3.symm

theorem Dma8Addr_eq (g : Gus) (h : g.dma_addr < 65536) : Dma8Addr g = g.dma_addr * 16 := by
  unfold Dma8Addr
  rw [Nat.shiftLeft_eq]
  omega

theorem Dma16Addr_eq (g : Gus) (h : g.dma_addr < 65536) :
    Dma16Addr g = (g.dma_addr / 16384 * 16384 + 2 * (g.dma_addr % 8192)) * 16 := by
  unfold Dma16Addr
  rw [dma16_combined g.dma_addr h, Nat.shiftLeft_eq]
  omega

theorem dma_addr_lt (g : Gus) (h : g.dma_addr < 65536) :
    (if IsDmaXfer16Bit g then Dma16Addr g else Dma8Addr g) < 2 ^ 20 := by
  split_ifs
  · rw [Dma16Addr_eq g h]; omega
  · rw [Dma8Addr_eq g h]; omega

/-- C25: a DMA transfer targets RAM offset
`(((dma_addr & 0x1FFF) << 1) | (dma_addr & 0xC000)) << 4` when bit `0x04` of
`dma_ctrl` is set and the playback channel `dma1` is at least 4, and offset
`dma_addr << 4` otherwise; for every 16-bit `dma_addr` both offsets are below
`2^20`, and they differ exactly when `dma_addr & 0x3FFF` is non-zero. -/
theorem dma_transfer_address (g : Gus) (hda : g.dma_addr < 65536) :
    (if IsDmaXfer16Bit g then Dma16Addr g else Dma8Addr g) =
      (if g.dma_ctrl &&& 0x04 ≠ 0 ∧ 4 ≤ g.dma1
       then (((g.dma_addr &&& 0x1FFF) <<< 1) ||| (g.dma_addr &&& 0xC000)) <<< 4
       else g.dma_addr <<< 4) ∧
    Dma8Addr g < 2 ^ 20 ∧ Dma16Addr g < 2 ^ 20 ∧
    (Dma8Addr g ≠ Dma16Addr g ↔ g.dma_addr &&& 0x3FFF ≠ 0) := by
  have h8 := Dma8Addr_eq g hda
  have h16 := Dma16Addr_eq g hda
  have hm : g.dma_addr &&& 0x3FFF = g.dma_addr % 16384 :=
    Nat.and_pow_two_sub_one_eq_mod g.dma_addr 14
  refine ⟨?_, by omega, by omega, ?_⟩
  · have e8 : g.dma_addr <<< 4 = Dma8Addr g := by rw [h8, Nat.shiftLeft_eq]
    have e16 : (((g.dma_addr &&& 0x1FFF) <<< 1) ||| (g.dma_addr &&& 0xC000)) <<< 4 =
        Dma16Addr g := by
      rw [h16, dma16_combined g.dma_addr hda, Nat.shiftLeft_eq]
    rw [e8, e16]
    by_cases hx : g.dma_ctrl &&& 0x04 ≠ 0 ∧ 4 ≤ g.dma1
    · have hb : IsDmaXfer16Bit g = true := by
        unfold IsDmaXfer16Bit
        simp [hx.1, hx.2]
      rw [if_pos hx, hb]; rfl
    · have hb : IsDmaXfer16Bit g = false := by
        unfold IsDmaXfer16Bit
        by_cases h4 : g.dma_ctrl &&& 0x04 = 0
        · simp [h4]
        · have : ¬ 4 ≤ g.dma1 := fun h => hx ⟨h4, h⟩
          simp [this]
      rw [if_neg hx, hb]; rfl
  · rw [h8, h16, hm]; omega

theorem dma_transfer_address_witness :
    Dma8Addr (dmaDevice 0x04) ≠ Dma16Addr (dmaDevice 0x04) ↔
      (dmaDevice 0x04).dma_addr &&& 0x3FFF ≠ 0 :=
  (dma_transfer_address (dmaDevice 0x04) (by decide)).2.2.2


/-- With a channel attached, `PerformDmaTransfer` is its body on that
channel's object. -/
theorem PerformDmaTransfer_attached (fuel : Nat) (host : Nat → DmaChannel) (g : Gus) (c : Nat)
    (hc : g.dma_channel = some c) :
    PerformDmaTransfer fuel host g =
      if (host c).masked = true ∨ g.dma_ctrl &&& 0x01 = 0 then some (false, g)
      else
        (DmaCopy fuel (host c) g (if IsDmaXfer16Bit g then Dma16Addr g else Dma8Addr g)
          (((host c).currcnt + 1) % 65536)).map RaiseTcIrq := by
  unfold PerformDmaTransfer
  rw [hc]

/-- Without a channel attached the first dereference of `dma_channel` is of a
null pointer: neither `PerformDmaTransfer` nor `GUS_DMA_Event` returns. -/
theorem PerformDmaTransfer_null_channel (fuel : Nat) (host : Nat → DmaChannel) (g : Gus)
    (hc : g.dma_channel = none) :
    PerformDmaTransfer fuel host g = none ∧ GUS_DMA_Event fuel host g = none := by
  have hp : PerformDmaTransfer fuel host g = none := by
    unfold PerformDmaTransfer
    rw [hc]
  refine ⟨hp, ?_⟩
  unfold GUS_DMA_Event
  rw [hp]
  rfl

/-- A transfer that is not performed, on a device with a channel attached:
with the channel masked or bit `0x01` of `dma_ctrl` clear,
`PerformDmaTransfer` returns false with the device exactly as it was and
`GUS_DMA_Event` adds no event. -/
theorem PerformDmaTransfer_not_performed (fuel : Nat) (host : Nat → DmaChannel) (g : Gus)
    (c : Nat) (hc : g.dma_channel = some c)
    (h : (host c).masked = true ∨ g.dma_ctrl &&& 0x01 = 0) :
    PerformDmaTransfer fuel host g = some (false, g) ∧ GUS_DMA_Event fuel host g = some g := by
  have hp : PerformDmaTransfer fuel host g = some (false, g) := by
    rw [PerformDmaTransfer_attached fuel host g c hc, if_pos h]
  refine ⟨hp, ?_⟩
  unfold GUS_DMA_Event
  rw [hp]
  rfl

/-- C24: the claim says that with DMA not enabled (bit `0x01` of `dma_ctrl`
clear) `PerformDmaTransfer` returns false and changes nothing. On the device
constructed with DMA 0 it does not return: construction leaves `dma_channel`
null (`UpdateDmaAddress(0)` returns at `new_address == dma1`), the write
`0x49 := 0x01` calls `StartDmaTransfers`, which schedules `GUS_DMA_Event`, and
`dma_ctrl` is still 0; the event's `PerformDmaTransfer` dereferences the null
`dma_channel` before it tests `dma_ctrl`, whatever the host channels are. -/
theorem dma_event_without_channel (fuel : Nat) (host : Nat → DmaChannel) :
    ((Gus.init 0x240 0 5).bind (runWrites 66 samplingStartWrites)).map
        (fun g => (g.dma_channel, g.dma1, g.dma_ctrl &&& 0x01, g.effects)) =
      some (none, 0, 0, [Effect.PIC_AddEvent_GUS_DMA_Event]) ∧
    ((Gus.init 0x240 0 5).bind (runWrites 66 samplingStartWrites)).bind
        (fun g => PerformDmaTransfer fuel host g) = none ∧
    ((Gus.init 0x240 0 5).bind (runWrites 66 samplingStartWrites)).bind
        (fun g => GUS_DMA_Event fuel host g) = none := by
  have hf : ((Gus.init 0x240 0 5).bind (runWrites 66 samplingStartWrites)).map
      (fun g => (g.dma_channel, g.dma1, g.dma_ctrl &&& 0x01, g.effects)) =
      some (none, 0, 0, [Effect.PIC_AddEvent_GUS_DMA_Event]) := by
    decide
  refine ⟨hf, ?_⟩
  cases hg : (Gus.init 0x240 0 5).bind (runWrites 66 samplingStartWrites) with
  | none => exact ⟨rfl, rfl⟩
  | some g =>
    rw [hg] at hf
    simp only [Option.map_some', Option.some.injEq, Prod.mk.injEq] at hf
    exact PerformDmaTransfer_null_channel fuel host g hf.1


theorem UpdatePeakAmplitudesLoop_ge (stream : Nat → ℚ) (peak : AudioFrame) (n : Nat) :
    (peak.left ≤ (UpdatePeakAmplitudesLoop stream n peak).left ∧
      peak.right ≤ (UpdatePeakAmplitudesLoop stream n peak).right) ∧
    ∀ k, k < n →
      |stream (2 * k)| ≤ (UpdatePeakAmplitudesLoop stream n peak).left ∧
      |stream (2 * k + 1)| ≤ (UpdatePeakAmplitudesLoop stream n peak).right := by
  induction n with
  | zero => exact ⟨⟨le_refl _, le_refl _⟩, fun k hk => absurd hk (Nat.not_lt_zero k)⟩
  | succ n ih =>
    obtain ⟨⟨h1, h2⟩, h3⟩ := ih
    refine ⟨⟨le_trans h1 (le_max_left _ _), le_trans h2 (le_max_left _ _)⟩, ?_⟩
    intro k hk
    by_cases hkn : k = n
    · subst hkn
      exact ⟨le_max_right _ _, le_max_right _ _⟩
    · obtain ⟨h4, h5⟩ := h3 k (by omega)
      exact ⟨le_trans h4 (le_max_left _ _), le_trans h5 (le_max_left _ _)⟩

theorem UpdatePeakAmplitudesLoop_le (stream : Nat → ℚ) (peak : AudioFrame) (m : ℚ)
    (hp : peak.left ≤ m ∧ peak.right ≤ m) (hs : ∀ i, |stream i| ≤ m) (n : Nat) :
    (UpdatePeakAmplitudesLoop stream n peak).left ≤ m ∧
    (UpdatePeakAmplitudesLoop stream n peak).right ≤ m := by
  induction n with
  | zero => exact hp
  | succ n ih => exact ⟨max_le ih.1 (hs _), max_le ih.2 (hs _)⟩

/-- Every sample of the buffer is bounded by the updated peak of its
channel. -/
theorem sample_le_peak (peak : AudioFrame) (inp : Nat → ℚ) (i : Nat) (hi : i < BUFFER_SAMPLES) :
    |inp i| ≤ (if i % 2 = 0 then (UpdatePeakAmplitudes peak inp).left
      else (UpdatePeakAmplitudes peak inp).right) := by
  have hi2 : i < 96 := hi
  have h := (UpdatePeakAmplitudesLoop_ge inp peak BUFFER_FRAMES).2 (i / 2)
    (by unfold BUFFER_FRAMES; omega)
  by_cases he : i % 2 = 0
  · rw [if_pos he]
    have e : 2 * (i / 2) = i := by omega
    rw [e] at h
    exact h.1
  · rw [if_neg he]
    have e : 2 * (i / 2) + 1 = i := by omega
    rw [e] at h
    exact h.2

theorem NarrowLoop_apply (inp : Nat → ℚ) (out : Nat → Int) (n i : Nat) (hi : i < 2 * n) :
    NarrowLoop inp n out i = floatToInt16 (inp i) := by
  induction n with
  | zero => omega
  | succ n ih =>
    show Function.update (Function.update (NarrowLoop inp n out) (2 * n) _) (2 * n + 1) _ i = _
    by_cases h1 : i = 2 * n + 1
    · rw [h1, Function.update_same]
    · rw [Function.update_noteq h1]
      by_cases h0 : i = 2 * n
      · rw [h0, Function.update_same]
      · rw [Function.update_noteq h0]
        exact ih (by omega)

theorem ScaleLoop_apply (inp : Nat → ℚ) (l r : ℚ) (out : Nat → Int) (n i : Nat)
    (hi : i < 2 * n) :
    ScaleLoop inp l r n out i = floatToInt16 (inp i * (if i % 2 = 0 then l else r)) := by
  induction n with
  | zero => omega
  | succ n ih =>
    show Function.update (Function.update (ScaleLoop inp l r n out) (2 * n) _) (2 * n + 1) _ i = _
    by_cases h1 : i = 2 * n + 1
    · rw [h1, Function.update_same, if_neg (by omega)]
    · rw [Function.update_noteq h1]
      by_cases h0 : i = 2 * n
      · rw [h0, Function.update_same, if_pos (by omega)]
      · rw [Function.update_noteq h0]
        exact ih (by omega)

theorem floatToInt16_abs_le (x : ℚ) (h : |x| ≤ 32767) : |floatToInt16 x| ≤ 32767 := by
  obtain ⟨h1, h2⟩ := abs_le.1 h
  unfold floatToInt16
  rw [abs_le]
  split_ifs with h0
  · constructor
    · have : (0 : Int) ≤ ⌊x⌋ := Int.floor_nonneg.2 h0
      omega
    · have h3 : ((⌊x⌋ : Int) : ℚ) ≤ 32767 := le_trans (Int.floor_le x) h2
      exact_mod_cast h3
  · constructor
    · have h3 : ((-32767 : Int) : ℚ) ≤ ((⌈x⌉ : Int) : ℚ) := by
        push_cast
        exact le_trans h1 (Int.le_ceil x)
      exact_mod_cast h3
    · have : ⌈x⌉ ≤ (0 : Int) := Int.ceil_le.2 (by push_cast; exact le_of_lt (not_le.1 h0))
      omega

theorem scaled_sample_le (x p : ℚ) (hp : 1 ≤ p) (hx : |x| ≤ p) :
    |x * min ONE_AMP (AUDIO_SAMPLE_MAX / p)| ≤ 32767 := by
  unfold ONE_AMP AUDIO_SAMPLE_MAX
  have hp0 : (0 : ℚ) < p := lt_of_lt_of_le one_pos hp
  have hs0 : (0 : ℚ) < min 1 (32767 / p) := lt_min one_pos (div_pos (by norm_num) hp0)
  rw [abs_mul, abs_of_pos hs0]
  calc |x| * min 1 (32767 / p) ≤ p * min 1 (32767 / p) :=
        mul_le_mul_of_nonneg_right hx hs0.le
    _ ≤ p * (32767 / p) := mul_le_mul_of_nonneg_left (min_le_right _ _) hp0.le
    _ = 32767 := by field_simp

theorem unit_scalar (p : ℚ) (hp : 1 ≤ p) (hle : p ≤ AUDIO_SAMPLE_MAX) :
    min ONE_AMP (AUDIO_SAMPLE_MAX / p) = 1 := by
  unfold ONE_AMP
  have hp0 : (0 : ℚ) < p := lt_of_lt_of_le one_pos hp
  exact min_eq_left ((one_le_div hp0).2 hle)

theorem release_keeps_peak (p : ℚ) (h : AUDIO_SAMPLE_MAX < p) :
    1 ≤ p - SOFT_LIMIT_RELEASE_INC := by
  unfold SOFT_LIMIT_RELEASE_INC DELTA_DB
  unfold AUDIO_SAMPLE_MAX at *
  have e : (32767 : ℚ) * (2709201 / 1000000000) ≤ 32766 := by norm_num
  linarith

theorem PeakReachable_ge_one (peak : AudioFrame) (h : PeakReachable peak) :
    1 ≤ peak.left ∧ 1 ≤ peak.right := by
  induction h with
  | init => exact ⟨le_refl _, le_refl _⟩
  | step peak inp out _ ih =>
    have hu := (UpdatePeakAmplitudesLoop_ge inp peak BUFFER_FRAMES).1
    have hl : 1 ≤ (UpdatePeakAmplitudes peak inp).left := le_trans ih.1 hu.1
    have hr : 1 ≤ (UpdatePeakAmplitudes peak inp).right := le_trans ih.2 hu.2
    unfold SoftLimit
    split_ifs with h1 h2 h3 h3
    · exact ⟨hl, hr⟩
    · exact ⟨release_keeps_peak _ h2, release_keeps_peak _ h3⟩
    · exact ⟨release_keeps_peak _ h2, hr⟩
    · exact ⟨hl, release_keeps_peak _ h3⟩
    · exact ⟨hl, hr⟩

/-- C28: in exact arithmetic, from every peak state the limiter can hold,
whenever after the peak update both channel peaks are at most full scale
(32767, the case of a peak equal to full scale included), the output of
`SoftLimit` is the straight narrowing of its input (every output sample is
the input sample truncated to an integer, no scaling applied) and neither
peak is decayed: the peaks are left as the update made them. -/
theorem SoftLimit_under_full_scale (peak : AudioFrame) (inp : Nat → ℚ) (out : Nat → Int)
    (hreach : PeakReachable peak)
    (hl : (UpdatePeakAmplitudes peak inp).left ≤ AUDIO_SAMPLE_MAX)
    (hr : (UpdatePeakAmplitudes peak inp).right ≤ AUDIO_SAMPLE_MAX) :
    (∀ i, i < BUFFER_SAMPLES → (SoftLimit peak inp out).1 i = floatToInt16 (inp i)) ∧
    (SoftLimit peak inp out).2 = UpdatePeakAmplitudes peak inp := by
  have h1 := PeakReachable_ge_one peak hreach
  have hu := (UpdatePeakAmplitudesLoop_ge inp peak BUFFER_FRAMES).1
  have hl1 : 1 ≤ (UpdatePeakAmplitudes peak inp).left := le_trans h1.1 hu.1
  have hr1 : 1 ≤ (UpdatePeakAmplitudes peak inp).right := le_trans h1.2 hu.2
  unfold SoftLimit
  by_cases hb : (UpdatePeakAmplitudes peak inp).left < AUDIO_SAMPLE_MAX ∧
      (UpdatePeakAmplitudes peak inp).right < AUDIO_SAMPLE_MAX
  · rw [if_pos hb]
    exact ⟨fun i hi => NarrowLoop_apply inp out BUFFER_FRAMES i hi, rfl⟩
  · rw [if_neg hb, unit_scalar _ hl1 hl, unit_scalar _ hr1 hr, if_neg (not_lt.2 hl),
      if_neg (not_lt.2 hr)]
    refine ⟨fun i hi => ?_, rfl⟩
    show ScaleLoop inp 1 1 BUFFER_FRAMES out i = _
    rw [ScaleLoop_apply inp 1 1 out BUFFER_FRAMES i hi, ite_self, mul_one]

theorem SoftLimit_under_full_scale_witness :
    (SoftLimit ⟨ONE_AMP, ONE_AMP⟩ (fun _ => 32767) (fun _ => 0)).2 =
      UpdatePeakAmplitudes ⟨ONE_AMP, ONE_AMP⟩ (fun _ => 32767) :=
  (SoftLimit_under_full_scale ⟨ONE_AMP, ONE_AMP⟩ (fun _ => 32767) (fun _ => 0)
    PeakReachable.init
    (UpdatePeakAmplitudesLoop_le _ _ AUDIO_SAMPLE_MAX
      ⟨by norm_num [ONE_AMP, AUDIO_SAMPLE_MAX], by norm_num [ONE_AMP, AUDIO_SAMPLE_MAX]⟩
      (fun _ => by norm_num [AUDIO_SAMPLE_MAX]) BUFFER_FRAMES).1
    (UpdatePeakAmplitudesLoop_le _ _ AUDIO_SAMPLE_MAX
      ⟨by norm_num [ONE_AMP, AUDIO_SAMPLE_MAX], by norm_num [ONE_AMP, AUDIO_SAMPLE_MAX]⟩
      (fun _ => by norm_num [AUDIO_SAMPLE_MAX]) BUFFER_FRAMES).2).2

/-- C29: in exact arithmetic, for every input buffer and every peak state
reachable from the initial peaks `(1.0, 1.0)`: both peaks are at least 1
before and after the call (so `AUDIO_SAMPLE_MAX / peak` is a division by a
positive number), every output sample of `SoftLimit` has magnitude at most
32767, and a channel whose updated peak exceeds full scale has that peak
lowered by exactly `SOFT_LIMIT_RELEASE_INC` in that call. -/
theorem SoftLimit_bounded (peak : AudioFrame) (inp : Nat → ℚ) (out : Nat → Int)
    (hreach : PeakReachable peak) :
    (1 ≤ peak.left ∧ 1 ≤ peak.right) ∧
    (1 ≤ (UpdatePeakAmplitudes peak inp).left ∧ 1 ≤ (UpdatePeakAmplitudes peak inp).right) ∧
    (1 ≤ (SoftLimit peak inp out).2.left ∧ 1 ≤ (SoftLimit peak inp out).2.right) ∧
    (∀ i, i < BUFFER_SAMPLES → |(SoftLimit peak inp out).1 i| ≤ 32767) ∧
    (AUDIO_SAMPLE_MAX < (UpdatePeakAmplitudes peak inp).left →
      (SoftLimit peak inp out).2.left =
        (UpdatePeakAmplitudes peak inp).left - SOFT_LIMIT_RELEASE_INC) ∧
    (AUDIO_SAMPLE_MAX < (UpdatePeakAmplitudes peak inp).right →
      (SoftLimit peak inp out).2.right =
        (UpdatePeakAmplitudes peak inp).right - SOFT_LIMIT_RELEASE_INC) := by
  have h1 := PeakReachable_ge_one peak hreach
  have hu := (UpdatePeakAmplitudesLoop_ge inp peak BUFFER_FRAMES).1
  have hl1 : 1 ≤ (UpdatePeakAmplitudes peak inp).left := le_trans h1.1 hu.1
  have hr1 : 1 ≤ (UpdatePeakAmplitudes peak inp).right := le_trans h1.2 hu.2
  refine ⟨h1, ⟨hl1, hr1⟩,
    PeakReachable_ge_one _ (PeakReachable.step peak inp out hreach), ?_, ?_, ?_⟩
  · intro i hi
    have hs := sample_le_peak peak inp i hi
    unfold SoftLimit
    by_cases hb : (UpdatePeakAmplitudes peak inp).left < AUDIO_SAMPLE_MAX ∧
        (UpdatePeakAmplitudes peak inp).right < AUDIO_SAMPLE_MAX
    · rw [if_pos hb]
      show |NarrowLoop inp BUFFER_FRAMES out i| ≤ 32767
      rw [NarrowLoop_apply inp out BUFFER_FRAMES i hi]
      apply floatToInt16_abs_le
      have hb1 : (UpdatePeakAmplitudes peak inp).left < 32767 := hb.1
      have hb2 : (UpdatePeakAmplitudes peak inp).right < 32767 := hb.2
      split_ifs at hs <;> linarith
    · rw [if_neg hb]
      show |ScaleLoop inp _ _ BUFFER_FRAMES out i| ≤ 32767
      rw [ScaleLoop_apply inp _ _ out BUFFER_FRAMES i hi]
      apply floatToInt16_abs_le
      by_cases he : i % 2 = 0
      · rw [if_pos he] at hs
        rw [if_pos he]
        exact scaled_sample_le _ _ hl1 hs
      · rw [if_neg he] at hs
        rw [if_neg he]
        exact scaled_sample_le _ _ hr1 hs
  · intro h
    unfold SoftLimit
    rw [if_neg (fun hb => absurd hb.1 (not_lt.2 h.le))]
    show (if (UpdatePeakAmplitudes peak inp).left > AUDIO_SAMPLE_MAX then _ else _) = _
    rw [if_pos h]
  · intro h
    unfold SoftLimit
    rw [if_neg (fun hb => absurd hb.2 (not_lt.2 h.le))]
    show (if (UpdatePeakAmplitudes peak inp).right > AUDIO_SAMPLE_MAX then _ else _) = _
    rw [if_pos h]

theorem SoftLimit_bounded_witness :
    |(SoftLimit ⟨ONE_AMP, ONE_AMP⟩ (fun _ => 40000) (fun _ => 0)).1 5| ≤ 32767 :=
  (SoftLimit_bounded ⟨ONE_AMP, ONE_AMP⟩ (fun _ => 40000) (fun _ => 0)
    PeakReachable.init).2.2.2.1 5 (by decide)


/-! ## Pan scalars -/

theorem pan_angle_range (i : Nat) (hi : i < 16) :
    0 ≤ ((((i : ℝ) - 7) / (if i < 7 then 7 else 8) + 1) * Real.pi / 4) ∧
    ((((i : ℝ) - 7) / (if i < 7 then 7 else 8) + 1) * Real.pi / 4) ≤ Real.pi / 2 := by
  have hpi := Real.pi_pos
  by_cases h7 : i < 7
  · rw [if_pos h7]
    have h0 : (0 : ℝ) ≤ (i : ℝ) := Nat.cast_nonneg i
    have h1 : (i : ℝ) ≤ 6 := by exact_mod_cast Nat.lt_succ_iff.1 h7
    constructor
    · apply div_nonneg _ (by norm_num)
      apply mul_nonneg _ hpi.le
      have : (-1 : ℝ) ≤ ((i : ℝ) - 7) / 7 := by rw [le_div_iff₀ (by norm_num)]; linarith
      linarith
    · have : ((i : ℝ) - 7) / 7 ≤ 0 := div_nonpos_of_nonpos_of_nonneg (by linarith) (by norm_num)
      nlinarith
  · rw [if_neg h7]
    have h0 : (7 : ℝ) ≤ (i : ℝ) := by exact_mod_cast not_lt.1 h7
    have h1 : (i : ℝ) ≤ 15 := by exact_mod_cast Nat.lt_succ_iff.1 hi
    have h2 : (0 : ℝ) ≤ ((i : ℝ) - 7) / 8 := div_nonneg (by linarith) (by norm_num)
    have h3 : ((i : ℝ) - 7) / 8 ≤ 1 := by rw [div_le_iff₀ (by norm_num)]; linarith
    constructor
    · apply div_nonneg _ (by norm_num)
      apply mul_nonneg _ hpi.le
      linarith
    · nlinarith

/-- C30: over the reals (`cos`, `sin` and `pi` the real ones), for each of the
16 pan positions `i` the pan scalars `(left, right)` of `PopulatePanScalars`
satisfy `left^2 + right^2 = 1` and both lie in `[0, 1]`; position 0 gives
`(1, 0)`, position 15 gives `(0, 1)` and position 7 gives `left = right`. -/
theorem pan_scalars_constant_power (i : Nat) (hi : i < 16) :
    ((PopulatePanScalars Real.cos Real.sin Real.pi i).1 ^ 2 +
      (PopulatePanScalars Real.cos Real.sin Real.pi i).2 ^ 2 = 1 ∧
     0 ≤ (PopulatePanScalars Real.cos Real.sin Real.pi i).1 ∧
     (PopulatePanScalars Real.cos Real.sin Real.pi i).1 ≤ 1 ∧
     0 ≤ (PopulatePanScalars Real.cos Real.sin Real.pi i).2 ∧
     (PopulatePanScalars Real.cos Real.sin Real.pi i).2 ≤ 1) ∧
    PopulatePanScalars Real.cos Real.sin Real.pi 0 = (1, 0) ∧
    PopulatePanScalars Real.cos Real.sin Real.pi 15 = (0, 1) ∧
    (PopulatePanScalars Real.cos Real.sin Real.pi 7).1 =
      (PopulatePanScalars Real.cos Real.sin Real.pi 7).2 := by
  obtain ⟨ha0, ha1⟩ := pan_angle_range i hi
  have hpi := Real.pi_pos
  refine ⟨⟨?_, ?_, ?_, ?_, ?_⟩, ?_, ?_, ?_⟩
  · exact Real.cos_sq_add_sin_sq _
  · exact Real.cos_nonneg_of_mem_Icc ⟨by linarith, ha1⟩
  · exact Real.cos_le_one _
  · exact Real.sin_nonneg_of_nonneg_of_le_pi ha0 (by linarith)
  · exact Real.sin_le_one _
  · have e : ((((0 : Nat) : ℝ) - 7) / (if (0 : Nat) < 7 then 7 else 8) + 1) * Real.pi / 4 = 0 := by
      norm_num
    show (Real.cos _, Real.sin _) = _
    rw [e, Real.cos_zero, Real.sin_zero]
  · have e : ((((15 : Nat) : ℝ) - 7) / (if (15 : Nat) < 7 then 7 else 8) + 1) * Real.pi / 4 =
        Real.pi / 2 := by
      norm_num
      ring
    show (Real.cos _, Real.sin _) = _
    rw [e, Real.cos_pi_div_two, Real.sin_pi_div_two]
  · have e : ((((7 : Nat) : ℝ) - 7) / (if (7 : Nat) < 7 then 7 else 8) + 1) * Real.pi / 4 =
        Real.pi / 4 := by
      norm_num
    show Real.cos _ = Real.sin _
    rw [e, Real.cos_pi_div_four, Real.sin_pi_div_four]

theorem pan_scalars_constant_power_witness :
    (PopulatePanScalars Real.cos Real.sin Real.pi 3).1 ^ 2 +
      (PopulatePanScalars Real.cos Real.sin Real.pi 3).2 ^ 2 = 1 :=
  (pan_scalars_constant_power 3 (by decide)).1.1


/-! ## Timers, DRAM access and register round trips -/

/-- Masking with a shifted mask is masking the shifted value. -/
theorem and_shiftLeft_mask (a m k : Nat) : a &&& (m <<< k) = ((a >>> k) &&& m) <<< k := by
  apply Nat.eq_of_testBit_eq
  intro i
  rw [Nat.testBit_and, Nat.testBit_shiftLeft, Nat.testBit_shiftLeft, Nat.testBit_and,
    Nat.testBit_shiftRight]
  by_cases hi : k ≤ i
  · rw [Nat.add_sub_cancel' hi]
    simp [hi]
  · simp [hi]

theorem and_high_mask (a m k : Nat) (hm : m = 2 ^ k - 1) (n : Nat) :
    a &&& (m <<< n) = 2 ^ n * (a / 2 ^ n % 2 ^ k) := by
  rw [and_shiftLeft_mask, hm, Nat.and_pow_two_sub_one_eq_mod, Nat.shiftRight_eq_div_pow,
    Nat.shiftLeft_eq, Nat.mul_comm]

/-- C33: for `t` in `{0, 1}`, `CheckTimer(t)` returns `timers[t].is_counting_down`;
it sets `timers[t].has_expired` unless `timers[t].is_masked` (then the flag
keeps its value) and changes no other member of that timer; it or-s bit
`0x04 << t` into `irq_status` if `timers[t].should_raise_irq` and leaves
`irq_status` as it was otherwise; the other timer is unchanged. -/
theorem CheckTimer_expiry (g : Gus) (t : Nat) (ht : t = 0 ∨ t = 1) :
    ∃ g1, CheckTimer g t = some ((g.timers t).is_counting_down, g1) ∧
      (g1.timers t).has_expired =
        (if (g.timers t).is_masked then (g.timers t).has_expired else true) ∧
      (g1.timers t).is_masked = (g.timers t).is_masked ∧
      (g1.timers t).is_counting_down = (g.timers t).is_counting_down ∧
      (g1.timers t).should_raise_irq = (g.timers t).should_raise_irq ∧
      (g1.timers t).value = (g.timers t).value ∧ (g1.timers t).delay = (g.timers t).delay ∧
      ((g.timers t).should_raise_irq = true → g1.irq_status = g.irq_status ||| (0x04 <<< t)) ∧
      ((g.timers t).should_raise_irq = false → g1.irq_status = g.irq_status) ∧
      g1.timers (1 - t) = g.timers (1 - t) := by
  have key : ∀ (g0 : Gus) (raise : Bool) (n : Nat),
      ∃ e, raiseTimerIrq g0 raise n =
        { g0 with
          irq_status := if raise then g0.irq_status ||| (0x4 <<< n) else g0.irq_status,
          effects := e } := by
    intro g0 raise n
    unfold raiseTimerIrq
    cases raise
    · exact ⟨g0.effects, rfl⟩
    · exact CheckIrq_eq _
  have hexp : ∀ tm : Timer,
      (expireTimer tm).has_expired = (if tm.is_masked then tm.has_expired else true) ∧
      (expireTimer tm).is_masked = tm.is_masked ∧
      (expireTimer tm).is_counting_down = tm.is_counting_down ∧
      (expireTimer tm).should_raise_irq = tm.should_raise_irq ∧
      (expireTimer tm).value = tm.value ∧ (expireTimer tm).delay = tm.delay := by
    intro tm
    unfold expireTimer
    cases hm : tm.is_masked <;> simp [hm]
  rcases ht with rfl | rfl
  · obtain ⟨e, he⟩ := key { g with timers_0 := expireTimer g.timers_0 }
      g.timers_0.should_raise_irq 0
    obtain ⟨a1, a2, a3, a4, a5, a6⟩ := hexp g.timers_0
    refine ⟨_, rfl, ?_⟩
    rw [he]
    refine ⟨a1, a2, a3, a4, a5, a6, ?_, ?_, rfl⟩
    · intro h
      show (if g.timers_0.should_raise_irq then _ else _) = _
      rw [show g.timers_0.should_raise_irq = true from h]
      rfl
    · intro h
      show (if g.timers_0.should_raise_irq then _ else _) = _
      rw [show g.timers_0.should_raise_irq = false from h]
      rfl
  · obtain ⟨e, he⟩ := key { g with timers_1 := expireTimer g.timers_1 }
      g.timers_1.should_raise_irq 1
    obtain ⟨a1, a2, a3, a4, a5, a6⟩ := hexp g.timers_1
    refine ⟨_, rfl, ?_⟩
    rw [he]
    refine ⟨a1, a2, a3, a4, a5, a6, ?_, ?_, rfl⟩
    · intro h
      show (if g.timers_1.should_raise_irq then _ else _) = _
      rw [show g.timers_1.should_raise_irq = true from h]
      rfl
    · intro h
      show (if g.timers_1.should_raise_irq then _ else _) = _
      rw [show g.timers_1.should_raise_irq = false from h]
      rfl

theorem CheckTimer_expiry_witness :
    ∃ g1, CheckTimer bootDevice 1 = some (false, g1) ∧ (g1.timers 1).has_expired = true ∧
      g1.irq_status = 0 := by
  obtain ⟨g1, h, h1, _, _, _, _, _, _, h8, _⟩ := CheckTimer_expiry bootDevice 1 (Or.inr rfl)
  exact ⟨g1, h, h1, h8 rfl⟩


theorem WriteToRegister_0x43_case (fuel : Nat) (g : Gus) (h : g.selected_register = 0x43) :
    WriteToRegister fuel g = some (WriteGlobal_0x43 g) := by
  unfold WriteToRegister
  simp only [h]
  rfl

theorem WriteToRegister_0x44_case (fuel : Nat) (g : Gus) (h : g.selected_register = 0x44) :
    WriteToRegister fuel g = some (WriteGlobal_0x44 g) := by
  unfold WriteToRegister
  simp only [h]
  rfl

theorem dram_low_word (a r : Nat) (hr : r < 65536) :
    ((0xff0000 &&& a) ||| r) % 65536 = r ∧ ((0xff0000 &&& a) ||| r) / 65536 = a / 65536 % 256 := by
  have e : 0xff0000 &&& a = 2 ^ 16 * (a / 2 ^ 16 % 2 ^ 8) := by
    rw [Nat.and_comm]
    exact and_high_mask a 0xff 8 rfl 16
  have h2 := Nat.mul_add_lt_is_or (show r < 2 ^ 16 by omega) (a / 2 ^ 16 % 2 ^ 8)
  rw [e, ← h2]
  constructor <;> omega

theorem dram_high_byte (a b : Nat) :
    ((0xffff &&& a) ||| (b <<< 16)) % 65536 = a % 65536 ∧
    ((0xffff &&& a) ||| (b <<< 16)) / 65536 = b := by
  have e : 0xffff &&& a = a % 2 ^ 16 := by
    rw [Nat.and_comm]
    exact Nat.and_pow_two_sub_one_eq_mod a 16
  have h2 := Nat.mul_add_lt_is_or (show a % 2 ^ 16 < 2 ^ 16 by omega) b
  rw [e, Nat.or_comm, Nat.shiftLeft_eq, Nat.mul_comm, ← h2]
  constructor <;> omega

theorem dram_high_byte_div (a r : Nat) :
    ((0xffff &&& a) ||| ((r >>> 8) <<< 16)) % 65536 = a % 65536 ∧
    ((0xffff &&& a) ||| ((r >>> 8) <<< 16)) / 65536 = r / 256 := by
  have h := dram_high_byte a (r >>> 8)
  have e : r >>> 8 = r / 256 := Nat.shiftRight_eq_div_pow r 8
  rw [e] at h ⊢
  exact h

theorem WriteToPort_0x307_case (fuel : Nat) (g : Gus) (port val iolen : Nat)
    (hp : subSizeT port g.port_base = 0x307) :
    WriteToPort fuel g port val iolen =
      some (if g.dram_addr < RAM_SIZE
        then { g with ram := Function.update g.ram g.dram_addr (val % 256) } else g) := by
  unfold WriteToPort
  rw [if_neg (by rw [hp]; decide), if_neg (by rw [hp]; decide), if_neg (by rw [hp]; decide),
    if_neg (by rw [hp]; decide), if_neg (by rw [hp]; decide), if_neg (by rw [hp]; decide),
    if_neg (by rw [hp]; decide), if_neg (by rw [hp]; decide), if_pos hp]

theorem ReadFromPort_0x307_case (fuel : Nat) (g : Gus) (port iolen : Nat)
    (hp : subSizeT port g.port_base = 0x307) :
    ReadFromPort fuel g port iolen =
      some (if g.dram_addr < RAM_SIZE then g.ram g.dram_addr else 0, g) := by
  unfold ReadFromPort
  rw [if_neg (by rw [hp]; decide), if_neg (by rw [hp]; decide), if_neg (by rw [hp]; decide),
    if_neg (by rw [hp]; decide), if_neg (by rw [hp]; decide), if_neg (by rw [hp]; decide),
    if_neg (by rw [hp]; decide), if_pos hp]

theorem dram_port_roundtrip (fuel : Nat) (g : Gus) (port val iolen iolen2 : Nat)
    (hp : subSizeT port g.port_base = 0x307) (hv : val < 256) :
    ∃ g1, WriteToPort fuel g port val iolen = some g1 ∧
      g1.dram_addr = g.dram_addr ∧
      (g.dram_addr < 2 ^ 20 →
        ReadFromPort fuel g1 port iolen2 = some (val, g1) ∧
        ∀ j, j ≠ g.dram_addr → g1.ram j = g.ram j) ∧
      (2 ^ 20 ≤ g.dram_addr →
        g1.ram = g.ram ∧ ReadFromPort fuel g1 port iolen2 = some (0, g1)) := by
  have hw := WriteToPort_0x307_case fuel g port val iolen hp
  have hR : RAM_SIZE = 2 ^ 20 := rfl
  by_cases hlt : g.dram_addr < RAM_SIZE
  · rw [if_pos hlt] at hw
    refine ⟨_, hw, rfl, ?_, ?_⟩
    · intro _
      refine ⟨?_, ?_⟩
      · have hr := ReadFromPort_0x307_case fuel
          { g with ram := Function.update g.ram g.dram_addr (val % 256) } port iolen2 hp
        rw [hr]
        show some (if g.dram_addr < RAM_SIZE
          then Function.update g.ram g.dram_addr (val % 256) g.dram_addr else 0, _) = _
        rw [if_pos hlt, Function.update_same, Nat.mod_eq_of_lt hv]
      · intro j hj
        exact Function.update_noteq hj _ _
    · intro hge
      rw [hR] at hlt
      omega
  · rw [if_neg hlt] at hw
    refine ⟨g, hw, rfl, ?_, ?_⟩
    · intro h
      rw [hR] at hlt
      omega
    · intro _
      refine ⟨rfl, ?_⟩
      rw [ReadFromPort_0x307_case fuel g port iolen2 hp, if_neg hlt]

/-- C31: register `0x43` sets the low 16 bits of the DRAM address from the
data word and keeps bits 16 to 23; register `0x44` sets bits 16 to 23 from the
high data byte and keeps bits 0 to 15. With the DRAM address below `2^20`, a
byte written to port `0x307` is returned by the next read of port `0x307` and
no other RAM byte changes; with the DRAM address at or above `2^20` the write
changes no RAM byte and the read returns 0. -/
theorem dram_peek_poke (fuel : Nat) (g : Gus) (port val : Nat)
    (hp : subSizeT port g.port_base = 0x307) (hv : val < 256) :
    (g.selected_register = 0x43 →
      ∃ g1, WriteToRegister fuel g = some g1 ∧
        g1.dram_addr % 65536 = g.register_data % 65536 ∧
        g1.dram_addr / 65536 = g.dram_addr / 65536 % 256) ∧
    (g.selected_register = 0x44 →
      ∃ g1, WriteToRegister fuel g = some g1 ∧
        g1.dram_addr % 65536 = g.dram_addr % 65536 ∧
        g1.dram_addr / 65536 = g.register_data % 65536 / 256) ∧
    (∀ iolen iolen2 : Nat, ∃ g1, WriteToPort fuel g port val iolen = some g1 ∧
      g1.dram_addr = g.dram_addr ∧
      (g.dram_addr < 2 ^ 20 →
        ReadFromPort fuel g1 port iolen2 = some (val, g1) ∧
        ∀ j, j ≠ g.dram_addr → g1.ram j = g.ram j) ∧
      (2 ^ 20 ≤ g.dram_addr →
        g1.ram = g.ram ∧ ReadFromPort fuel g1 port iolen2 = some (0, g1))) := by
  refine ⟨?_, ?_, ?_⟩
  · intro hs
    exact ⟨_, WriteToRegister_0x43_case fuel g hs,
      dram_low_word g.dram_addr (g.register_data % 65536) (Nat.mod_lt _ (by decide))⟩
  · intro hs
    exact ⟨_, WriteToRegister_0x44_case fuel g hs,
      dram_high_byte_div g.dram_addr (g.register_data % 65536)⟩
  · intro iolen iolen2
    exact dram_port_roundtrip fuel g port val iolen iolen2 hp hv

theorem dram_peek_poke_witness :
    ∃ g1, WriteToPort 0 bootDevice 0x347 0x5A 1 = some g1 ∧
      ReadFromPort 0 g1 0x347 1 = some (0x5A, g1) := by
  obtain ⟨g1, h, _, h1, _⟩ :=
    (dram_peek_poke 0 bootDevice 0x347 0x5A (by decide) (by decide)).2.2 1 1
  exact ⟨g1, h, (h1 (by decide)).1⟩


/-- C36, as stated, fails: at address `0x2000` (bit 13 set) the 16-bit sample
offset of the code is `0x4000`, while the claimed formula, which shifts only
the lower 13 bits, gives 0 with the code's upper mask `0xC0000` (and `0x2000`
with an all-ones upper mask). -/
theorem sample16_offset_not_thirteen_bits :
    Read16BitSample_i 0x2000 = 0x4000 ∧
    ((0x2000 &&& 0x1FFF) <<< 1) ||| (0x2000 &&& 0xC0000) = 0 ∧
    ((0x2000 &&& 0x1FFF) <<< 1) ||| (0x2000 &&& 0xFFFFFFFF) = 0x2000 := by
  decide

/-- C36 (amended): for 16-bit samples the RAM offset of address `addr` is
formed by shifting the lower 17 bits of `addr` left by one position and
or-ing the result with bits 18 and 19 of `addr`:
`offset = ((addr & 0x1FFFF) << 1) | (addr & 0xC0000)`. It agrees with the
13-bit formula whenever bits 13 to 16 of `addr` are clear. -/
theorem sample16_offset (addr : Int) :
    Read16BitSample_i addr =
      ((toU32 addr &&& 0x1FFFF) <<< 1) ||| (toU32 addr &&& 0xC0000) ∧
    (toU32 addr &&& 0x1E000 = 0 →
      Read16BitSample_i addr =
        ((toU32 addr &&& 0x1FFF) <<< 1) ||| (toU32 addr &&& 0xC0000)) := by
  have h1 : Read16BitSample_i addr =
      ((toU32 addr &&& 0x1FFFF) <<< 1) ||| (toU32 addr &&& 0xC0000) := by
    unfold Read16BitSample_i
    simp only []
    have hu : toU32 addr &&& 0x1FFFF < 2 ^ 17 := Nat.and_lt_two_pow _ (by decide)
    have hm : ((toU32 addr &&& 0x1FFFF) <<< 1) % 4294967296 = (toU32 addr &&& 0x1FFFF) <<< 1 := by
      rw [Nat.shiftLeft_eq]; omega
    rw [hm, Nat.or_comm]
  refine ⟨h1, fun h0 => ?_⟩
  have hs : toU32 addr &&& 0x1FFFF = toU32 addr &&& 0x1FFF := by
    have e : (0x1FFFF : Nat) = 0x1FFF ||| 0x1E000 := by decide
    rw [e, Nat.and_or_distrib_left, h0, Nat.or_zero]
  rw [h1, hs]

theorem ReadFromRegister_voice_case (fuel : Nat) (g : Gus)
    (h : g.selected_register ≠ 0x41 ∧ g.selected_register ≠ 0x42 ∧
      g.selected_register ≠ 0x45 ∧ g.selected_register ≠ 0x49 ∧ g.selected_register ≠ 0x8f) :
    ReadFromRegister fuel g =
      match g.voice with
      | none =>
        some (if g.selected_register = 0x80 ∨ g.selected_register = 0x8d then 0x0300 else 0, g)
      | some idx => (ReadFromVoiceRegister g idx).map fun x => (x, g) := by
  obtain ⟨h1, h2, h3, h4, h5⟩ := h
  unfold ReadFromRegister
  rw [if_neg h1, if_neg h2, if_neg h3, if_neg h4, if_neg h5]

theorem ReadFromRegister_selected_voice (fuel : Nat) (g : Gus) (idx : Nat)
    (h : g.selected_register ≠ 0x41 ∧ g.selected_register ≠ 0x42 ∧
      g.selected_register ≠ 0x45 ∧ g.selected_register ≠ 0x49 ∧ g.selected_register ≠ 0x8f)
    (hv : g.voice = some idx) :
    ReadFromRegister fuel g = (ReadFromVoiceRegister g idx).map fun x => (x, g) := by
  rw [ReadFromRegister_voice_case fuel g h, hv]

theorem ReadFromRegister_0x89_case (fuel : Nat) (g : Gus) (idx : Nat)
    (hs : g.selected_register = 0x89) (hv : g.voice = some idx) :
    ReadFromRegister fuel g =
      (if ReadFromRegister_0x89_i (g.voices idx) < (VOLUME_LEVELS : Int)
       then some (toU16 (ReadFromRegister_0x89_i (g.voices idx) * 16)) else none).map
        fun x => (x, g) := by
  rw [ReadFromRegister_selected_voice fuel g idx (by omega) hv]
  unfold ReadFromVoiceRegister
  rw [if_neg (by omega), if_neg (by omega), if_neg (by omega), if_pos hs]

theorem WriteToVoiceRegister_0x9_case (fuel : Nat) (g : Gus) (idx : Nat)
    (h : g.selected_register = 0x9) :
    WriteToVoiceRegister fuel g idx =
      some (g.setVoice idx (WriteToRegister_0x9 g.register_data (g.voices idx))) := by
  unfold WriteToVoiceRegister
  rw [if_neg (by omega), if_neg (by omega), if_neg (by omega), if_neg (by omega),
    if_neg (by omega), if_neg (by omega), if_pos h]

theorem volume_word_mask (d : Nat) (h : d < 65536) :
    d &&& 0xFFF0 = d >>> 4 * 16 ∧ d >>> 4 ≤ 4095 := by
  have e := and_high_mask d 0xFFF 12 rfl 4
  have e2 : (0xFFF <<< 4 : Nat) = 0xFFF0 := by decide
  rw [e2] at e
  rw [e, Nat.shiftRight_eq_div_pow]
  constructor <;> omega

theorem volIndex_of_written (k : Nat) :
    volIndex (((k : Nat) : Int) * VOLUME_INC_SCALAR) = (k : Int) := by
  unfold volIndex ceil_sdivide VOLUME_INC_SCALAR
  omega

/-- C40: for every selected voice and every 16-bit value `D`, the write of
`D` to the current-volume register `0x09` returns, and the read of register
`0x89` that follows (register `0x89` selected, no sample generation in
between) returns `D & 0xFFF0`; the volume table index of the written position
is `D >> 4`, which is at most 4095. -/
theorem volume_register_roundtrip (fuel : Nat) (g : Gus) (idx : Nat)
    (hv : g.voice = some idx) (hsel : g.selected_register = 0x09)
    (hD : g.register_data < 65536) :
    ∃ g1, WriteToRegister fuel g = some g1 ∧
      ReadFromRegister fuel { g1 with selected_register := 0x89, register_data := 0 } =
        some (g.register_data &&& 0xFFF0,
          { g1 with selected_register := 0x89, register_data := 0 }) ∧
      volIndex (g1.voices idx).vol_ctrl.pos = ((g.register_data >>> 4 : Nat) : Int) ∧
      g.register_data >>> 4 ≤ 4095 := by
  obtain ⟨hm, hle⟩ := volume_word_mask g.register_data hD
  have hw : WriteToRegister fuel g =
      some (g.setVoice idx (WriteToRegister_0x9 g.register_data (g.voices idx))) := by
    rw [WriteToRegister_voice_case fuel g (by omega), hv]
    exact WriteToVoiceRegister_0x9_case fuel g idx hsel
  obtain ⟨g1, hg1⟩ : ∃ g1 : Gus,
      g1 = g.setVoice idx (WriteToRegister_0x9 g.register_data (g.voices idx)) := ⟨_, rfl⟩
  have hv1 : g1.voice = some idx := by rw [hg1]; exact hv
  have hpos : (g1.voices idx).vol_ctrl.pos =
      ((g.register_data >>> 4 : Nat) : Int) * VOLUME_INC_SCALAR := by
    rw [hg1]
    show (Function.update g.voices idx _ idx).vol_ctrl.pos = _
    rw [Function.update_same]
    rfl
  have hi := volIndex_of_written (g.register_data >>> 4)
  have e : toU16 (((g.register_data >>> 4 : Nat) : Int) * 16) = g.register_data &&& 0xFFF0 := by
    rw [hm]
    unfold toU16
    omega
  refine ⟨g1, by rw [hg1]; exact hw, ?_, by rw [hpos]; exact hi, hle⟩
  have hr := ReadFromRegister_0x89_case fuel
    { g1 with selected_register := 0x89, register_data := 0 } idx rfl hv1
  rw [hr]
  show (if ReadFromRegister_0x89_i (g1.voices idx) < (VOLUME_LEVELS : Int)
    then some (toU16 (ReadFromRegister_0x89_i (g1.voices idx) * 16)) else none).map _ = _
  unfold ReadFromRegister_0x89_i
  rw [hpos, hi, if_pos (by unfold VOLUME_LEVELS; omega), e]
  rfl

theorem volume_register_roundtrip_witness :
    ∃ g1, WriteToRegister 0 { voiceDevice 0x09 with register_data := 0x1234 } = some g1 ∧
      ReadFromRegister 0 { g1 with selected_register := 0x89, register_data := 0 } =
        some (0x1230, { g1 with selected_register := 0x89, register_data := 0 }) := by
  obtain ⟨g1, h, h1, _⟩ := volume_register_roundtrip 0
    { voiceDevice 0x09 with register_data := 0x1234 } 0 rfl rfl (by decide)
  exact ⟨g1, h, h1⟩


/-! ## Wave address registers -/

theorem toU32_lt (a : Int) : toU32 a < 4294967296 := by
  unfold toU32
  omega

theorem toU32_wrapI32_natCast (n : Nat) (h : n < 4294967296) : toU32 (wrapI32 (n : Int)) = n := by
  unfold toU32 wrapI32
  omega

theorem toU32_natCast (n : Nat) (h : n < 4294967296) : toU32 (n : Int) = n := by
  unfold toU32
  omega

theorem wrapI32_natCast (n : Nat) (h : n < 2147483648) : wrapI32 (n : Int) = (n : Int) := by
  unfold wrapI32
  omega

theorem msw_word (u m : Nat) :
    (u &&& 0xFFFF) ||| ((m &&& 0x1fff) <<< 16) = 65536 * (m &&& 0x1fff) + u % 65536 := by
  have e : u &&& 0xFFFF = u % 2 ^ 16 := Nat.and_pow_two_sub_one_eq_mod u 16
  have h2 := Nat.mul_add_lt_is_or (show u % 2 ^ 16 < 2 ^ 16 by omega) (m &&& 0x1fff)
  rw [e, Nat.or_comm, Nat.shiftLeft_eq, Nat.mul_comm, ← h2]
  omega

theorem lsw_word (u l : Nat) (hu : u < 4294967296) (hl : l < 65536) :
    (u &&& 0xFFFF0000) ||| l = 65536 * (u / 65536) + l := by
  have e := and_high_mask u 0xFFFF 16 rfl 16
  have e2 : (0xFFFF <<< 16 : Nat) = 0xFFFF0000 := by decide
  rw [e2] at e
  have h2 := Nat.mul_add_lt_is_or (show l < 2 ^ 16 by omega) (u / 2 ^ 16 % 2 ^ 16)
  rw [e, ← h2]
  omega

theorem UpdateWaveMsw_eq (m : Nat) (a : Int) :
    UpdateWaveMsw m a = ((65536 * (m &&& 0x1fff) + toU32 a % 65536 : Nat) : Int) := by
  have hm : m &&& 0x1fff < 2 ^ 13 := Nat.and_lt_two_pow _ (by decide)
  unfold UpdateWaveMsw
  simp only []
  rw [msw_word, wrapI32_natCast _ (by omega)]

theorem UpdateWaveLsw_eq (l : Nat) (a : Int) (hl : l < 65536) :
    UpdateWaveLsw l a = wrapI32 ((65536 * (toU32 a / 65536) + l : Nat) : Int) := by
  unfold UpdateWaveLsw
  rw [lsw_word _ _ (toU32_lt a) hl]

/-- The wave address after both word writes, in either order. -/
theorem wave_words_commute (a : Int) (m l : Nat) (hl : l < 65536) :
    UpdateWaveMsw m (UpdateWaveLsw l a) = ((65536 * (m &&& 0x1fff) + l : Nat) : Int) ∧
    UpdateWaveLsw l (UpdateWaveMsw m a) = ((65536 * (m &&& 0x1fff) + l : Nat) : Int) := by
  have hm : m &&& 0x1fff < 2 ^ 13 := Nat.and_lt_two_pow _ (by decide)
  have ha := toU32_lt a
  constructor
  · rw [UpdateWaveMsw_eq, UpdateWaveLsw_eq l a hl, toU32_wrapI32_natCast _ (by omega)]
    congr 1
    omega
  · rw [UpdateWaveLsw_eq l _ hl, UpdateWaveMsw_eq, toU32_natCast _ (by omega),
      wrapI32_natCast _ (by omega)]
    congr 1
    omega

theorem wave_word_bits (a : Int) (m l : Nat) (hl : l < 65536) :
    (toU32 (UpdateWaveMsw m a) / 65536 = m &&& 0x1FFF ∧
      toU32 (UpdateWaveMsw m a) % 65536 = toU32 a % 65536) ∧
    (toU32 (UpdateWaveLsw l a) % 65536 = l ∧
      toU32 (UpdateWaveLsw l a) / 65536 = toU32 a / 65536) := by
  have hm : m &&& 0x1fff < 2 ^ 13 := Nat.and_lt_two_pow _ (by decide)
  have ha := toU32_lt a
  rw [UpdateWaveMsw_eq, UpdateWaveLsw_eq l a hl, toU32_natCast _ (by omega),
    toU32_wrapI32_natCast _ (by omega)]
  refine ⟨⟨?_, ?_⟩, ?_, ?_⟩ <;> omega

theorem wave_word_value (m l : Nat) (hl : l < 65536) :
    ((m &&& 0x1FFF) <<< 16) ||| l = 65536 * (m &&& 0x1fff) + l ∧
    ((m &&& 0x1FFF) <<< 16) ||| l < 2 ^ 29 := by
  have hm : m &&& 0x1fff < 2 ^ 13 := Nat.and_lt_two_pow _ (by decide)
  have h2 := Nat.mul_add_lt_is_or (show l < 2 ^ 16 by omega) (m &&& 0x1fff)
  have e : ((m &&& 0x1FFF) <<< 16) ||| l = 65536 * (m &&& 0x1fff) + l := by
    rw [Nat.shiftLeft_eq, Nat.mul_comm, ← h2]
  rw [e]
  exact ⟨rfl, by omega⟩


theorem WriteToRegister_wave_address (fuel : Nat) (g : Gus) (idx : Nat)
    (hv : g.voice = some idx)
    (h : g.selected_register = 0x2 ∨ g.selected_register = 0x3 ∨ g.selected_register = 0x4 ∨
      g.selected_register = 0x5 ∨ g.selected_register = 0xA ∨ g.selected_register = 0xB) :
    WriteToRegister fuel g =
      some (g.setVoice idx
        (WriteWaveAddress g.selected_register g.register_data (g.voices idx))) := by
  rw [WriteToRegister_voice_case fuel g (by omega), hv]
  show WriteToVoiceRegister fuel g idx = _
  unfold WriteToVoiceRegister
  rw [if_neg (by omega), if_neg (by omega), if_pos h]

theorem ReadFromRegister_start_case (fuel : Nat) (g : Gus) (idx : Nat)
    (hv : g.voice = some idx) :
    (g.selected_register = 0x82 →
      ReadFromRegister fuel g = some (toU16 ((g.voices idx).wave_ctrl.start / 65536), g)) ∧
    (g.selected_register = 0x83 →
      ReadFromRegister fuel g = some (toU16 (g.voices idx).wave_ctrl.start, g)) := by
  constructor
  · intro hs
    rw [ReadFromRegister_selected_voice fuel g idx (by omega) hv]
    unfold ReadFromVoiceRegister
    rw [if_neg (by omega), if_pos hs]
    rfl
  · intro hs
    rw [ReadFromRegister_selected_voice fuel g idx (by omega) hv]
    unfold ReadFromVoiceRegister
    rw [if_neg (by omega), if_neg (by omega), if_pos hs]
    rfl

/-- The start address written through registers `0x02` and `0x03` is read back
through registers `0x82` and `0x83`. -/
theorem wave_start_readback (fuel : Nat) (g : Gus) (idx m l : Nat) (hl : l < 65536)
    (hv : g.voice = some idx) :
    ∃ g1 g2, WriteToRegister fuel { g with selected_register := 0x02, register_data := m } =
        some g1 ∧
      WriteToRegister fuel { g1 with selected_register := 0x03, register_data := l } =
        some g2 ∧
      (g2.voices idx).wave_ctrl.start = ((65536 * (m &&& 0x1fff) + l : Nat) : Int) ∧
      ReadFromRegister fuel { g2 with selected_register := 0x82, register_data := 0 } =
        some (m &&& 0x1FFF, { g2 with selected_register := 0x82, register_data := 0 }) ∧
      ReadFromRegister fuel { g2 with selected_register := 0x83, register_data := 0 } =
        some (l, { g2 with selected_register := 0x83, register_data := 0 }) := by
  have hm : m &&& 0x1fff < 2 ^ 13 := Nat.and_lt_two_pow _ (by decide)
  obtain ⟨g1, hg1⟩ : ∃ g1 : Gus, g1 = Gus.setVoice
      { g with selected_register := 0x02, register_data := m } idx
      (WriteWaveAddress 0x02 m (g.voices idx)) := ⟨_, rfl⟩
  have hw1 : WriteToRegister fuel { g with selected_register := 0x02, register_data := m } =
      some g1 := by
    rw [hg1]
    exact WriteToRegister_wave_address fuel
      { g with selected_register := 0x02, register_data := m } idx hv (Or.inl rfl)
  have hv1 : g1.voice = some idx := by rw [hg1]; exact hv
  have hs1 : (g1.voices idx).wave_ctrl.start = UpdateWaveMsw m (g.voices idx).wave_ctrl.start := by
    rw [hg1]
    show (Function.update g.voices idx _ idx).wave_ctrl.start = _
    rw [Function.update_same]
    rfl
  obtain ⟨g2, hg2⟩ : ∃ g2 : Gus, g2 = Gus.setVoice
      { g1 with selected_register := 0x03, register_data := l } idx
      (WriteWaveAddress 0x03 l (g1.voices idx)) := ⟨_, rfl⟩
  have hw2 : WriteToRegister fuel { g1 with selected_register := 0x03, register_data := l } =
      some g2 := by
    rw [hg2]
    exact WriteToRegister_wave_address fuel
      { g1 with selected_register := 0x03, register_data := l } idx hv1 (Or.inr (Or.inl rfl))
  have hv2 : g2.voice = some idx := by rw [hg2]; exact hv1
  have hs2 : (g2.voices idx).wave_ctrl.start = ((65536 * (m &&& 0x1fff) + l : Nat) : Int) := by
    rw [hg2]
    show (Function.update g1.voices idx _ idx).wave_ctrl.start = _
    rw [Function.update_same]
    show UpdateWaveLsw l (g1.voices idx).wave_ctrl.start = _
    rw [hs1]
    exact (wave_words_commute _ m l hl).2
  have r82 := (ReadFromRegister_start_case fuel
    { g2 with selected_register := 0x82, register_data := 0 } idx hv2).1 rfl
  have r83 := (ReadFromRegister_start_case fuel
    { g2 with selected_register := 0x83, register_data := 0 } idx hv2).2 rfl
  refine ⟨g1, g2, hw1, hw2, hs2, ?_, ?_⟩
  · rw [r82]
    show some (toU16 ((g2.voices idx).wave_ctrl.start / 65536), _) = _
    rw [hs2]
    have e : toU16 (((65536 * (m &&& 0x1fff) + l : Nat) : Int) / 65536) = m &&& 0x1FFF := by
      unfold toU16
      omega
    rw [e]
  · rw [r83]
    show some (toU16 (g2.voices idx).wave_ctrl.start, _) = _
    rw [hs2]
    have e : toU16 ((65536 * (m &&& 0x1fff) + l : Nat) : Int) = l := by
      unfold toU16
      omega
    rw [e]

/-- C39: for every wave address `a` and 16-bit data words `M` and `L`: the MSW
write (registers `0x02`, `0x04`, `0x0A`: start, end, current) replaces bits 16
to 31 by `M & 0x1FFF` and keeps bits 0 to 15; the LSW write (registers `0x03`,
`0x05`, `0x0B`) replaces bits 0 to 15 by `L` and keeps bits 16 to 31; the two
writes commute, and after both the address is `((M & 0x1FFF) << 16) | L`, which
lies in `[0, 2^29)`; the start address written through registers `0x02` and
`0x03` is read back through `0x82` and `0x83` as `M & 0x1FFF` and `L`. -/
theorem wave_address_registers (a : Int) (M L : Nat) (hL : L < 65536) :
    (∀ v : Voice,
      (WriteWaveAddress 0x02 M v).wave_ctrl.start = UpdateWaveMsw M v.wave_ctrl.start ∧
      (WriteWaveAddress 0x04 M v).wave_ctrl.end_ = UpdateWaveMsw M v.wave_ctrl.end_ ∧
      (WriteWaveAddress 0x0A M v).wave_ctrl.pos = UpdateWaveMsw M v.wave_ctrl.pos ∧
      (WriteWaveAddress 0x03 L v).wave_ctrl.start = UpdateWaveLsw L v.wave_ctrl.start ∧
      (WriteWaveAddress 0x05 L v).wave_ctrl.end_ = UpdateWaveLsw L v.wave_ctrl.end_ ∧
      (WriteWaveAddress 0x0B L v).wave_ctrl.pos = UpdateWaveLsw L v.wave_ctrl.pos) ∧
    (toU32 (UpdateWaveMsw M a) / 65536 = M &&& 0x1FFF ∧
      toU32 (UpdateWaveMsw M a) % 65536 = toU32 a % 65536) ∧
    (toU32 (UpdateWaveLsw L a) % 65536 = L ∧
      toU32 (UpdateWaveLsw L a) / 65536 = toU32 a / 65536) ∧
    UpdateWaveMsw M (UpdateWaveLsw L a) = UpdateWaveLsw L (UpdateWaveMsw M a) ∧
    UpdateWaveLsw L (UpdateWaveMsw M a) = ((((M &&& 0x1FFF) <<< 16) ||| L : Nat) : Int) ∧
    ((M &&& 0x1FFF) <<< 16) ||| L < 2 ^ 29 ∧
    (∀ (fuel : Nat) (g : Gus) (idx : Nat), g.voice = some idx →
      ∃ g1 g2,
        WriteToRegister fuel { g with selected_register := 0x02, register_data := M } =
          some g1 ∧
        WriteToRegister fuel { g1 with selected_register := 0x03, register_data := L } =
          some g2 ∧
        ReadFromRegister fuel { g2 with selected_register := 0x82, register_data := 0 } =
          some (M &&& 0x1FFF, { g2 with selected_register := 0x82, register_data := 0 }) ∧
        ReadFromRegister fuel { g2 with selected_register := 0x83, register_data := 0 } =
          some (L, { g2 with selected_register := 0x83, register_data := 0 })) := by
  obtain ⟨c1, c2⟩ := wave_words_commute a M L hL
  obtain ⟨b1, b2⟩ := wave_word_bits a M L hL
  obtain ⟨v1, v2⟩ := wave_word_value M L hL
  refine ⟨fun v => ⟨rfl, rfl, rfl, rfl, rfl, rfl⟩, b1, b2, by rw [c1, c2], by rw [c2, v1], v2, ?_⟩
  intro fuel g idx hv
  obtain ⟨g1, g2, h1, h2, _, h3, h4⟩ := wave_start_readback fuel g idx M L hL hv
  exact ⟨g1, g2, h1, h2, h3, h4⟩

theorem wave_address_registers_witness :
    UpdateWaveLsw 0x5678 (UpdateWaveMsw 0xF234 7) =
      ((((0xF234 &&& 0x1FFF) <<< 16) ||| 0x5678 : Nat) : Int) :=
  (wave_address_registers 7 0xF234 0x5678 (by decide)).2.2.2.2.1


/-! ## Sample interpolation -/

theorem IncrementCtrlPos_inc (c : VoiceCtrl) (irq m : Nat) (skip : Bool) :
    (IncrementCtrlPos c irq m skip).1.inc = c.inc := by
  unfold IncrementCtrlPos
  simp only []
  split_ifs <;> rfl

theorem ReadSample_value (ram : Nat → Nat) (v : Voice) (addr : Int) :
    ReadSample ram v addr =
      some (if Is8Bit v then toI8 (ram (Read8BitSample_i addr)) * 256
            else toI16 (host_readw ram (Read16BitSample_i addr))) := by
  have h8 := Read8BitSample_i_lt addr
  have h16 := (Read16BitSample_i_bounds addr).2
  have hR : RAM_SIZE = 1048576 := rfl
  unfold ReadSample
  cases Is8Bit v
  · simp only [Read16BitSample, hR, if_pos h16, Bool.false_eq_true, if_false]
  · simp only [Read8BitSample, hR, if_pos h8, if_true]

theorem sample_value_range (ram : Nat → Nat) (b : Bool) (i j : Nat) :
    -32768 ≤ (if b then toI8 (ram i) * 256 else toI16 (host_readw ram j)) ∧
    (if b then toI8 (ram i) * 256 else toI16 (host_readw ram j)) ≤ 32767 := by
  cases b
  · simp only [Bool.false_eq_true, if_false]
    unfold toI16
    split_ifs <;> omega
  · simp only [if_true]
    unfold toI8
    split_ifs <;> omega

theorem interpolation_between (s0 s1 f : Int) (h0 : 0 ≤ f) (h1 : f < 512) :
    min (s0 : ℚ) (s1 : ℚ) ≤ (s0 : ℚ) + ((s1 : ℚ) - (s0 : ℚ)) * (f : ℚ) * (1 / 512) ∧
    (s0 : ℚ) + ((s1 : ℚ) - (s0 : ℚ)) * (f : ℚ) * (1 / 512) ≤ max (s0 : ℚ) (s1 : ℚ) := by
  have hf0 : (0 : ℚ) ≤ (f : ℚ) := by exact_mod_cast h0
  have hf1 : (f : ℚ) ≤ 512 := by exact_mod_cast h1.le
  rcases le_total (s0 : ℚ) (s1 : ℚ) with h | h
  · rw [min_eq_left h, max_eq_right h]
    constructor <;> nlinarith
  · rw [min_eq_right h, max_eq_left h]
    constructor <;> nlinarith

/-- C37: in exact arithmetic, `GetSample` on wave position `p` always returns
(no assertion fails): with `addr = p / 512` (truncating), `frac = p & 511` and
`s0`, `s1` the samples at `addr` and `addr + 1` (8-bit samples scaled by 256),
the sample returned is `s0 + (s1 - s0) * frac / 512` when the wave increment
is below 512 and `frac` is non-zero, and `s0` otherwise; it lies between `s0`
and `s1` and within `[-32768, 32767]`. -/
theorem GetSample_interpolation (ram : Nat → Nat) (v : Voice) (irq : VoiceIrq) :
    ∃ (s0 s1 : Int) (x : ℚ),
      ReadSample ram (PopWavePos v irq).2.1 (Int.tdiv v.wave_ctrl.pos 512) = some s0 ∧
      ReadSample ram (PopWavePos v irq).2.1 (wrapI32 (Int.tdiv v.wave_ctrl.pos 512 + 1)) =
        some s1 ∧
      ((-2147483648 ≤ v.wave_ctrl.pos ∧ v.wave_ctrl.pos < 2147483648) →
        wrapI32 (Int.tdiv v.wave_ctrl.pos 512 + 1) = Int.tdiv v.wave_ctrl.pos 512 + 1) ∧
      (∀ addr : Int, ReadSample ram (PopWavePos v irq).2.1 addr =
        some (if Is8Bit (PopWavePos v irq).2.1 then toI8 (ram (Read8BitSample_i addr)) * 256
              else toI16 (host_readw ram (Read16BitSample_i addr)))) ∧
      GetSample ram v irq = some (x, (PopWavePos v irq).2.1, (PopWavePos v irq).2.2) ∧
      x = (if v.wave_ctrl.inc < 512 ∧ v.wave_ctrl.pos % 512 ≠ 0
           then (s0 : ℚ) + ((s1 : ℚ) - (s0 : ℚ)) * ((v.wave_ctrl.pos % 512 : Int) : ℚ) / 512
           else (s0 : ℚ)) ∧
      min (s0 : ℚ) (s1 : ℚ) ≤ x ∧ x ≤ max (s0 : ℚ) (s1 : ℚ) ∧
      -32768 ≤ x ∧ x ≤ 32767 := by
  have hinc : (PopWavePos v irq).2.1.wave_ctrl.inc = v.wave_ctrl.inc :=
    IncrementCtrlPos_inc _ _ _ _
  have hr0 := ReadSample_value ram (PopWavePos v irq).2.1 (Int.tdiv v.wave_ctrl.pos 512)
  have hr1 := ReadSample_value ram (PopWavePos v irq).2.1
    (wrapI32 (Int.tdiv v.wave_ctrl.pos 512 + 1))
  obtain ⟨a0, b0⟩ := sample_value_range ram (Is8Bit (PopWavePos v irq).2.1)
    (Read8BitSample_i (Int.tdiv v.wave_ctrl.pos 512))
    (Read16BitSample_i (Int.tdiv v.wave_ctrl.pos 512))
  obtain ⟨a1, b1⟩ := sample_value_range ram (Is8Bit (PopWavePos v irq).2.1)
    (Read8BitSample_i (wrapI32 (Int.tdiv v.wave_ctrl.pos 512 + 1)))
    (Read16BitSample_i (wrapI32 (Int.tdiv v.wave_ctrl.pos 512 + 1)))
  generalize (if Is8Bit (PopWavePos v irq).2.1
    then toI8 (ram (Read8BitSample_i (Int.tdiv v.wave_ctrl.pos 512))) * 256
    else toI16 (host_readw ram (Read16BitSample_i (Int.tdiv v.wave_ctrl.pos 512)))) = s0
    at hr0 a0 b0
  generalize (if Is8Bit (PopWavePos v irq).2.1
    then toI8 (ram (Read8BitSample_i (wrapI32 (Int.tdiv v.wave_ctrl.pos 512 + 1)))) * 256
    else toI16 (host_readw ram
      (Read16BitSample_i (wrapI32 (Int.tdiv v.wave_ctrl.pos 512 + 1))))) = s1
    at hr1 a1 b1
  have hq0 : (-32768 : ℚ) ≤ (s0 : ℚ) ∧ (s0 : ℚ) ≤ 32767 := by
    constructor
    · exact_mod_cast a0
    · exact_mod_cast b0
  have hq1 : (-32768 : ℚ) ≤ (s1 : ℚ) ∧ (s1 : ℚ) ≤ 32767 := by
    constructor
    · exact_mod_cast a1
    · exact_mod_cast b1
  have hf0 : 0 ≤ v.wave_ctrl.pos % 512 := Int.emod_nonneg _ (by decide)
  have hf1 : v.wave_ctrl.pos % 512 < 512 := Int.emod_lt_of_pos _ (by decide)
  obtain ⟨hb0, hb1⟩ := interpolation_between s0 s1 (v.wave_ctrl.pos % 512) hf0 hf1
  have hwrap : (-2147483648 ≤ v.wave_ctrl.pos ∧ v.wave_ctrl.pos < 2147483648) →
      wrapI32 (Int.tdiv v.wave_ctrl.pos 512 + 1) = Int.tdiv v.wave_ctrl.pos 512 + 1 := by
    rintro ⟨h1, h2⟩
    have htd : Int.tdiv v.wave_ctrl.pos 512 =
        if 0 ≤ v.wave_ctrl.pos then v.wave_ctrl.pos / 512 else -((-v.wave_ctrl.pos) / 512) := by
      split_ifs with h
      · exact Int.tdiv_eq_ediv h (by decide)
      · have e := Int.neg_tdiv (-v.wave_ctrl.pos) 512
        rw [neg_neg] at e
        rw [e, Int.tdiv_eq_ediv (by omega) (by decide)]
    rw [htd]
    unfold wrapI32
    split_ifs <;> omega
  by_cases hint : v.wave_ctrl.inc < 512 ∧ v.wave_ctrl.pos % 512 ≠ 0
  · refine ⟨s0, s1, (s0 : ℚ) + ((s1 : ℚ) - (s0 : ℚ)) * ((v.wave_ctrl.pos % 512 : Int) : ℚ) *
      (1 / 512), hr0, hr1, hwrap, fun addr => ReadSample_value _ _ _, ?_, ?_, hb0, hb1, ?_, ?_⟩
    · unfold GetSample
      simp only []
      show (ReadSample ram (PopWavePos v irq).2.1 (Int.tdiv v.wave_ctrl.pos WAVE_WIDTH)).bind _ = _
      have hb : (decide ((PopWavePos v irq).2.1.wave_ctrl.inc < WAVE_WIDTH) &&
          decide (v.wave_ctrl.pos % WAVE_WIDTH ≠ 0)) = true := by
        rw [hinc]
        simp only [WAVE_WIDTH, Bool.and_eq_true, decide_eq_true_eq]
        exact hint
      show (ReadSample ram (PopWavePos v irq).2.1 (Int.tdiv v.wave_ctrl.pos 512)).bind _ = _
      rw [hr0, Option.some_bind]
      show Option.bind (if (decide ((PopWavePos v irq).2.1.wave_ctrl.inc < WAVE_WIDTH) &&
          decide (v.wave_ctrl.pos % WAVE_WIDTH ≠ 0)) = true then _ else _) _ = _
      rw [if_pos hb]
      have hr1' : ReadSample ram (PopWavePos v irq).2.1
          (wrapI32 (Int.tdiv (PopWavePos v irq).1 WAVE_WIDTH + 1)) = some s1 := hr1
      rw [hr1']
      show (if AUDIO_SAMPLE_MIN ≤ (s0 : ℚ) + ((s1 : ℚ) - (s0 : ℚ)) *
          ((v.wave_ctrl.pos % 512 : Int) : ℚ) * (1 / 512) ∧
          (s0 : ℚ) + ((s1 : ℚ) - (s0 : ℚ)) * ((v.wave_ctrl.pos % 512 : Int) : ℚ) * (1 / 512) ≤
            AUDIO_SAMPLE_MAX then _ else _) = _
      have hrange : AUDIO_SAMPLE_MIN ≤ (s0 : ℚ) + ((s1 : ℚ) - (s0 : ℚ)) *
          ((v.wave_ctrl.pos % 512 : Int) : ℚ) * (1 / 512) ∧
          (s0 : ℚ) + ((s1 : ℚ) - (s0 : ℚ)) * ((v.wave_ctrl.pos % 512 : Int) : ℚ) * (1 / 512) ≤
            AUDIO_SAMPLE_MAX := by
        unfold AUDIO_SAMPLE_MIN AUDIO_SAMPLE_MAX
        exact ⟨le_trans (le_min hq0.1 hq1.1) hb0, le_trans hb1 (max_le hq0.2 hq1.2)⟩
      rw [if_pos hrange]
      rfl
    · rw [if_pos hint]
      ring
    · exact le_trans (le_min hq0.1 hq1.1) hb0
    · exact le_trans hb1 (max_le hq0.2 hq1.2)
  · refine ⟨s0, s1, (s0 : ℚ), hr0, hr1, hwrap, fun addr => ReadSample_value _ _ _, ?_, ?_,
      min_le_left _ _, le_max_left _ _, hq0.1, hq0.2⟩
    · unfold GetSample
      simp only []
      have hb : ¬ (decide ((PopWavePos v irq).2.1.wave_ctrl.inc < WAVE_WIDTH) &&
          decide (v.wave_ctrl.pos % WAVE_WIDTH ≠ 0)) = true := by
        rw [hinc]
        simp only [WAVE_WIDTH, Bool.and_eq_true, decide_eq_true_eq]
        exact hint
      show (ReadSample ram (PopWavePos v irq).2.1 (Int.tdiv v.wave_ctrl.pos 512)).bind _ = _
      rw [hr0, Option.some_bind]
      show Option.bind (if (decide ((PopWavePos v irq).2.1.wave_ctrl.inc < WAVE_WIDTH) &&
          decide (v.wave_ctrl.pos % WAVE_WIDTH ≠ 0)) = true then _ else _) _ = _
      rw [if_neg hb, Option.some_bind]
      show (if AUDIO_SAMPLE_MIN ≤ (s0 : ℚ) ∧ (s0 : ℚ) ≤ AUDIO_SAMPLE_MAX then _ else _) = _
      have hrange : AUDIO_SAMPLE_MIN ≤ (s0 : ℚ) ∧ (s0 : ℚ) ≤ AUDIO_SAMPLE_MAX := by
        unfold AUDIO_SAMPLE_MIN AUDIO_SAMPLE_MAX
        exact hq0
      rw [if_pos hrange]
    · rw [if_neg hint]


/-! ## The cursor search after a stop -/

/-- With no active voice the cursor search restarts at 0 after every step: it
never ends when neither the cursor's bit nor bit 0 is set in `totalmask`. -/
theorem CheckVoiceIrqLoop_stuck (totalmask : Nat) (h0 : totalmask &&& (1 <<< 0) = 0) :
    ∀ (fuel s : Nat), totalmask &&& (1 <<< s) = 0 →
      CheckVoiceIrqLoop fuel totalmask 0 s = none := by
  intro fuel
  induction fuel with
  | zero => intro s _; rfl
  | succ f ih =>
    intro s hs
    show (if totalmask &&& (1 <<< s) ≠ 0 then some s
      else CheckVoiceIrqLoop f totalmask 0 (if (s + 1) % 256 ≥ 0 then 0 else (s + 1) % 256)) =
        none
    rw [if_neg (not_not.2 hs), if_pos (Nat.zero_le _)]
    exact ih 0 h0

theorem CheckVoiceIrq_stuck (fuel : Nat) (g : Gus) (hav : g.active_voices = 0)
    (hne : (g.voice_irq.vol_state ||| g.voice_irq.wave_state) &&& g.active_voice_mask ≠ 0)
    (h0 : ((g.voice_irq.vol_state ||| g.voice_irq.wave_state) &&& g.active_voice_mask) &&&
      (1 <<< 0) = 0)
    (hs : ((g.voice_irq.vol_state ||| g.voice_irq.wave_state) &&& g.active_voice_mask) &&&
      (1 <<< g.voice_irq.status) = 0) :
    CheckVoiceIrq fuel g = none := by
  have hl := CheckVoiceIrqLoop_stuck _ h0 fuel _ hs
  unfold CheckVoiceIrq
  simp only []
  rw [if_neg hne]
  by_cases hv : g.voice_irq.vol_state ≠ 0 <;> by_cases hw : g.voice_irq.wave_state ≠ 0
  all_goals
    simp only [hv, hw, if_true, if_false, not_true_eq_false, not_false_eq_true, ne_eq]
    obtain ⟨e, he⟩ := CheckIrq_eq _
    rw [he]
    simp only []
    rw [hav, hl]
    rfl

theorem ReadFromPort_0x8f_stuck (fuel : Nat) (g : Gus) (port iolen : Nat) (irq : VoiceIrq)
    (mask : Nat) (hp : subSizeT port g.port_base = 0x305) (hsel : g.selected_register = 0x8f)
    (hav : g.active_voices = 0) (hirq : g.voice_irq = irq) (hmask : g.active_voice_mask = mask)
    (hne : ((clearCursorVoice irq).vol_state ||| (clearCursorVoice irq).wave_state) &&& mask ≠ 0)
    (h0 : (((clearCursorVoice irq).vol_state ||| (clearCursorVoice irq).wave_state) &&& mask) &&&
      (1 <<< 0) = 0)
    (hs : (((clearCursorVoice irq).vol_state ||| (clearCursorVoice irq).wave_state) &&& mask) &&&
      (1 <<< (clearCursorVoice irq).status) = 0) :
    ReadFromPort fuel g port iolen = none := by
  subst hirq hmask
  have hc := CheckVoiceIrq_stuck fuel { g with voice_irq := clearCursorVoice g.voice_irq }
    hav hne h0 hs
  have hr : ReadFromRegister fuel g = none := by
    unfold ReadFromRegister
    rw [if_neg (by omega), if_neg (by omega), if_neg (by omega), if_neg (by omega), if_pos hsel]
    unfold ReadGlobal_0x8f
    rw [hc]
    rfl
  unfold ReadFromPort
  rw [if_neg (by rw [hp]; decide), if_neg (by rw [hp]; decide), if_neg (by rw [hp]; decide),
    if_neg (by rw [hp]; decide), if_neg (by rw [hp]; decide), if_neg (by rw [hp]; decide),
    if_pos hp, hr]
  rfl

/-- C34: after the port writes that activate 14 voices, set wave IRQs by hand
on voices 1 and 2, stop playback and select register `0x8F`, the device has
`active_voices = 0` with the mask of 14 voices still in place and the cursor
on voice 1; the read of the data port `0x305` that follows, which clears
voice 1 and searches for the next pending voice, does not return, whatever the
fuel. -/
theorem voice_irq_read_never_returns (fuel : Nat) :
    ((Gus.init 0x240 3 5).bind (runWrites 66 pendingThenStopWrites)).map
        (fun g => (g.selected_register, g.active_voices, g.active_voice_mask, g.voice_irq)) =
      some (0x8f, 0, 0x3FFF, ⟨0, 6, 1⟩) ∧
    ((Gus.init 0x240 3 5).bind (runWrites 66 pendingThenStopWrites)).bind
        (fun g => ReadFromPort fuel g 0x345 1) = none := by
  have hf : ((Gus.init 0x240 3 5).bind (runWrites 66 pendingThenStopWrites)).map
      (fun g => (g.port_base, g.selected_register, g.active_voices, g.active_voice_mask,
        g.voice_irq)) = some (0x40, 0x8f, 0, 0x3FFF, ⟨0, 6, 1⟩) := by
    decide
  cases hg : (Gus.init 0x240 3 5).bind (runWrites 66 pendingThenStopWrites) with
  | none => rw [hg] at hf; cases hf
  | some g =>
    rw [hg] at hf
    simp only [Option.map_some', Option.some.injEq, Prod.mk.injEq] at hf
    obtain ⟨hpb, hsel, hav, hmask, hirq⟩ := hf
    refine ⟨?_, ?_⟩
    · simp only [Option.map_some', hsel, hav, hmask, hirq]
    · show ReadFromPort fuel g 0x345 1 = none
      exact ReadFromPort_0x8f_stuck fuel g 0x345 1 ⟨0, 6, 1⟩ 0x3FFF (by rw [hpb]; decide) hsel
        hav hirq hmask (by decide) (by decide) (by decide)


/-- C35: entry 5 of the table `dma_addresses` is 15, which is above
`MAX_DMA_ADDRESS = 7`; after construction with DMA channel 3, the mixer-control
write `0x200 := 0` arms the latch with bit `0x40` clear, and the channel-select
write `0x20B := 5` that follows calls `UpdateDmaAddress(15)`, for which no
channel object exists: `assert(dma_channel)` fails and the write does not
return. -/
theorem dma_select_out_of_range :
    (dma_addresses.getD 5 0 = 15 ∧ MAX_DMA_ADDRESS = 7 ∧ GetDMAChannel 15 = none) ∧
    ((Gus.init 0x240 3 5).bind (runWrites 66 (dmaSelectWrites.take 1))).map
        (fun g => (g.dma1, g.should_change_irq_dma, g.mix_ctrl &&& 0x40)) = some (3, true, 0) ∧
    ((Gus.init 0x240 3 5).bind (runWrites 66 dmaSelectWrites)).isSome = false ∧
    ((Gus.init 0x240 3 5).bind fun g =>
      UpdateDmaAddress g (dma_addresses.getD 5 0)).isSome = false := by
  decide

theorem WriteToPort_wave_ctrl_stuck (fuel : Nat) (g : Gus) (port val idx : Nat) (irq : VoiceIrq)
    (mask m rd : Nat) (hp : subSizeT port g.port_base = 0x305) (hsel : g.selected_register = 0x0)
    (hv : g.voice = some idx) (hav : g.active_voices = 0) (hirq : g.voice_irq = irq)
    (hmask : g.active_voice_mask = mask) (him : (g.voices idx).irq_mask = m)
    (hrd : g.register_data = rd)
    (hval : ((((0x00ff &&& rd) ||| (val <<< 8)) % 65536) >>> 8) % 256 &&& 0xa0 = 0xa0)
    (hchg : irq.wave_state ≠ irq.wave_state ||| m)
    (hne : (irq.vol_state ||| (irq.wave_state ||| m)) &&& mask ≠ 0)
    (h0 : ((irq.vol_state ||| (irq.wave_state ||| m)) &&& mask) &&& (1 <<< 0) = 0)
    (hs : ((irq.vol_state ||| (irq.wave_state ||| m)) &&& mask) &&& (1 <<< irq.status) = 0) :
    WriteToPort fuel g port val 1 = none := by
  subst hirq hmask him hrd
  obtain ⟨g2, hg2⟩ : ∃ g2 : Gus, g2 =
      { g with register_data := ((0x00ff &&& g.register_data) ||| (val <<< 8)) % 65536 } :=
    ⟨_, rfl⟩
  have hu : UpdateWaveState (g2.voices idx) g2.voice_irq ((g2.register_data >>> 8) % 256) =
      ({ g2.voices idx with
          wave_ctrl := { (g2.voices idx).wave_ctrl with
            state := ((g2.register_data >>> 8) % 256) &&& 0x7f } },
        { g2.voice_irq with wave_state := g.voice_irq.wave_state ||| (g.voices idx).irq_mask },
        true) := by
    have hval2 : (g2.register_data >>> 8) % 256 &&& 0xa0 = 0xa0 := by rw [hg2]; exact hval
    unfold UpdateWaveState UpdateCtrlState
    simp only []
    rw [if_pos hval2]
    have e1 : g2.voice_irq = g.voice_irq := by rw [hg2]
    have e2 : g2.voices idx = g.voices idx := by rw [hg2]
    rw [e1, e2]
    simp only [decide_eq_true hchg]
  have hc : CheckVoiceIrq fuel
      (g2.setVoiceIrq idx
        (UpdateWaveState (g2.voices idx) g2.voice_irq ((g2.register_data >>> 8) % 256)).1
        (UpdateWaveState (g2.voices idx) g2.voice_irq ((g2.register_data >>> 8) % 256)).2.1) =
      none := by
    rw [hu]
    apply CheckVoiceIrq_stuck
    · rw [hg2]; exact hav
    · rw [hg2]; exact hne
    · rw [hg2]; exact h0
    · rw [hg2]; exact hs
  have hw : WriteToRegister fuel g2 = none := by
    have hsel2 : g2.selected_register = 0x0 := by rw [hg2]; exact hsel
    rw [WriteToRegister_voice_case fuel g2 (by omega)]
    have hv2 : g2.voice = some idx := by rw [hg2]; exact hv
    rw [hv2]
    show WriteToVoiceRegister fuel g2 idx = none
    unfold WriteToVoiceRegister
    rw [if_pos hsel2]
    unfold WriteVoice_0x0
    rw [hc]
    have hb : (UpdateWaveState (g2.voices idx) g2.voice_irq
        ((g2.register_data >>> 8) % 256)).2.2 = true := by rw [hu]
    rw [if_pos hb]
  unfold WriteToPort
  rw [if_neg (by rw [hp]; decide), if_neg (by rw [hp]; decide), if_neg (by rw [hp]; decide),
    if_neg (by rw [hp]; decide), if_neg (by rw [hp]; decide), if_neg (by rw [hp]; decide),
    if_neg (by rw [hp]; decide), if_pos hp, ← hg2, hw]

/-- C38: after the port writes that activate 14 voices, stop playback, select
voice 1 and select the wave control register `0x00`, the device has
`active_voices = 0` with the mask of 14 voices still in place; the write of
`0xA0` to the data port `0x305` that follows sets the wave IRQ bit of voice 1
and then searches for the pending voice without end: the write does not
return, whatever the fuel, so no read of register `0x80` follows it. -/
theorem wave_control_write_never_returns (fuel : Nat) :
    ((Gus.init 0x240 3 5).bind (runWrites 66 stopThenSelectVoiceWrites)).map
        (fun g => (g.selected_register, g.voice, g.active_voices, g.active_voice_mask,
          g.voice_irq)) = some (0x00, some 1, 0, 0x3FFF, ⟨0, 0, 0⟩) ∧
    ((Gus.init 0x240 3 5).bind (runWrites 66 stopThenSelectVoiceWrites)).bind
        (fun g => WriteToPort fuel g 0x345 0xA0 1) = none := by
  have hf : ((Gus.init 0x240 3 5).bind (runWrites 66 stopThenSelectVoiceWrites)).map
      (fun g => (g.port_base, g.selected_register, g.active_voices, g.active_voice_mask)) =
      some (0x40, 0x00, 0, 0x3FFF) := by
    decide
  have hf2 : ((Gus.init 0x240 3 5).bind (runWrites 66 stopThenSelectVoiceWrites)).map
      (fun g => (g.voice, g.voice_irq, (g.voices 1).irq_mask, g.register_data)) =
      some (some 1, ⟨0, 0, 0⟩, 2, 0) := by
    decide
  cases hg : (Gus.init 0x240 3 5).bind (runWrites 66 stopThenSelectVoiceWrites) with
  | none => rw [hg] at hf; cases hf
  | some g =>
    rw [hg] at hf hf2
    simp only [Option.map_some', Option.some.injEq, Prod.mk.injEq] at hf hf2
    obtain ⟨hpb, hsel, hav, hmask⟩ := hf
    obtain ⟨hv, hirq, him, hrd⟩ := hf2
    refine ⟨?_, ?_⟩
    · simp only [Option.map_some', hsel, hv, hav, hmask, hirq]
    · show WriteToPort fuel g 0x345 0xA0 1 = none
      exact WriteToPort_wave_ctrl_stuck fuel g 0x345 0xA0 1 ⟨0, 0, 0⟩ 0x3FFF 2 0
        (by rw [hpb]; decide) hsel hv hav hirq hmask him hrd (by decide) (by decide)
        (by decide) (by decide) (by decide)


/-! ## The IRQ/DMA select latch -/

theorem WriteToVoiceRegister_latch (fuel : Nat) (g g1 : Gus) (idx : Nat)
    (h : WriteToVoiceRegister fuel g idx = some g1) :
    g1.should_change_irq_dma = g.should_change_irq_dma := by
  unfold WriteToVoiceRegister at h
  split_ifs at h
  · unfold WriteVoice_0x0 at h
    split_ifs at h
    · obtain ⟨st, s, e, he⟩ := CheckVoiceIrq_frame _ _ _ h
      rw [he]; rfl
    · cases h; rfl
  · cases h; rfl
  · cases h; rfl
  · simp only [Option.map_eq_some'] at h
    obtain ⟨v1, _, hv⟩ := h
    subst hv; rfl
  · cases h; rfl
  · cases h; rfl
  · cases h; rfl
  · cases h; rfl
  · unfold WriteVoice_0xD at h
    split_ifs at h
    · obtain ⟨st, s, e, he⟩ := CheckVoiceIrq_frame _ _ _ h
      rw [he]; rfl
    · cases h; rfl
  · cases h; rfl

theorem ActivateVoices_latch (g g1 : Gus) (req : Nat) (h : ActivateVoices g req = some g1) :
    g1.should_change_irq_dma = g.should_change_irq_dma := by
  unfold ActivateVoices at h
  simp only [] at h
  split_ifs at h
  · cases h; rfl
  · cases h; rfl

/-- The runtime-control register and the latch: a stop clears it, the other
state bits keep it. -/
theorem WriteGlobal_0x4c_latch (g : Gus) :
    ((g.register_data >>> 8) &&& 7 = 0 → (WriteGlobal_0x4c g).should_change_irq_dma = false) ∧
    ((g.register_data >>> 8) &&& 7 ≠ 0 →
      (WriteGlobal_0x4c g).should_change_irq_dma = g.should_change_irq_dma) := by
  unfold WriteGlobal_0x4c
  obtain ⟨e, he⟩ := CheckIrq_eq
    (if (g.register_data >>> 8) &&& 7 = 0 then
       StopPlayback { g with irq_enabled := decide (g.register_data &&& 0x4 ≠ 0) }
     else if (g.register_data >>> 8) &&& 7 = 1 then
       PrepareForPlayback { g with irq_enabled := decide (g.register_data &&& 0x4 ≠ 0) }
     else if g.active_voices ≠ 0 then
       BeginPlayback { g with irq_enabled := decide (g.register_data &&& 0x4 ≠ 0) }
     else { g with irq_enabled := decide (g.register_data &&& 0x4 ≠ 0) })
  rw [he]
  show ((g.register_data >>> 8) &&& 7 = 0 →
      (if (g.register_data >>> 8) &&& 7 = 0 then
       StopPlayback { g with irq_enabled := decide (g.register_data &&& 0x4 ≠ 0) }
     else if (g.register_data >>> 8) &&& 7 = 1 then
       PrepareForPlayback { g with irq_enabled := decide (g.register_data &&& 0x4 ≠ 0) }
     else if g.active_voices ≠ 0 then
       BeginPlayback { g with irq_enabled := decide (g.register_data &&& 0x4 ≠ 0) }
     else { g with irq_enabled := decide (g.register_data &&& 0x4 ≠ 0) }).should_change_irq_dma =
      false) ∧
    ((g.register_data >>> 8) &&& 7 ≠ 0 →
      (if (g.register_data >>> 8) &&& 7 = 0 then
       StopPlayback { g with irq_enabled := decide (g.register_data &&& 0x4 ≠ 0) }
     else if (g.register_data >>> 8) &&& 7 = 1 then
       PrepareForPlayback { g with irq_enabled := decide (g.register_data &&& 0x4 ≠ 0) }
     else if g.active_voices ≠ 0 then
       BeginPlayback { g with irq_enabled := decide (g.register_data &&& 0x4 ≠ 0) }
     else { g with irq_enabled := decide (g.register_data &&& 0x4 ≠ 0) }).should_change_irq_dma =
      g.should_change_irq_dma)
  constructor
  · intro h0
    rw [if_pos h0]; rfl
  · intro h0
    rw [if_neg h0]
    split_ifs
    · rfl
    · unfold BeginPlayback
      simp only []
      split_ifs <;> rfl
    · rfl

/-- A register write clears the latch when it stops playback and keeps it
otherwise. -/
theorem WriteToRegister_latch (fuel : Nat) (g g1 : Gus) (h : WriteToRegister fuel g = some g1) :
    ((g.selected_register = 0x4c ∧ (g.register_data >>> 8) &&& 7 = 0) →
      g1.should_change_irq_dma = false) ∧
    (¬ (g.selected_register = 0x4c ∧ (g.register_data >>> 8) &&& 7 = 0) →
      g1.should_change_irq_dma = g.should_change_irq_dma) := by
  unfold WriteToRegister at h
  by_cases h1 : g.selected_register = 0xE
  · rw [if_pos h1] at h
    unfold WriteGlobal_0xE at h
    exact ⟨fun hc => by omega, fun _ => by rw [ActivateVoices_latch _ _ _ h]⟩
  rw [if_neg h1] at h
  by_cases h2 : g.selected_register = 0x10
  · rw [if_pos h2] at h
    cases h; exact ⟨fun hc => by omega, fun _ => rfl⟩
  rw [if_neg h2] at h
  by_cases h3 : g.selected_register = 0x41
  · rw [if_pos h3] at h
    cases h
    refine ⟨fun hc => by omega, fun _ => ?_⟩
    unfold WriteGlobal_0x41
    split_ifs <;> rfl
  rw [if_neg h3] at h
  by_cases h4 : g.selected_register = 0x42
  · rw [if_pos h4] at h
    cases h; exact ⟨fun hc => by omega, fun _ => rfl⟩
  rw [if_neg h4] at h
  by_cases h5 : g.selected_register = 0x43
  · rw [if_pos h5] at h
    cases h; exact ⟨fun hc => by omega, fun _ => rfl⟩
  rw [if_neg h5] at h
  by_cases h6 : g.selected_register = 0x44
  · rw [if_pos h6] at h
    cases h; exact ⟨fun hc => by omega, fun _ => rfl⟩
  rw [if_neg h6] at h
  by_cases h7 : g.selected_register = 0x45
  · rw [if_pos h7] at h
    cases h; exact ⟨fun hc => by omega, fun _ => rfl⟩
  rw [if_neg h7] at h
  by_cases h8 : g.selected_register = 0x46
  · rw [if_pos h8] at h
    cases h; exact ⟨fun hc => by omega, fun _ => rfl⟩
  rw [if_neg h8] at h
  by_cases h9 : g.selected_register = 0x47
  · rw [if_pos h9] at h
    cases h; exact ⟨fun hc => by omega, fun _ => rfl⟩
  rw [if_neg h9] at h
  by_cases h10 : g.selected_register = 0x49
  · rw [if_pos h10] at h
    cases h
    refine ⟨fun hc => by omega, fun _ => ?_⟩
    unfold WriteGlobal_0x49
    split_ifs <;> rfl
  rw [if_neg h10] at h
  by_cases h11 : g.selected_register = 0x4c
  · rw [if_pos h11] at h
    cases h
    exact ⟨fun hc => (WriteGlobal_0x4c_latch g).1 hc.2,
      fun hc => (WriteGlobal_0x4c_latch g).2 (fun h0 => hc ⟨h11, h0⟩)⟩
  rw [if_neg h11] at h
  refine ⟨fun hc => absurd hc.1 h11, fun _ => ?_⟩
  cases hv : g.voice with
  | none => rw [hv] at h; cases h; rfl
  | some idx =>
    rw [hv] at h
    exact WriteToVoiceRegister_latch fuel g g1 idx h

theorem UpdateDmaAddress_latch (g g1 : Gus) (a : Nat) (h : UpdateDmaAddress g a = some g1) :
    g1.should_change_irq_dma = g.should_change_irq_dma ∧ g1.port_base = g.port_base ∧
    g1.irq1 = g.irq1 := by
  unfold UpdateDmaAddress at h
  split_ifs at h
  · cases h; exact ⟨rfl, rfl, rfl⟩
  · simp only [] at h
    cases hc : GetDMAChannel a with
    | none => rw [hc] at h; cases h
    | some c => rw [hc] at h; cases h; exact ⟨rfl, rfl, rfl⟩

/-- Every channel-select write that returns leaves the latch clear. -/
theorem WritePort_0x20b_latch (g g1 : Gus) (val : Nat) (h : WritePort_0x20b g val = some g1) :
    g1.should_change_irq_dma = false ∧ g1.port_base = g.port_base := by
  unfold WritePort_0x20b at h
  split_ifs at h with h1 h2 h3 h4
  · cases h
    refine ⟨?_, rfl⟩
    cases hb : g.should_change_irq_dma
    · rfl
    · rw [hb] at h1; cases h1
  · cases h; exact ⟨rfl, rfl⟩
  · cases h; exact ⟨rfl, rfl⟩
  · obtain ⟨a, b, _⟩ := UpdateDmaAddress_latch _ _ _ h
    exact ⟨by rw [a], by rw [b]⟩
  · cases h; exact ⟨rfl, rfl⟩


/-- A port write other than to `0x200` and `0x20B` clears the latch when it
stops playback and keeps it otherwise. -/
theorem WriteToPort_latch (fuel : Nat) (g g1 : Gus) (port val iolen : Nat)
    (p1 : subSizeT port g.port_base ≠ 0x200) (p4 : subSizeT port g.port_base ≠ 0x20b)
    (h : WriteToPort fuel g port val iolen = some g1) :
    (IsStopWrite g port val iolen → g1.should_change_irq_dma = false) ∧
    (¬ IsStopWrite g port val iolen → g1.should_change_irq_dma = g.should_change_irq_dma) := by
  unfold WriteToPort at h
  rw [if_neg p1] at h
  by_cases p2 : subSizeT port g.port_base = 0x208
  · rw [if_pos p2] at h
    cases h
    exact ⟨fun hc => by unfold IsStopWrite at hc; omega, fun _ => rfl⟩
  rw [if_neg p2] at h
  by_cases p3 : subSizeT port g.port_base = 0x209
  · rw [if_pos p3] at h
    cases h
    refine ⟨fun hc => by unfold IsStopWrite at hc; omega, fun _ => ?_⟩
    unfold WritePort_0x209
    split_ifs <;> rfl
  rw [if_neg p3, if_neg p4] at h
  by_cases p5 : subSizeT port g.port_base = 0x302
  · rw [if_pos p5] at h
    cases h
    exact ⟨fun hc => by unfold IsStopWrite at hc; omega, fun _ => rfl⟩
  rw [if_neg p5] at h
  by_cases p6 : subSizeT port g.port_base = 0x303
  · rw [if_pos p6] at h
    cases h
    exact ⟨fun hc => by unfold IsStopWrite at hc; omega, fun _ => rfl⟩
  rw [if_neg p6] at h
  by_cases p7 : subSizeT port g.port_base = 0x304
  · rw [if_pos p7] at h
    by_cases hio : iolen = 2
    · rw [if_pos hio] at h
      obtain ⟨a, b⟩ := WriteToRegister_latch fuel { g with register_data := val % 65536 } g1 h
      constructor
      · intro hc
        unfold IsStopWrite at hc
        apply a
        rcases hc with ⟨hs, ⟨_, _, hst⟩ | ⟨hp, _⟩⟩
        · exact ⟨hs, hst⟩
        · omega
      · intro hc
        rw [b]
        intro hst
        apply hc
        exact ⟨hst.1, Or.inl ⟨p7, hio, hst.2⟩⟩
    · rw [if_neg hio] at h
      cases h
      refine ⟨fun hc => ?_, fun _ => rfl⟩
      unfold IsStopWrite at hc
      omega
  rw [if_neg p7] at h
  by_cases p8 : subSizeT port g.port_base = 0x305
  · rw [if_pos p8] at h
    obtain ⟨a, b⟩ := WriteToRegister_latch fuel
      { g with register_data := ((0x00ff &&& g.register_data) ||| (val <<< 8)) % 65536 } g1 h
    constructor
    · intro hc
      unfold IsStopWrite at hc
      apply a
      rcases hc with ⟨hs, ⟨hp, _⟩ | ⟨_, hst⟩⟩
      · omega
      · exact ⟨hs, hst⟩
    · intro hc
      rw [b]
      intro hst
      apply hc
      exact ⟨hst.1, Or.inr ⟨p8, hst.2⟩⟩
  rw [if_neg p8] at h
  by_cases p9 : subSizeT port g.port_base = 0x307
  · rw [if_pos p9] at h
    cases h
    refine ⟨fun hc => by unfold IsStopWrite at hc; omega, fun _ => ?_⟩
    split_ifs <;> rfl
  rw [if_neg p9] at h
  cases h
  exact ⟨fun hc => by unfold IsStopWrite at hc; omega, fun _ => rfl⟩

theorem ReadFromRegister_latch (fuel : Nat) (g g1 : Gus) (x : Nat)
    (h : ReadFromRegister fuel g = some (x, g1)) :
    g1.should_change_irq_dma = g.should_change_irq_dma := by
  unfold ReadFromRegister at h
  split_ifs at h
  · cases h
    obtain ⟨e, he⟩ := CheckIrq_eq { g with irq_status := g.irq_status &&& 0x7f }
    rw [he]
  · cases h; rfl
  · cases h; rfl
  · cases h; rfl
  · unfold ReadGlobal_0x8f at h
    simp only [Option.map_eq_some', Prod.mk.injEq] at h
    obtain ⟨g2, hg2, _, he⟩ := h
    subst he
    obtain ⟨st, s, e, hf⟩ := CheckVoiceIrq_frame _ _ _ hg2
    rw [hf]
  all_goals
    cases hv : g.voice with
    | none => rw [hv] at h; cases h; rfl
    | some idx =>
      rw [hv] at h
      simp only [Option.map_eq_some', Prod.mk.injEq] at h
      obtain ⟨y, _, _, he⟩ := h
      subst he; rfl

theorem ReadFromPort_latch (fuel : Nat) (g g1 : Gus) (port iolen x : Nat)
    (h : ReadFromPort fuel g port iolen = some (x, g1)) :
    g1.should_change_irq_dma = g.should_change_irq_dma := by
  unfold ReadFromPort at h
  split_ifs at h
  all_goals first
    | (cases h; rfl)
    | (simp only [Option.map_eq_some', Prod.mk.injEq] at h
       obtain ⟨r, hr, _, he⟩ := h
       subst he
       exact ReadFromRegister_latch fuel g r.2 r.1 hr)

/-- The latch of the code is the history bit: it is set exactly when port
`0x200` has been written since the latest of construction, the last stop and
the last write to port `0x20B`. -/
theorem SelectHistory_latch (b : Bool) (g : Gus) (h : SelectHistory b g) :
    g.should_change_irq_dma = b := by
  induction h with
  | init port dma irq g hg =>
    unfold Gus.init at hg
    rw [(UpdateDmaAddress_latch _ _ _ hg).1]; rfl
  | mix fuel b g g1 port val iolen _ hp hw _ =>
    unfold WriteToPort at hw
    rw [if_pos hp] at hw
    cases hw; rfl
  | select fuel b g g1 port val iolen _ hp hw _ =>
    unfold WriteToPort at hw
    rw [if_neg (by omega), if_neg (by omega), if_neg (by omega), if_pos hp] at hw
    exact (WritePort_0x20b_latch g g1 val hw).1
  | stop fuel b g g1 port val iolen _ hs hw _ =>
    have p1 : subSizeT port g.port_base ≠ 0x200 := by unfold IsStopWrite at hs; omega
    have p4 : subSizeT port g.port_base ≠ 0x20b := by unfold IsStopWrite at hs; omega
    exact (WriteToPort_latch fuel g g1 port val iolen p1 p4 hw).1 hs
  | write fuel b g g1 port val iolen _ p1 p4 hs hw ih =>
    rw [(WriteToPort_latch fuel g g1 port val iolen p1 p4 hw).2 hs]
    exact ih
  | read fuel b g g1 port iolen x _ hr ih =>
    rw [ReadFromPort_latch fuel g g1 port iolen x hr]
    exact ih

theorem WriteToPort_0x20b_case (fuel : Nat) (g : Gus) (port val iolen : Nat)
    (hp : subSizeT port g.port_base = 0x20b) :
    WriteToPort fuel g port val iolen = WritePort_0x20b g val := by
  unfold WriteToPort
  have p1 : subSizeT port g.port_base ≠ 0x200 := by omega
  have p2 : subSizeT port g.port_base ≠ 0x208 := by omega
  have p3 : subSizeT port g.port_base ≠ 0x209 := by omega
  rw [if_neg p1, if_neg p2, if_neg p3, if_pos hp]


/-- C32: a write to port `0x20B` changes the IRQ or DMA assignment only if
port `0x200` has been written since the previous write to `0x20B` and since
construction or the last stop: without such a write (`b = false`) the write
returns the device unchanged. Every `0x20B` write that returns leaves the
latch clear, so a second consecutive `0x20B` write returns the same device
(neither `irq1` nor `dma1` changes). When it is applied (`b = true`) with
`mix_ctrl` bit `0x40` set, the write returns, `irq1` becomes the entry of
`[0, 2, 5, 3, 7, 11, 12, 15]` at index `val & 7` unless that entry is 0, in
which case `irq1` is kept, and `dma1` is unchanged. -/
theorem channel_select_latch (fuel : Nat) (b : Bool) (g : Gus) (port val iolen : Nat)
    (hh : SelectHistory b g) (hp : subSizeT port g.port_base = 0x20b) :
    (b = false → WriteToPort fuel g port val iolen = some g) ∧
    (∀ g1, WriteToPort fuel g port val iolen = some g1 →
      (g1.irq1 ≠ g.irq1 ∨ g1.dma1 ≠ g.dma1) → b = true) ∧
    (∀ g1, WriteToPort fuel g port val iolen = some g1 →
      g1.should_change_irq_dma = false ∧
      ∀ fuel2 port2 val2 iolen2, subSizeT port2 g1.port_base = 0x20b →
        WriteToPort fuel2 g1 port2 val2 iolen2 = some g1) ∧
    (b = true → g.mix_ctrl &&& 0x40 ≠ 0 →
      ∃ g1, WriteToPort fuel g port val iolen = some g1 ∧
        g1.irq1 = (if [0, 2, 5, 3, 7, 11, 12, 15].getD (val &&& 7) 0 = 0 then g.irq1
                   else [0, 2, 5, 3, 7, 11, 12, 15].getD (val &&& 7) 0) ∧
        g1.dma1 = g.dma1) := by
  have hl := SelectHistory_latch b g hh
  have hclear : ∀ (f : Nat) (d : Gus) (p v i : Nat), subSizeT p d.port_base = 0x20b →
      d.should_change_irq_dma = false → WriteToPort f d p v i = some d := by
    intro f d p v i hpd hd
    rw [WriteToPort_0x20b_case f d p v i hpd]
    unfold WritePort_0x20b
    rw [hd]; rfl
  have h1 : b = false → WriteToPort fuel g port val iolen = some g := by
    intro hb
    exact hclear fuel g port val iolen hp (by rw [hl, hb])
  refine ⟨h1, ?_, ?_, ?_⟩
  · intro g1 hw hne
    cases hb : b with
    | true => rfl
    | false =>
      rw [h1 hb] at hw
      cases hw
      rcases hne with hne | hne <;> exact absurd rfl hne
  · intro g1 hw
    rw [WriteToPort_0x20b_case fuel g port val iolen hp] at hw
    obtain ⟨hc, _⟩ := WritePort_0x20b_latch g g1 val hw
    exact ⟨hc, fun f p v i hpd => hclear f g1 p v i hpd hc⟩
  · intro hb hm
    rw [WriteToPort_0x20b_case fuel g port val iolen hp]
    unfold WritePort_0x20b
    rw [hl, hb]
    have hn : (!true) = false := rfl
    rw [hn, if_neg (by simp), if_pos hm]
    by_cases he : irq_addresses.getD (val &&& 0x7) 0 = 0
    · refine ⟨_, rfl, ?_, ?_⟩
      · rw [if_neg (not_not.mpr he)]
        have he2 : [0, 2, 5, 3, 7, 11, 12, 15].getD (val &&& 7) 0 = 0 := he
        rw [if_pos he2]
      · rw [if_neg (not_not.mpr he)]
    · refine ⟨_, rfl, ?_, ?_⟩
      · rw [if_pos he]
        have he2 : ¬ [0, 2, 5, 3, 7, 11, 12, 15].getD (val &&& 7) 0 = 0 := he
        rw [if_neg he2]
        rfl
      · rw [if_pos he]

theorem channel_select_latch_witness :
    SelectHistory true armedDevice ∧
    ∃ g1, WriteToPort 0 armedDevice 0x24B 1 1 = some g1 ∧ g1.irq1 = 2 ∧ g1.dma1 = 3 := by
  have hh : SelectHistory true armedDevice :=
    SelectHistory.mix 0 false bootDevice armedDevice 0x240 0x40 1
      (SelectHistory.init 0x240 3 5 bootDevice rfl) (by decide) rfl
  obtain ⟨g1, h, hi, hd⟩ :=
    (channel_select_latch 0 true armedDevice 0x24B 1 1 hh (by decide)).2.2.2 rfl (by decide)
  exact ⟨hh, g1, h, hi.trans (by decide), hd.trans rfl⟩


/-! ## Control registers: write and read back -/

/-- The state byte read back after `UpdateCtrlState`: the low 7 bits of the
written byte, with bit `0x80` exactly when the byte has both `0x80` and
`0x20`. -/
theorem UpdateCtrlState_readback (ctrl : VoiceCtrl) (irq_state m s : Nat) (hm0 : m ≠ 0)
    (hm : m < 2 ^ 32) :
    ReadCtrlState (UpdateCtrlState ctrl irq_state m s).1 (UpdateCtrlState ctrl irq_state m s).2.1
      m = (s &&& 0x7f) ||| (if s &&& 0xa0 = 0xa0 then 0x80 else 0) := by
  unfold UpdateCtrlState ReadCtrlState
  simp only []
  by_cases hs : s &&& 0xa0 = 0xa0
  · rw [if_pos hs, if_pos hs]
    have e : (irq_state ||| m) &&& m = m := by
      apply Nat.eq_of_testBit_eq
      intro j
      rw [Nat.testBit_and, Nat.testBit_or]
      cases irq_state.testBit j <;> cases m.testBit j <;> rfl
    rw [e, if_pos hm0]
  · rw [if_neg hs, if_neg hs]
    have e : (irq_state &&& (0xFFFFFFFF ^^^ m)) &&& m = 0 := by
      apply Nat.eq_of_testBit_eq
      intro j
      rw [Nat.testBit_and, Nat.testBit_and, Nat.testBit_xor, Nat.zero_testBit]
      by_cases hj : j < 32
      · have h1 : Nat.testBit 0xFFFFFFFF j = true := by
          have := Nat.testBit_two_pow_sub_one 32 j
          simpa [hj] using this
        rw [h1]
        cases irq_state.testBit j <;> cases m.testBit j <;> rfl
      · have h2 : m.testBit j = false :=
          Nat.testBit_eq_false_of_lt (lt_of_lt_of_le hm (Nat.pow_le_pow_right (by decide)
            (by omega)))
        rw [h2]
        simp
    rw [e, if_neg (by simp)]
    simp

/-- The bits of the IRQ bitmask outside the voice's own mask are kept by
`UpdateCtrlState`. -/
theorem UpdateCtrlState_other_bits (ctrl : VoiceCtrl) (irq_state m s j : Nat) (hj : j < 32)
    (hmj : m.testBit j = false) :
    (UpdateCtrlState ctrl irq_state m s).2.1.testBit j = irq_state.testBit j := by
  unfold UpdateCtrlState
  simp only []
  split_ifs
  · rw [Nat.testBit_or, hmj, Bool.or_false]
  · rw [Nat.testBit_and, Nat.testBit_xor, hmj]
    have h1 : Nat.testBit 0xFFFFFFFF j = true := by
      have := Nat.testBit_two_pow_sub_one 32 j
      simpa [hj] using this
    rw [h1]
    simp


/-- The device after a wave-control write that returns: the voice and the
wave bitmask are those of `UpdateWaveState`; `CheckVoiceIrq` touches only
`irq_status`, the cursor and the recorded calls. -/
theorem WriteVoice_0x0_frame (fuel : Nat) (g g1 : Gus) (idx : Nat)
    (h : WriteVoice_0x0 fuel g idx = some g1) :
    ∃ (st s : Nat) (e : List Effect),
      g1 = { g with
        voices := Function.update g.voices idx
          (UpdateWaveState (g.voices idx) g.voice_irq ((g.register_data >>> 8) % 256)).1,
        voice_irq :=
          { (UpdateWaveState (g.voices idx) g.voice_irq ((g.register_data >>> 8) % 256)).2.1
            with status := s },
        irq_status := st, effects := e } := by
  unfold WriteVoice_0x0 at h
  split_ifs at h
  · obtain ⟨st, s, e, he⟩ := CheckVoiceIrq_frame _ _ _ h
    exact ⟨st, s, e, he⟩
  · cases h
    exact ⟨g.irq_status, _, g.effects, rfl⟩

/-- The device after a volume-control write that returns. -/
theorem WriteVoice_0xD_frame (fuel : Nat) (g g1 : Gus) (idx : Nat)
    (h : WriteVoice_0xD fuel g idx = some g1) :
    ∃ (st s : Nat) (e : List Effect),
      g1 = { g with
        voices := Function.update g.voices idx
          (UpdateVolState (g.voices idx) g.voice_irq ((g.register_data >>> 8) % 256)).1,
        voice_irq :=
          { (UpdateVolState (g.voices idx) g.voice_irq ((g.register_data >>> 8) % 256)).2.1
            with status := s },
        irq_status := st, effects := e } := by
  unfold WriteVoice_0xD at h
  split_ifs at h
  · obtain ⟨st, s, e, he⟩ := CheckVoiceIrq_frame _ _ _ h
    exact ⟨st, s, e, he⟩
  · cases h
    exact ⟨g.irq_status, _, g.effects, rfl⟩

/-- Wave control, where the write returns: with voice `idx` selected, a write
of the byte `s` (the high data byte) to register `0x00` followed by the read of
register `0x80` gives the high byte `(s & 0x7F) | (0x80 if s has 0x80 and
0x20)`; the write keeps the volume bitmask and every bit of the wave bitmask
outside the voice's own mask. -/
theorem wave_control_readback (fuel : Nat) (g g1 : Gus) (idx : Nat)
    (hv : g.voice = some idx) (hsel : g.selected_register = 0x0)
    (hm0 : (g.voices idx).irq_mask ≠ 0) (hm : (g.voices idx).irq_mask < 2 ^ 32)
    (hw : WriteToRegister fuel g = some g1) :
    ReadFromRegister fuel { g1 with selected_register := 0x80, register_data := 0 } =
      some ((((((g.register_data >>> 8) % 256) &&& 0x7f) |||
          (if ((g.register_data >>> 8) % 256) &&& 0xa0 = 0xa0 then 0x80 else 0)) <<< 8) % 65536,
        { g1 with selected_register := 0x80, register_data := 0 }) ∧
    g1.voice_irq.vol_state = g.voice_irq.vol_state ∧
    (∀ j, j < 32 → (g.voices idx).irq_mask.testBit j = false →
      g1.voice_irq.wave_state.testBit j = g.voice_irq.wave_state.testBit j) ∧
    (∀ k, k ≠ idx → g1.voices k = g.voices k) := by
  rw [WriteToRegister_voice_case fuel g (by omega), hv] at hw
  change WriteToVoiceRegister fuel g idx = some g1 at hw
  unfold WriteToVoiceRegister at hw
  rw [if_pos hsel] at hw
  obtain ⟨st, s, e, he⟩ := WriteVoice_0x0_frame fuel g g1 idx hw
  have hvo : g1.voices idx =
      (UpdateWaveState (g.voices idx) g.voice_irq ((g.register_data >>> 8) % 256)).1 := by
    rw [he]
    show Function.update g.voices idx _ idx = _
    rw [Function.update_same]
  have hws : g1.voice_irq.wave_state =
      (UpdateCtrlState (g.voices idx).wave_ctrl g.voice_irq.wave_state (g.voices idx).irq_mask
        ((g.register_data >>> 8) % 256)).2.1 := by
    rw [he]; rfl
  have hvs : g1.voice_irq.vol_state = g.voice_irq.vol_state := by rw [he]; rfl
  have hv1 : g1.voice = some idx := by rw [he]; exact hv
  refine ⟨?_, hvs, ?_, ?_⟩
  · obtain ⟨g2, hg2⟩ : ∃ g2 : Gus,
        g2 = { g1 with selected_register := 0x80, register_data := 0 } := ⟨_, rfl⟩
    rw [← hg2]
    have hs2 : g2.selected_register = 0x80 := by rw [hg2]
    have hv2 : g2.voice = some idx := by rw [hg2]; exact hv1
    rw [ReadFromRegister_selected_voice fuel g2 idx (by omega) hv2]
    unfold ReadFromVoiceRegister
    rw [if_pos hs2]
    have hvo2 : g2.voices idx = g1.voices idx := by rw [hg2]
    have hvi2 : g2.voice_irq = g1.voice_irq := by rw [hg2]
    rw [hvo2, hvi2]
    have hr : ReadWaveState (g1.voices idx) g1.voice_irq =
        (((g.register_data >>> 8) % 256) &&& 0x7f) |||
          (if ((g.register_data >>> 8) % 256) &&& 0xa0 = 0xa0 then 0x80 else 0) := by
      unfold ReadWaveState
      rw [hvo, hws]
      exact UpdateCtrlState_readback (g.voices idx).wave_ctrl g.voice_irq.wave_state
        (g.voices idx).irq_mask ((g.register_data >>> 8) % 256) hm0 hm
    rw [hr]
    rfl
  · intro j hj hmj
    rw [hws]
    exact UpdateCtrlState_other_bits _ _ _ _ j hj hmj
  · intro k hk
    rw [he]
    show Function.update g.voices idx _ k = _
    rw [Function.update_noteq hk]


theorem WriteToVoiceRegister_0xD_case (fuel : Nat) (g : Gus) (idx : Nat)
    (h : g.selected_register = 0xD) :
    WriteToVoiceRegister fuel g idx = WriteVoice_0xD fuel g idx := by
  unfold WriteToVoiceRegister
  simp only [h]
  rfl

theorem ReadFromVoiceRegister_0x8d_case (g : Gus) (idx : Nat) (h : g.selected_register = 0x8d) :
    ReadFromVoiceRegister g idx =
      some ((ReadVolState (g.voices idx) g.voice_irq <<< 8) % 65536) := by
  unfold ReadFromVoiceRegister
  simp only [h]
  rfl

/-- Volume control, where the write returns: with voice `idx` selected, a
write of the byte `s` (the high data byte) to register `0x0D` followed by the
read of register `0x8D` gives the high byte `(s & 0x7F) | (0x80 if s has 0x80
and 0x20)`; the write keeps the wave bitmask and every bit of the volume
bitmask outside the voice's own mask. -/
theorem volume_control_readback (fuel : Nat) (g g1 : Gus) (idx : Nat)
    (hv : g.voice = some idx) (hsel : g.selected_register = 0xD)
    (hm0 : (g.voices idx).irq_mask ≠ 0) (hm : (g.voices idx).irq_mask < 2 ^ 32)
    (hw : WriteToRegister fuel g = some g1) :
    ReadFromRegister fuel { g1 with selected_register := 0x8d, register_data := 0 } =
      some ((((((g.register_data >>> 8) % 256) &&& 0x7f) |||
          (if ((g.register_data >>> 8) % 256) &&& 0xa0 = 0xa0 then 0x80 else 0)) <<< 8) % 65536,
        { g1 with selected_register := 0x8d, register_data := 0 }) ∧
    g1.voice_irq.wave_state = g.voice_irq.wave_state ∧
    (∀ j, j < 32 → (g.voices idx).irq_mask.testBit j = false →
      g1.voice_irq.vol_state.testBit j = g.voice_irq.vol_state.testBit j) ∧
    (∀ k, k ≠ idx → g1.voices k = g.voices k) := by
  rw [WriteToRegister_voice_case fuel g (by omega), hv] at hw
  change WriteToVoiceRegister fuel g idx = some g1 at hw
  rw [WriteToVoiceRegister_0xD_case fuel g idx hsel] at hw
  obtain ⟨st, s, e, he⟩ := WriteVoice_0xD_frame fuel g g1 idx hw
  have hvo : g1.voices idx =
      (UpdateVolState (g.voices idx) g.voice_irq ((g.register_data >>> 8) % 256)).1 := by
    rw [he]
    show Function.update g.voices idx _ idx = _
    rw [Function.update_same]
  have hws : g1.voice_irq.vol_state =
      (UpdateCtrlState (g.voices idx).vol_ctrl g.voice_irq.vol_state (g.voices idx).irq_mask
        ((g.register_data >>> 8) % 256)).2.1 := by
    rw [he]; rfl
  have hvs : g1.voice_irq.wave_state = g.voice_irq.wave_state := by rw [he]; rfl
  have hv1 : g1.voice = some idx := by rw [he]; exact hv
  refine ⟨?_, hvs, ?_, ?_⟩
  · obtain ⟨g2, hg2⟩ : ∃ g2 : Gus,
        g2 = { g1 with selected_register := 0x8d, register_data := 0 } := ⟨_, rfl⟩
    rw [← hg2]
    have hs2 : g2.selected_register = 0x8d := by rw [hg2]
    have hv2 : g2.voice = some idx := by rw [hg2]; exact hv1
    rw [ReadFromRegister_selected_voice fuel g2 idx (by omega) hv2,
      ReadFromVoiceRegister_0x8d_case g2 idx hs2]
    have hvo2 : g2.voices idx = g1.voices idx := by rw [hg2]
    have hvi2 : g2.voice_irq = g1.voice_irq := by rw [hg2]
    rw [hvo2, hvi2]
    have hr : ReadVolState (g1.voices idx) g1.voice_irq =
        (((g.register_data >>> 8) % 256) &&& 0x7f) |||
          (if ((g.register_data >>> 8) % 256) &&& 0xa0 = 0xa0 then 0x80 else 0) := by
      unfold ReadVolState
      rw [hvo, hws]
      exact UpdateCtrlState_readback (g.voices idx).vol_ctrl g.voice_irq.vol_state
        (g.voices idx).irq_mask ((g.register_data >>> 8) % 256) hm0 hm
    rw [hr]
    rfl
  · intro j hj hmj
    rw [hws]
    exact UpdateCtrlState_other_bits _ _ _ _ j hj hmj
  · intro k hk
    rw [he]
    show Function.update g.voices idx _ k = _
    rw [Function.update_noteq hk]

end Gus
